import Mathlib

/-!
# Nessus remote client: lifecycle controller

A shallow embedding of `client.go`, `nessus_setup_windows.go` and
`permissions_windows.go`.  Every function that talks to the outside world (HTTP
exchanges, sub-processes, the settings file, the operator) is embedded as a pure
function of the answers the outside world gives, returning the trace of effects it
performs together with the way it finishes (returning a value, or terminating the
process through `os.Exit`).  The signal handler, a goroutine beside `main`, is
embedded as a machine whose steps a schedule interleaves with the effects of `main`.
-/

namespace NessusClient

/-! ## Effects and runs -/

/-- Functions of `client.go` whose entry is recorded in the trace. -/
inductive Fn where
  | installTunnel
  | statusLoop
  | startScan
  | exportReport
  | deleteScan
  | restore
  | uninstallTunnel
  | setupWindowsNessus
  | storeCurrentSettings
  | saveSettingsToFile
  deriving DecidableEq, Repr

/-- Observable effects, in the order in which the program performs them. -/
inductive Event where
  | call (f : Fn)
  | getStatus (scanID : Int)
  | stopScan (scanID : Int)
  | deleteReq (scanID : Int)
  | createScan
  | exportReq (scanID : Int)
  | checkAPI
  | sleep (seconds : Nat)
  | promptEmail
  | promptCredentialed
  | promptCredentials
  | sshProbe
  | readSettingsFile
  | writeSettingsFile
  | exec (command : String)
  | installNetbird
  | installCommands
  | uninstallCommands
  | removeTempFile (path : String)
  | removeTempDir (path : String)
  | requestPrivileges
  deriving DecidableEq, Repr

/-- How a piece of the program finishes: it returns a value, it terminates the
process with an exit code, or it is still running when the model stops (the
scripted answers of the outside world ran out while it was waiting for one, or
the number of loop passes granted to the model is used up). -/
inductive Ctl (α : Type) where
  | ret (a : α)
  | exit (code : Nat)
  | starved
  deriving DecidableEq, Repr

/-- The trace of effects of a piece of the program and the way it finishes. -/
structure Run (ε α : Type) where
  trace : List ε
  ctl : Ctl α
  deriving DecidableEq, Repr

/-- Sequential composition: the continuation runs only if the first part returns. -/
def Run.bind {ε α β : Type} (r : Run ε α) (f : α → Run ε β) : Run ε β :=
  match r.ctl with
  | .ret a => ⟨r.trace ++ (f a).trace, (f a).ctl⟩
  | .exit c => ⟨r.trace, .exit c⟩
  | .starved => ⟨r.trace, .starved⟩

/-- A run that performs no effect and returns. -/
def Run.pure {ε α : Type} (a : α) : Run ε α := ⟨[], .ret a⟩

/-- A run that performs the given effects and returns. -/
def Run.emit {ε : Type} (es : List ε) : Run ε Unit := ⟨es, .ret ()⟩

/-- The call `os.Exit(code)`. -/
def Run.osExit {ε α : Type} (code : Nat) : Run ε α := ⟨[], .exit code⟩

/-- Effects performed before a run. -/
def Run.after {ε α : Type} (es : List ε) (r : Run ε α) : Run ε α := ⟨es ++ r.trace, r.ctl⟩

/-- A call whose result is discarded. -/
def Run.discard {ε α : Type} (r : Run ε α) : Run ε Unit := r.bind (fun _ => Run.pure ())

/-! ## The status payload and `getScanStatus` -/

/-- A JSON document. Number literals are split into integer literals and all
others (a fraction or an exponent), which is what decoding into a Go `int` looks at. -/
inductive JSON where
  | null
  | bool (b : Bool)
  | int (n : Int)
  | float
  | str (s : String)
  | arr (items : List JSON)
  | obj (members : List (String × JSON))

/-- Element type of `ScanStatusResponse.Hosts`. -/
structure Host where
  critical : Int
  high : Int
  medium : Int
  low : Int
  info : Int
  scanProgressCurrent : Int
  progress : String
  deriving DecidableEq, Repr

/-- Type of `ScanStatusResponse.Info`. -/
structure Info where
  status : String
  deriving DecidableEq, Repr

/-- The Go struct `ScanStatusResponse`. -/
structure ScanStatusResponse where
  hosts : List Host
  info : Info
  deriving DecidableEq, Repr

/-- Go zero value of a host entry. -/
def Host.zero : Host := ⟨0, 0, 0, 0, 0, 0, ""⟩

/-- Go zero value of `ScanStatusResponse` (`var scanStatus ScanStatusResponse`). -/
def ScanStatusResponse.zero : ScanStatusResponse := ⟨[], ⟨""⟩⟩

/-- Range of the Go type `int` on the 64-bit targets the binary is built for. -/
def fitsInt64 (n : Int) : Bool := decide (-(2 ^ 63 : Int) ≤ n) && decide (n < (2 ^ 63 : Int))

/-- Lower-casing of ASCII letters. -/
def asciiLower (c : Char) : Char :=
  if 65 ≤ c.toNat ∧ c.toNat ≤ 90 then Char.ofNat (c.toNat + 32) else c

/-- Case folding of one character of an object key as `encoding/json` applies it
when it compares the key with a struct tag (Unicode simple case folding). The
ASCII letters fold with their other case, and two further characters fold to an
ASCII letter: U+017F (long s) to `s` and U+212A (Kelvin sign) to `k`. Every other
character is left as it is: it belongs to no fold class of an ASCII character,
and the tags of this program are ASCII. -/
def foldChar (c : Char) : Char :=
  if c.toNat = 383 then 's'
  else if c.toNat = 8490 then 'k'
  else asciiLower c

/-- Matching of an object key against a struct tag by `encoding/json`: the exact
name, or the name up to case folding (`foldChar`). All tags of this program are
lower-case ASCII. -/
def keyMatches (key tag : String) : Bool := key.data.map foldChar == tag.data.map foldChar

/-- Decoding of a JSON value into an `int` field holding `cur`: `null` leaves
the field alone, an integer literal in range is stored, anything else is an
`UnmarshalTypeError` (`none`). -/
def setInt (v : JSON) (cur : Int) : Option Int :=
  match v with
  | .null => some cur
  | .int n => if fitsInt64 n then some n else none
  | _ => none

/-- Decoding of a JSON value into a `string` field holding `cur`. -/
def setString (v : JSON) (cur : String) : Option String :=
  match v with
  | .null => some cur
  | .str s => some s
  | _ => none

/-- Decoding of one member of a host object; members with an unknown key are skipped. -/
def decodeHostMember (h : Host) (kv : String × JSON) : Option Host :=
  if keyMatches kv.1 "critical" then (setInt kv.2 h.critical).map (fun n => { h with critical := n })
  else if keyMatches kv.1 "high" then (setInt kv.2 h.high).map (fun n => { h with high := n })
  else if keyMatches kv.1 "medium" then (setInt kv.2 h.medium).map (fun n => { h with medium := n })
  else if keyMatches kv.1 "low" then (setInt kv.2 h.low).map (fun n => { h with low := n })
  else if keyMatches kv.1 "info" then (setInt kv.2 h.info).map (fun n => { h with info := n })
  else if keyMatches kv.1 "scanprogresscurrent" then
    (setInt kv.2 h.scanProgressCurrent).map (fun n => { h with scanProgressCurrent := n })
  else if keyMatches kv.1 "progress" then
    (setString kv.2 h.progress).map (fun s => { h with progress := s })
  else some h

/-- Decoding of the members of a host object, in document order. -/
def decodeHostMembers : Host → List (String × JSON) → Option Host
  | h, [] => some h
  | h, kv :: rest =>
    match decodeHostMember h kv with
    | some h' => decodeHostMembers h' rest
    | none => none

/-- Decoding of one element of the `hosts` array into the slice element holding
`cur`: `null` leaves the element alone, an object is decoded member by member
into it (fields the object does not mention keep the value of `cur`). -/
def decodeHost (cur : Host) (v : JSON) : Option Host :=
  match v with
  | .null => some cur
  | .obj ms => decodeHostMembers cur ms
  | _ => none

/-- Decoding of the elements of an array into a slice whose backing array holds
`backing`: element `i` is decoded into `backing[i]` when the backing array has
one, and into a zero entry of a grown array otherwise. -/
def decodeHostList : List Host → List JSON → Option (List Host)
  | _, [] => some []
  | backing, v :: rest =>
    match decodeHost (backing.headD Host.zero) v, decodeHostList backing.tail rest with
    | some h, some hs => some (h :: hs)
    | _, _ => none

/-- Decoding of the value of a `hosts` member into the slice field whose backing
array holds `backing` (the elements of the slice followed by those beyond its
length). The result is the new slice and the elements of its backing array beyond
the new length. `null` sets the slice to nil and `[]` to a fresh empty slice; the
elements of a non-empty array are decoded into the elements the backing array
already holds, which is how `encoding/json` treats a key that occurs again. -/
def decodeHosts (v : JSON) (backing : List Host) : Option (List Host × List Host) :=
  match v with
  | .null => some ([], [])
  | .arr [] => some ([], [])
  | .arr (item :: items) =>
    (decodeHostList backing (item :: items)).map
      (fun hs => (hs, backing.drop (item :: items).length))
  | _ => none

/-- Decoding of one member of the `info` object. -/
def decodeInfoMember (i : Info) (kv : String × JSON) : Option Info :=
  if keyMatches kv.1 "status" then (setString kv.2 i.status).map (fun s => { i with status := s })
  else some i

/-- Decoding of the members of the `info` object, in document order. -/
def decodeInfoMembers : Info → List (String × JSON) → Option Info
  | i, [] => some i
  | i, kv :: rest =>
    match decodeInfoMember i kv with
    | some i' => decodeInfoMembers i' rest
    | none => none

/-- Decoding of the value of the `info` member into the struct field holding `cur`. -/
def decodeInfo (v : JSON) (cur : Info) : Option Info :=
  match v with
  | .null => some cur
  | .obj ms => decodeInfoMembers cur ms
  | _ => none

/-- The variable `scanStatus` while `json.Unmarshal` fills it: the struct, and the
elements of the backing array of `Hosts` that lie beyond its length. -/
structure Decoding where
  value : ScanStatusResponse
  spare : List Host

/-- Decoding of one member of the top-level object. -/
def decodeTopMember (d : Decoding) (kv : String × JSON) : Option Decoding :=
  if keyMatches kv.1 "hosts" then
    (decodeHosts kv.2 (d.value.hosts ++ d.spare)).map
      (fun p => ⟨{ d.value with hosts := p.1 }, p.2⟩)
  else if keyMatches kv.1 "info" then
    (decodeInfo kv.2 d.value.info).map (fun i => ⟨{ d.value with info := i }, d.spare⟩)
  else some d

/-- Decoding of the members of the top-level object, in document order. -/
def decodeTopMembers : Decoding → List (String × JSON) → Option Decoding
  | d, [] => some d
  | d, kv :: rest =>
    match decodeTopMember d kv with
    | some d' => decodeTopMembers d' rest
    | none => none

/-- The call `json.Unmarshal(body, &scanStatus)` on a well-formed document; `none`
is a non-nil error. `encoding/json` records the first type error and goes on
decoding, but `getScanStatus` discards the struct whenever the error is non-nil,
so stopping at the first error is the same to the caller. -/
def unmarshalScanStatus (v : JSON) : Option ScanStatusResponse :=
  match v with
  | .null => some ScanStatusResponse.zero
  | .obj ms => (decodeTopMembers ⟨ScanStatusResponse.zero, []⟩ ms).map Decoding.value
  | _ => none

/-- A response body: bytes that are not a JSON document, or a JSON document. -/
inductive Body where
  | malformed
  | json (v : JSON)

/-- What `http.Get` followed by `ioutil.ReadAll` yields. The HTTP status code is
carried along; `getScanStatus` does not look at it. -/
inductive GetResponse where
  | transportError
  | readError (code : Nat)
  | received (code : Nat) (body : Body)

/-- The non-nil errors of `getScanStatus`. -/
inductive StatusError where
  | sendGet
  | readBody
  | unmarshal
  | noHost
  deriving DecidableEq, Repr

/-- The eight values `getScanStatus` returns beside the error. -/
structure StatusReport where
  critical : Int
  high : Int
  medium : Int
  low : Int
  info : Int
  scanProgressCurrent : Int
  percentage : String
  status : String
  deriving DecidableEq, Repr

/-- Result of `getScanStatus`. -/
inductive StatusOutcome where
  | error (e : StatusError)
  | ok (r : StatusReport)
  deriving DecidableEq, Repr

/-- The function `getScanStatus` of `client.go`, as a function of the response to its GET. -/
def getScanStatus (resp : GetResponse) : StatusOutcome :=
  match resp with
  | .transportError => .error .sendGet
  | .readError _ => .error .readBody
  | .received _ .malformed => .error .unmarshal
  | .received _ (.json v) =>
    match unmarshalScanStatus v with
    | none => .error .unmarshal
    | some scanStatus =>
      match scanStatus.hosts with
      | host :: _ =>
        .ok ⟨host.critical, host.high, host.medium, host.low, host.info,
             host.scanProgressCurrent, host.progress, scanStatus.info.status⟩
      | [] => .error .noHost

/-! ## `deleteScan` -/

/-- Result of an HTTP exchange of which only the status code is used. -/
inductive HttpResult where
  | transportError
  | status (code : Nat)
  deriving DecidableEq, Repr

/-- Answers of the remote service to the requests of one `deleteScan` call. -/
structure DeleteWorld where
  statusResp : GetResponse
  stopResp : HttpResult
  deleteResp : HttpResult

/-- The non-nil errors of `deleteScan`. -/
inductive DeleteError where
  | getStatus
  | stopSend
  | stopStatus (code : Nat)
  | deleteSend
  | deleteStatus (code : Nat)
  deriving DecidableEq, Repr

/-- The part of `deleteScan` from the DELETE request on. -/
def deleteRequest (scanID : Int) (resp : HttpResult) : Run Event (Option DeleteError) :=
  match resp with
  | .transportError => ⟨[.deleteReq scanID], .ret (some .deleteSend)⟩
  | .status code =>
    if code ≠ 200 then ⟨[.deleteReq scanID], .ret (some (.deleteStatus code))⟩
    else ⟨[.deleteReq scanID], .ret none⟩

/-- The function `deleteScan` of `client.go`; the value returned is its `error`. -/
def deleteScan (scanID : Int) (w : DeleteWorld) : Run Event (Option DeleteError) :=
  Run.after [.call .deleteScan, .getStatus scanID]
    (match getScanStatus w.statusResp with
     | .error _ => Run.pure (some .getStatus)
     | .ok r =>
       if r.status = "running" then
         match w.stopResp with
         | .transportError => ⟨[.stopScan scanID], .ret (some .stopSend)⟩
         | .status code =>
           if code ≠ 200 then ⟨[.stopScan scanID], .ret (some (.stopStatus code))⟩
           else Run.after [.stopScan scanID, .sleep 5] (deleteRequest scanID w.deleteResp)
       else deleteRequest scanID w.deleteResp)

/-! ## `statusLoop` -/

/-- What one pass through the body of the polling loop decides, with the value of
the failure counter `count` after the pass. -/
inductive Iter where
  | again (count : Nat)
  | done (count : Nat)
  | fatal (count : Nat)
  deriving DecidableEq, Repr

/-- The failure counter after a pass. -/
def Iter.count : Iter → Nat
  | .again c => c
  | .done c => c
  | .fatal c => c

/-- One pass through the body of the `for` loop of `statusLoop`, for a counter
value `count` and the outcome of the `getScanStatus` call of this pass. The
constant of the comparison `count > 20` is the parameter `bound`. -/
def statusLoopIter (bound count : Nat) (o : StatusOutcome) : Iter :=
  match o with
  | .error _ => if count + 1 > bound then .fatal (count + 1) else .again (count + 1)
  | .ok r => if r.status ≠ "running" then .done 0 else .again 0

/-- The `for` loop of `statusLoop`, entered with the counter at `count`, against
the outcomes of its successive `getScanStatus` calls. -/
def statusLoopFrom (scanID : Int) (bound : Nat) : Nat → List StatusOutcome → Run Event Unit
  | _, [] => ⟨[], .starved⟩
  | count, o :: rest =>
    match statusLoopIter bound count o with
    | .fatal _ => ⟨[.getStatus scanID], .exit 1⟩
    | .done _ => ⟨[.getStatus scanID], .ret ()⟩
    | .again c => Run.after [.getStatus scanID, .sleep 20] (statusLoopFrom scanID bound c rest)

/-- The constant in `count > 20`. -/
def statusRetryBound : Nat := 20

/-- The function `statusLoop` of `client.go`. -/
def statusLoop (scanID : Int) (outcomes : List StatusOutcome) : Run Event Unit :=
  Run.after [.call .statusLoop, .sleep 20] (statusLoopFrom scanID statusRetryBound 0 outcomes)

/-- Number of status fetches in a trace. -/
def fetches (scanID : Int) (t : List Event) : Nat := t.count (.getStatus scanID)

/-- A failed status fetch. -/
def StatusOutcome.isFail : StatusOutcome → Bool
  | .error _ => true
  | .ok _ => false

/-! ## Host settings, tunnel and teardown -/

/-- The values of `runtime.GOOS` for which `installNetbird` has a binary. -/
inductive OS where
  | linux
  | windows
  | darwin
  deriving DecidableEq, Repr

/-- The struct `CurrentSettings`, its five string fields given as text. A Go string
is a sequence of bytes; the values of this type are the ones whose fields are valid
UTF-8, which is what `storeCurrentSettings` returns and what `loadSettingsFromFile`
loads. `CurrentSettingsBytes` has the fields byte by byte. -/
structure CurrentSettings where
  wmiStatus : String
  remoteRegistryStatus : String
  remoteRegistryStartupType : String
  fileSharingStatus : String
  localAccountTokenFilterPolicy : String
  deriving DecidableEq, Repr

/-- Result of running a sub-process: success, a non-zero exit status
(`*exec.ExitError`), or a failure to run it at all. -/
inductive CmdResult where
  | ok
  | exitError
  | startError
  deriving DecidableEq, Repr

/-- The global variables of `client.go` that the interrupt handler reads. -/
structure Globals where
  credentialedScan : Bool
  scanID : Int
  tempBinaryPath : String
  tempDir : String
  deriving DecidableEq, Repr

/-- The globals at program start. -/
def Globals.initial : Globals := ⟨false, 0, "", ""⟩

/-- Answers of the host and of the remote service to one teardown sequence:
the content of the settings file (`none` when it cannot be read or decoded), the
result of each settings command, the answers to `deleteScan`, the result of the
uninstall command and whether the removals of the temporary file and directory fail. -/
structure World where
  settingsFile : Option CurrentSettings
  commandResult : String → CmdResult
  deleteWorld : DeleteWorld
  uninstallResult : CmdResult
  removeFileFails : Bool
  removeDirFails : Bool

/-- The function `loadSettingsFromFile`: `log.Fatalf` terminates with code 1. -/
def loadSettingsFromFile (file : Option CurrentSettings) : Run Event CurrentSettings :=
  match file with
  | none => ⟨[.readSettingsFile], .exit 1⟩
  | some s => ⟨[.readSettingsFile], .ret s⟩

/-- The function `executeCommands`: a non-zero exit status is logged, any other
failure is `log.Fatalf`. -/
def executeCommands (run : String → CmdResult) : List String → Run Event Unit
  | [] => Run.pure ()
  | cmd :: rest =>
    match run cmd with
    | .startError => ⟨[.exec cmd], .exit 1⟩
    | _ => Run.after [.exec cmd] (executeCommands run rest)

/-- The command list built by `restoreOriginalSettings`. -/
def restoreCommandList (s : CurrentSettings) : List String :=
  ["net " ++ s.wmiStatus ++ " Winmgmt",
   "sc config RemoteRegistry start=" ++ s.remoteRegistryStartupType,
   "net " ++ s.remoteRegistryStatus ++ " RemoteRegistry",
   "netsh advfirewall firewall set rule group=\"File and Printer Sharing\" new enable="
     ++ s.fileSharingStatus,
   "reg add HKLM\\SOFTWARE\\Microsoft\\Windows\\CurrentVersion\\Policies\\system /v LocalAccountTokenFilterPolicy /t REG_DWORD /d "
     ++ s.localAccountTokenFilterPolicy ++ " /f"]

/-- The function `restoreOriginalSettings`. -/
def restoreOriginalSettings (run : String → CmdResult) (s : CurrentSettings) : Run Event Unit :=
  executeCommands run (restoreCommandList s)

/-- The command list of `setupWindowsNessus`. -/
def setupCommandList : List String :=
  ["net start Winmgmt",
   "sc config RemoteRegistry start= auto",
   "net start RemoteRegistry",
   "netsh advfirewall firewall set rule group=\"File and Printer Sharing\" new enable=yes",
   "netsh advfirewall firewall set rule group=\"Windows Management Instrumentation (WMI)\" new enable=yes",
   "reg add HKLM\\SOFTWARE\\Microsoft\\Windows\\CurrentVersion\\Policies\\system /v LocalAccountTokenFilterPolicy /t REG_DWORD /d 1 /f"]

/-- The function `setupWindowsNessus`. -/
def setupWindowsNessus (run : String → CmdResult) : Run Event Unit :=
  Run.after [.call .setupWindowsNessus] (executeCommands run setupCommandList)

/-- The function `restore` of `client.go`. -/
def restore (w : World) : Run Event Unit :=
  Run.after [.call .restore]
    ((loadSettingsFromFile w.settingsFile).bind (fun s => restoreOriginalSettings w.commandResult s))

/-- The function `uninstallCommands`: any error of `cmd.Run()` is `os.Exit(1)`. -/
def uninstallCommands (r : CmdResult) : Run Event Unit :=
  match r with
  | .ok => ⟨[.uninstallCommands], .ret ()⟩
  | _ => ⟨[.uninstallCommands], .exit 1⟩

/-- The function `removeTempFile`: a failure is printed and nothing else. -/
def removeTempFile (path : String) (fails : Bool) : Run Event Unit :=
  if fails then ⟨[.removeTempFile path], .ret ()⟩ else ⟨[.removeTempFile path], .ret ()⟩

/-- The function `removeTempDir`: a failure is printed and nothing else. -/
def removeTempDir (path : String) (fails : Bool) : Run Event Unit :=
  if fails then ⟨[.removeTempDir path], .ret ()⟩ else ⟨[.removeTempDir path], .ret ()⟩

/-- The function `uninstallTunnel` of `client.go`. -/
def uninstallTunnel (g : Globals) (w : World) : Run Event Unit :=
  Run.after [.call .uninstallTunnel]
    ((uninstallCommands w.uninstallResult).bind (fun _ =>
      (removeTempFile g.tempBinaryPath w.removeFileFails).bind (fun _ =>
        removeTempDir g.tempDir w.removeDirFails)))

/-- The body of the goroutine that `main` starts after `installTunnel`, from the
receipt of the signal on. -/
def interruptHandler (goos : OS) (g : Globals) (w : World) : Run Event Unit :=
  (if goos = .windows ∧ g.credentialedScan = true then restore w else Run.pure ()).bind (fun _ =>
    (if g.scanID > 0 then (deleteScan g.scanID w.deleteWorld).discard else Run.pure ()).bind (fun _ =>
      (uninstallTunnel g w).bind (fun _ => Run.osExit 1)))

/-! ## `main` -/

/-- The reachability loop of `main`, at loop entry with `retries` retries used and
`i` probes made; `probes i` is the result of probe number `i` of `checkAPIStatus`.
The first argument bounds the number of passes the model makes. -/
def apiLoop (probes : Nat → Bool) (maxRetries : Nat) (g : Globals) (w : World) :
    Nat → Nat → Nat → Run Event Unit
  | 0, _, _ => ⟨[], .starved⟩
  | fuel + 1, retries, i =>
    if probes i then ⟨[.checkAPI], .ret ()⟩
    else if retries < maxRetries then
      Run.after [.checkAPI, .sleep 5] (apiLoop probes maxRetries g w fuel (retries + 1) (i + 1))
    else Run.after [.checkAPI] ((uninstallTunnel g w).bind (fun _ => Run.osExit 1))

/-- The constant `maxRetries := 4`. -/
def maxRetries : Nat := 4

/-- Answer to the POST of `startScan`: no answer, or a status code with the
`scan_id` decoded from the body (`none` when the body cannot be read or decoded). -/
inductive CreateResponse where
  | transportError
  | received (code : Nat) (scanID : Option Int)

/-- The function `startScan` of `client.go`. -/
def startScan (resp : CreateResponse) : Run Event Int :=
  Run.after [.call .startScan, .createScan]
    (match resp with
     | .transportError => Run.osExit 1
     | .received code body =>
       if code ≠ 200 then Run.osExit 1
       else match body with
         | none => Run.osExit 1
         | some scanID => Run.pure scanID)

/-- Answer to the POST of `exportReport`: no answer, or a status code and whether
the body can be read and decoded. -/
inductive ExportResponse where
  | transportError
  | received (code : Nat) (bodyOk : Bool)

/-- The function `exportReport` of `client.go`. -/
def exportReport (scanID : Int) (resp : ExportResponse) : Run Event Unit :=
  Run.after [.call .exportReport, .exportReq scanID]
    (match resp with
     | .transportError => Run.osExit 1
     | .received code bodyOk =>
       if code ≠ 200 then Run.osExit 1
       else if bodyOk then Run.pure () else Run.osExit 1)

/-- Everything the outside world answers during one execution of `main`. -/
structure Scenario where
  goos : OS
  binaryPath : String
  binaryDir : String
  installResult : CmdResult
  apiProbes : Nat → Bool
  credentialed : Bool
  captured : Option CurrentSettings
  saveOk : Bool
  sshRunning : Bool
  createResp : CreateResponse
  pollResponses : List GetResponse
  exportResp : ExportResponse
  world : World

/-- The function `installTunnel`: a failure of `installNetbird` or of the install
command is `os.Exit(1)`. -/
def installTunnel (r : CmdResult) : Run Event Unit :=
  match r with
  | .ok => ⟨[.call .installTunnel, .installNetbird, .installCommands], .ret ()⟩
  | _ => ⟨[.call .installTunnel, .installNetbird, .installCommands], .exit 1⟩

/-- The capture step of `main` on a Windows credentialed scan:
`storeCurrentSettings` (a failing query is `log.Fatalf`) and `saveSettingsToFile`. -/
def storeAndSave (captured : Option CurrentSettings) (saveOk : Bool) : Run Event Unit :=
  match captured with
  | none => ⟨[.call .storeCurrentSettings], .exit 1⟩
  | some _ =>
    if saveOk then ⟨[.call .storeCurrentSettings, .call .saveSettingsToFile, .writeSettingsFile], .ret ()⟩
    else ⟨[.call .storeCurrentSettings, .call .saveSettingsToFile, .writeSettingsFile], .exit 1⟩

/-- Effects labelled with the globals in force once the effect is complete. -/
def Run.tag {α : Type} (g : Globals) (r : Run Event α) : Run (Event × Globals) α :=
  ⟨r.trace.map (fun e => (e, g)), r.ctl⟩

/-- Lines 663-664, 672-673 and 679-680 of `main`: `scanID = startScan(...)`,
`statusLoop(scanID)`. The two effects of `startScan` are labelled one by one: the
assignment to `scanID` takes place when the create-scan exchange has returned an
id, and not at all when `startScan` terminates the process. Returns the globals
after the assignment. -/
def scanAndPoll (sc : Scenario) (g : Globals) : Run (Event × Globals) Globals :=
  (Run.tag g (Run.emit [.call .startScan])).bind (fun _ =>
    match (startScan sc.createResp).ctl with
    | .ret scanID =>
      (Run.tag { g with scanID := scanID } (Run.emit [.createScan])).bind (fun _ =>
        (Run.tag { g with scanID := scanID }
          (statusLoop scanID (sc.pollResponses.map getScanStatus))).bind (fun _ =>
            Run.pure { g with scanID := scanID }))
    | .exit c => ⟨[(.createScan, g)], .exit c⟩
    | .starved => ⟨[(.createScan, g)], .starved⟩)

/-- Lines 657-682 of `main`: the three scan branches. -/
def scanPhase (sc : Scenario) (g : Globals) : Run (Event × Globals) Globals :=
  if sc.credentialed then
    if sc.goos = .windows then
      (Run.tag g (setupWindowsNessus sc.world.commandResult)).bind (fun _ =>
        (scanAndPoll sc g).bind (fun g' =>
          (Run.tag g' (restore sc.world)).bind (fun _ => Run.pure g')))
    else
      (Run.tag g (Run.emit [.sshProbe])).bind (fun _ =>
        if sc.sshRunning then scanAndPoll sc g else Run.osExit 1)
  else scanAndPoll sc g

/-- Lines 683-687 of `main`. -/
def finalPhase (sc : Scenario) (g : Globals) : Run (Event × Globals) Unit :=
  Run.tag g
    ((Run.emit [.sleep 20]).bind (fun _ =>
      (exportReport g.scanID sc.exportResp).bind (fun _ =>
        (deleteScan g.scanID sc.world.deleteWorld).discard.bind (fun _ =>
          uninstallTunnel g sc.world))))

/-- Lines 607-655 of `main`: `installTunnel()`, the start of the signal handler,
the reachability loop, the operator prompts and, on a Windows credentialed scan,
the capture of the host settings. Returns the globals after `credentialedScan` is
assigned. -/
def setupPhase (sc : Scenario) : Run (Event × Globals) Globals :=
  let g0 : Globals := ⟨false, 0, sc.binaryPath, sc.binaryDir⟩
  let g1 : Globals := { g0 with credentialedScan := sc.credentialed }
  (Run.tag g0 (installTunnel sc.installResult)).bind (fun _ =>
    (Run.tag g0 (Run.after [.sleep 5] (apiLoop sc.apiProbes maxRetries g0 sc.world (maxRetries + 1) 0 0))).bind
      (fun _ =>
        (Run.tag g0 (Run.emit [.promptEmail])).bind (fun _ =>
          (Run.tag g1 (Run.emit [.promptCredentialed])).bind (fun _ =>
            (Run.tag g1 (if sc.credentialed then Run.emit [.promptCredentials] else Run.pure ())).bind
              (fun _ =>
                (Run.tag g1 (if sc.goos = .windows ∧ sc.credentialed = true
                    then storeAndSave sc.captured sc.saveOk else Run.pure ())).bind (fun _ =>
                  Run.pure g1))))))

/-- The function `main` from `installTunnel()` on, on a supported platform (the
statements before it are in `programRun`). Returning stands for `main` returning,
exit code 0. -/
def mainRun (sc : Scenario) : Run (Event × Globals) Unit :=
  (setupPhase sc).bind (fun g1 => (scanPhase sc g1).bind (fun g2 => finalPhase sc g2))

/-- The effects of an execution of `main`, in order. -/
def mainTrace (sc : Scenario) : List Event := (mainRun sc).trace.map Prod.fst

/-- Number of effects of `main` that precede the start of the signal handler. -/
def handlerArmedAt : Nat := 3

/-- The globals once the first `n` effects of a labelled trace are complete. -/
def globalsAt (t : List (Event × Globals)) (n : Nat) : Globals :=
  match (t.take n).getLast? with
  | some eg => eg.2
  | none => Globals.initial

/-- The effects of `main` that precede the point `n`. -/
def doneBefore (sc : Scenario) (n : Nat) : List Event := (mainTrace sc).take n

/-- The process has been terminated through `os.Exit`. -/
def Ctl.isExit {α : Type} : Ctl α → Bool
  | .exit _ => true
  | _ => false

/-- The signal can be handled at point `n`: the handler has been started and the
process has not terminated. -/
def interruptible (sc : Scenario) (n : Nat) : Prop :=
  handlerArmedAt ≤ n ∧ (n < (mainRun sc).trace.length ∨
    (n = (mainRun sc).trace.length ∧ (mainRun sc).ctl.isExit = false))

instance (sc : Scenario) (n : Nat) : Decidable (interruptible sc n) := by
  unfold interruptible
  infer_instance

/-- The trace of the interrupt handler when the signal is handled at point `n`. -/
def handlerAt (sc : Scenario) (hw : World) (n : Nat) : Run Event Unit :=
  interruptHandler sc.goos (globalsAt (mainRun sc).trace n) hw

/-- The whole execution when the signal is handled at point `n` of `main` and
`main` stands still from then on: it performs no further effect and no further
assignment until the handler has reached its `os.Exit`. This is one of the
executions of `concurrentRun`, in which `main` goes on beside the handler. -/
def interruptedRun (sc : Scenario) (hw : World) (n : Nat) : Run Event Unit :=
  Run.after (doneBefore sc n) (handlerAt sc hw n)

/-- Calls of the three teardown functions in a trace, in order. -/
def teardownCalls (t : List Event) : List Fn :=
  t.filterMap (fun e =>
    match e with
    | .call .restore => some .restore
    | .call .deleteScan => some .deleteScan
    | .call .uninstallTunnel => some .uninstallTunnel
    | _ => none)

/-- Effects that `main` can perform before it calls `startScan`. -/
def Event.preScan : Event → Bool
  | .call .installTunnel => true
  | .call .uninstallTunnel => true
  | .call .setupWindowsNessus => true
  | .call .storeCurrentSettings => true
  | .call .saveSettingsToFile => true
  | .checkAPI => true
  | .sleep _ => true
  | .promptEmail => true
  | .promptCredentialed => true
  | .promptCredentials => true
  | .sshProbe => true
  | .writeSettingsFile => true
  | .exec _ => true
  | .installNetbird => true
  | .installCommands => true
  | .uninstallCommands => true
  | .removeTempFile _ => true
  | .removeTempDir _ => true
  | _ => false

/-- Effects that `main` can perform before it calls `exportReport`. -/
def Event.preExport : Event → Bool
  | .call .startScan => true
  | .createScan => true
  | .call .statusLoop => true
  | .getStatus _ => true
  | .call .restore => true
  | .readSettingsFile => true
  | e => e.preScan

/-! ## The handler beside `main` -/

/-- The statements of the handler goroutine, in order: the test of
`credentialedScan` with `restore()`, the test of `scanID` with `deleteScan(scanID)`,
`uninstallTunnel()`, and `os.Exit(1)`. A statement reads the globals when it is
reached. -/
def handlerStatement (goos : OS) (w : World) (g : Globals) : Nat → Run Event Unit
  | 0 => if goos = .windows ∧ g.credentialedScan = true then restore w else Run.pure ()
  | 1 => if g.scanID > 0 then (deleteScan g.scanID w.deleteWorld).discard else Run.pure ()
  | 2 => uninstallTunnel g w
  | _ => Run.osExit 1

/-- The handler goroutine between two of its steps: the number of its next
statement, the effects of the statement under way that are still to come, and the
way that statement ends. -/
structure HandlerState where
  next : Nat
  pending : List Event
  ending : Ctl Unit
  deriving DecidableEq, Repr

/-- The handler goroutine when it has received the signal. -/
def HandlerState.signalled : HandlerState := ⟨0, [], .ret ()⟩

/-- The goroutine of `main` and the handler goroutine side by side, from the
receipt of the signal on. The schedule says which of the two takes the next step
(`true` for `main`). A step of `main` is its next effect or, when none is left,
the way it ends: `main` returning ends the process with code 0, whatever the
handler is doing. A step of the handler is the next effect of the statement under
way or, when none is left, the end of that statement: the end of the process when
the statement terminates it, and otherwise the start of the next statement, which
reads the globals as `main` has left them by then. The execution is left
unfinished when the schedule is used up. The arguments after the schedule are the
effects `main` has still to perform (each with the globals after it), the way
`main` ends, the globals in force and the state of the handler. -/
def race (goos : OS) (hw : World) :
    List Bool → List (Event × Globals) → Ctl Unit → Globals → HandlerState → Run Event Unit
  | [], _, _, _, _ => ⟨[], .starved⟩
  | true :: _, [], mainCtl, _, _ => ⟨[], mainCtl⟩
  | true :: schedule, eg :: rest, mainCtl, _, h =>
    Run.after [eg.1] (race goos hw schedule rest mainCtl eg.2 h)
  | false :: schedule, rest, mainCtl, g, ⟨k, e :: pending, ending⟩ =>
    Run.after [e] (race goos hw schedule rest mainCtl g ⟨k, pending, ending⟩)
  | false :: schedule, rest, mainCtl, g, ⟨k, [], .ret _⟩ =>
    race goos hw schedule rest mainCtl g
      ⟨k + 1, (handlerStatement goos hw g k).trace, (handlerStatement goos hw g k).ctl⟩
  | false :: _, _, _, _, ⟨_, [], .exit c⟩ => ⟨[], .exit c⟩
  | false :: _, _, _, _, ⟨_, [], .starved⟩ => ⟨[], .starved⟩

/-- The whole execution when the signal is handled at point `n` of `main` and
`main` goes on beside the handler under the given schedule. -/
def concurrentRun (sc : Scenario) (hw : World) (n : Nat) (schedule : List Bool) : Run Event Unit :=
  Run.after (doneBefore sc n)
    (race sc.goos hw schedule ((mainRun sc).trace.drop n) (mainRun sc).ctl
      (globalsAt (mainRun sc).trace n) HandlerState.signalled)

/-! ## Start of the process -/

/-- The test `strings.Contains(hay, needle)` on the characters of two strings. -/
def containsChars (needle : List Char) : List Char → Bool
  | [] => needle.isEmpty
  | c :: rest => needle.isPrefixOf (c :: rest) || containsChars needle rest

/-- The test `strings.Contains(s, sub)`. -/
def strContains (s sub : String) : Bool := containsChars sub.data s.data

/-- Outputs of the five queries of `storeCurrentSettings`, in the order in which
they are made; `none` stands for a query command that fails. -/
structure CaptureOutputs where
  winmgmtQuery : Option String
  remoteRegistryQuery : Option String
  startupTypeQuery : Option String
  fileSharingQuery : Option String
  tokenPolicyQuery : Option String

/-- The function `getServiceStatus`, as a function of the output of `sc query`;
a failing query is `log.Fatalf` (`none`). -/
def getServiceStatus (output : Option String) : Option String :=
  match output with
  | none => none
  | some out => if strContains out "STATE              : 4  RUNNING" then some "stop" else some "start"

/-- The function `getRemoteRegistryStartupType`, as a function of the output of
`sc qc RemoteRegistry`. -/
def getRemoteRegistryStartupType (output : Option String) : Option String :=
  match output with
  | none => none
  | some out =>
    if strContains out "START_TYPE         : 3   DEMAND_START" then some "demand" else some "auto"

/-- The function `getFileSharingStatus`, as a function of the output of
`Get-NetFirewallRule`. -/
def getFileSharingStatus (output : Option String) : Option String :=
  match output with
  | none => none
  | some out => if strContains out "True" then some "no" else some "yes"

/-- The function `getLocalAccountTokenFilterPolicy`, as a function of the output
of `reg query`; a failing query is logged and the empty string returned. -/
def getLocalAccountTokenFilterPolicy (output : Option String) : String :=
  match output with
  | none => ""
  | some out => if strContains out "0x1" then "1" else "0"

/-- The function `storeCurrentSettings`; `none` when a query ends in `log.Fatalf`. -/
def storeCurrentSettings (q : CaptureOutputs) : Option CurrentSettings :=
  match getServiceStatus q.winmgmtQuery with
  | none => none
  | some wmi =>
    match getServiceStatus q.remoteRegistryQuery with
    | none => none
    | some reg =>
      match getRemoteRegistryStartupType q.startupTypeQuery with
      | none => none
      | some startup =>
        match getFileSharingStatus q.fileSharingQuery with
        | none => none
        | some sharing =>
          some ⟨wmi, reg, startup, sharing, getLocalAccountTokenFilterPolicy q.tokenPolicyQuery⟩

/-! ## The settings file

The file written by `saveSettingsToFile` and read by `loadSettingsFromFile` is
modelled as its text, a list of characters: whatever the fields hold,
`json.MarshalIndent` writes valid UTF-8. The fields that are marshalled are Go
strings, sequences of bytes that need not be valid UTF-8 (`CurrentSettingsBytes`).
The fields that are loaded are valid UTF-8 and are given as text
(`CurrentSettings`), as are the values `storeCurrentSettings` returns. -/

/-- Lower-case hexadecimal digit of a number below 16 (the table `hex` of
`encoding/json`). -/
def hexDigit (n : Nat) : Char := if n < 10 then Char.ofNat (48 + n) else Char.ofNat (87 + n)

/-- Value of a hexadecimal digit, in either case. -/
def hexValue (c : Char) : Option Nat :=
  if 48 ≤ c.toNat ∧ c.toNat ≤ 57 then some (c.toNat - 48)
  else if 97 ≤ c.toNat ∧ c.toNat ≤ 102 then some (c.toNat - 87)
  else if 65 ≤ c.toNat ∧ c.toNat ≤ 70 then some (c.toNat - 55)
  else none

/-- Encoding of one character of a string by `json.Marshal` (HTML escaping on):
the quote and the backslash are preceded by a backslash, line feed, carriage
return and tab are written `\n`, `\r`, `\t`, the other control characters and
`<`, `>`, `&` as `\u00XX`, the separators U+2028 and U+2029 as the
escapes of their code points, and every other character as itself. With `short` set, backspace and
form feed are written `\b` and `\f`, as Go 1.22 and later do; earlier releases
write `\u0008` and `\u000c`. -/
def escapeChar (short : Bool) (c : Char) : List Char :=
  if c.toNat = 34 then [Char.ofNat 92, Char.ofNat 34]
  else if c.toNat = 92 then [Char.ofNat 92, Char.ofNat 92]
  else if c.toNat = 10 then [Char.ofNat 92, 'n']
  else if c.toNat = 13 then [Char.ofNat 92, 'r']
  else if c.toNat = 9 then [Char.ofNat 92, 't']
  else if short = true ∧ c.toNat = 8 then [Char.ofNat 92, 'b']
  else if short = true ∧ c.toNat = 12 then [Char.ofNat 92, 'f']
  else if c.toNat < 32 ∨ c.toNat = 60 ∨ c.toNat = 62 ∨ c.toNat = 38 then
    [Char.ofNat 92, 'u', '0', '0', hexDigit (c.toNat / 16), hexDigit (c.toNat % 16)]
  else if c.toNat = 8232 ∨ c.toNat = 8233 then
    [Char.ofNat 92, 'u', '2', '0', '2', hexDigit (c.toNat % 16)]
  else [c]

/-- UTF-8 encoding of a Unicode scalar value, as bytes. -/
def utf8EncodeChar (c : Char) : List Nat :=
  if c.toNat < 128 then [c.toNat]
  else if c.toNat < 2048 then [192 + c.toNat / 64, 128 + c.toNat % 64]
  else if c.toNat < 65536 then
    [224 + c.toNat / 4096, 128 + c.toNat / 64 % 64, 128 + c.toNat % 64]
  else
    [240 + c.toNat / 262144, 128 + c.toNat / 4096 % 64, 128 + c.toNat / 64 % 64,
     128 + c.toNat % 64]

/-- The bytes of a string that is valid UTF-8. -/
def utf8Bytes (s : String) : List Nat := s.data.flatMap utf8EncodeChar

/-- A continuation byte of UTF-8, `0x80` to `0xBF`. -/
def isContinuation (b : Nat) : Bool := decide (128 ≤ b) && decide (b ≤ 191)

/-- The function `utf8.DecodeRune` on the bytes ahead: the rune and its width, or
`none` with width 1 for `RuneError` on a byte that starts no valid encoding (an
empty input gives width 0). The first byte fixes the width and the range accepted
for the second byte (the table `first` of `unicode/utf8`): `0xC2`-`0xDF` two bytes,
`0xE0`-`0xEF` three (second byte from `0xA0` behind `0xE0`, up to `0x9F` behind
`0xED`), `0xF0`-`0xF4` four (second byte from `0x90` behind `0xF0`, up to `0x8F`
behind `0xF4`); the value is put together from the low bits of the bytes. -/
def decodeRune : List Nat → Option Char × Nat
  | [] => (none, 0)
  | b0 :: rest =>
    if b0 < 128 then (some (Char.ofNat b0), 1)
    else if 194 ≤ b0 ∧ b0 ≤ 223 then
      match rest with
      | b1 :: _ =>
        if isContinuation b1 = true then (some (Char.ofNat ((b0 - 192) * 64 + (b1 - 128))), 2)
        else (none, 1)
      | [] => (none, 1)
    else if 224 ≤ b0 ∧ b0 ≤ 239 then
      match rest with
      | b1 :: b2 :: _ =>
        if (if b0 = 224 then 160 else 128) ≤ b1 ∧ b1 ≤ (if b0 = 237 then 159 else 191) ∧
            isContinuation b2 = true then
          (some (Char.ofNat ((b0 - 224) * 4096 + (b1 - 128) * 64 + (b2 - 128))), 3)
        else (none, 1)
      | _ => (none, 1)
    else if 240 ≤ b0 ∧ b0 ≤ 244 then
      match rest with
      | b1 :: b2 :: b3 :: _ =>
        if (if b0 = 240 then 144 else 128) ≤ b1 ∧ b1 ≤ (if b0 = 244 then 143 else 191) ∧
            isContinuation b2 = true ∧ isContinuation b3 = true then
          (some (Char.ofNat ((b0 - 240) * 262144 + (b1 - 128) * 4096 + (b2 - 128) * 64
            + (b3 - 128))), 4)
        else (none, 1)
      | _ => (none, 1)
    else (none, 1)

/-- The runes of a Go string from left to right, the first `skip` bytes belonging
to a rune already decoded: `utf8.DecodeRune` at each position reached, `none` for
a byte that is not part of valid UTF-8. -/
def decodeRunesFrom : Nat → List Nat → List (Option Char)
  | _, [] => []
  | skip + 1, _ :: rest => decodeRunesFrom skip rest
  | 0, b :: rest =>
    (decodeRune (b :: rest)).1 :: decodeRunesFrom ((decodeRune (b :: rest)).2 - 1) rest

/-- The runes of a Go string as the loop of `encoding/json` over a string meets them. -/
def decodeRunes (s : List Nat) : List (Option Char) := decodeRunesFrom 0 s

/-- The test `utf8.Valid` on a Go string: no position yields `RuneError`. -/
def validUTF8 (s : List Nat) : Bool := (decodeRunes s).all Option.isSome

/-- The replacement character U+FFFD. -/
def replacementChar : Char := Char.ofNat 65533

/-- Encoding of one rune of a string by `json.Marshal`: a byte that is not valid
UTF-8 is written as the six characters of the escape of U+FFFD, a character as
`escapeChar` says. -/
def escapeRune (short : Bool) (r : Option Char) : List Char :=
  match r with
  | some c => escapeChar short c
  | none => [Char.ofNat 92, 'u', 'f', 'f', 'f', 'd']

/-- A JSON string literal for the Go string `s`, as `json.Marshal` writes it. -/
def quoteBytes (short : Bool) (s : List Nat) : List Char :=
  Char.ofNat 34 :: ((decodeRunes s).flatMap (escapeRune short) ++ [Char.ofNat 34])

/-- The string that a JSON round trip makes of the Go string `s`: its characters,
with U+FFFD in the place of every byte that is not valid UTF-8. -/
def coerceToText (s : List Nat) : String :=
  String.mk ((decodeRunes s).map (fun r => r.getD replacementChar))

/-- A Go value of type `CurrentSettings` with its five string fields as Go holds
them: sequences of bytes (numbers below 256), which need not be valid UTF-8. -/
structure CurrentSettingsBytes where
  wmiStatus : List Nat
  remoteRegistryStatus : List Nat
  remoteRegistryStartupType : List Nat
  fileSharingStatus : List Nat
  localAccountTokenFilterPolicy : List Nat
  deriving DecidableEq, Repr

/-- The bytes of a `CurrentSettings` whose fields are text. -/
def CurrentSettings.bytes (s : CurrentSettings) : CurrentSettingsBytes :=
  ⟨utf8Bytes s.wmiStatus, utf8Bytes s.remoteRegistryStatus, utf8Bytes s.remoteRegistryStartupType,
   utf8Bytes s.fileSharingStatus, utf8Bytes s.localAccountTokenFilterPolicy⟩

/-- One member of the indented object: the quoted tag, a colon, a blank and the
quoted value. -/
def marshalMember (short : Bool) (tag : String) (value : List Nat) : List Char :=
  quoteBytes short (utf8Bytes tag) ++ (Char.ofNat 58 :: Char.ofNat 32 :: quoteBytes short value)

/-- Separator of two members in the output of `json.MarshalIndent(v, "", "  ")`:
a comma, a line feed and the indent. -/
def memberBreak : List Char := [Char.ofNat 44, Char.ofNat 10, Char.ofNat 32, Char.ofNat 32]

/-- The text `json.MarshalIndent(settings, "", "  ")` for a `CurrentSettings`. -/
def marshalIndentSettings (short : Bool) (s : CurrentSettingsBytes) : List Char :=
  [Char.ofNat 123, Char.ofNat 10, Char.ofNat 32, Char.ofNat 32]
    ++ marshalMember short "wmi_status" s.wmiStatus ++ memberBreak
    ++ marshalMember short "remote_registry_status" s.remoteRegistryStatus ++ memberBreak
    ++ marshalMember short "remote_registry_startup_type" s.remoteRegistryStartupType ++ memberBreak
    ++ marshalMember short "file_sharing_status" s.fileSharingStatus ++ memberBreak
    ++ marshalMember short "local_account_token_filter_policy" s.localAccountTokenFilterPolicy
    ++ [Char.ofNat 10, Char.ofNat 125]

/-- The function `saveSettingsToFile`: it returns the text now in the file; a
failed write is `log.Fatalf`. Marshalling a struct of strings cannot fail. -/
def saveSettingsToFile (short : Bool) (settings : CurrentSettingsBytes) (writeOk : Bool) :
    Run Event (List Char) :=
  if writeOk then
    ⟨[.call .saveSettingsToFile, .writeSettingsFile], .ret (marshalIndentSettings short settings)⟩
  else ⟨[.call .saveSettingsToFile, .writeSettingsFile], .exit 1⟩

/-- JSON white space: blank, tab, carriage return, line feed. -/
def isJsonSpace (c : Char) : Bool :=
  c.toNat = 32 || c.toNat = 9 || c.toNat = 13 || c.toNat = 10

/-- The text without its leading white space. -/
def skipSpace : List Char → List Char
  | [] => []
  | c :: rest => if isJsonSpace c then skipSpace rest else c :: rest

/-- Value of four hexadecimal digits. -/
def hex4 (a b c d : Char) : Option Nat :=
  match hexValue a, hexValue b, hexValue c, hexValue d with
  | some x, some y, some z, some w => some (((x * 16 + y) * 16 + z) * 16 + w)
  | _, _, _, _ => none

/-- The character of a one-letter escape `\e`. -/
def simpleEscape (e : Char) : Option Char :=
  if e.toNat = 34 then some (Char.ofNat 34)
  else if e.toNat = 92 then some (Char.ofNat 92)
  else if e.toNat = 47 then some (Char.ofNat 47)
  else if e = 'b' then some (Char.ofNat 8)
  else if e = 'f' then some (Char.ofNat 12)
  else if e = 'n' then some (Char.ofNat 10)
  else if e = 'r' then some (Char.ofNat 13)
  else if e = 't' then some (Char.ofNat 9)
  else none

/-- A decoded character put in front of the rest of a decoded string. -/
def pushChar (c : Char) (r : Option (List Char × List Char)) : Option (List Char × List Char) :=
  match r with
  | none => none
  | some p => some (c :: p.1, p.2)

/-- The replacement character U+FFFD that stands for a high surrogate left
without its low surrogate, put in front of what follows. -/
def flushPending (pending : Option Nat) (r : Option (List Char × List Char)) :
    Option (List Char × List Char) :=
  match pending with
  | some _ => pushChar (Char.ofNat 65533) r
  | none => r

/-- Decoding of a JSON string literal (`unquote` of `encoding/json`) from a
position behind its opening quote, `pending` holding the value of a `\u` escape
of a high surrogate that was just read: the decoded characters and the text
behind the closing quote; `none` for a syntax error. The escape of a low
surrogate behind that of a high one gives the character of the pair; a surrogate
on its own gives U+FFFD. -/
def unquoteFrom : Option Nat → List Char → Option (List Char × List Char)
  | _, [] => none
  | pending, c :: rest =>
    if c.toNat = 34 then flushPending pending (some ([], rest))
    else if c.toNat < 32 then none
    else if c.toNat = 92 then
      match rest with
      | [] => none
      | e :: rest1 =>
        if e = 'u' then
          match rest1 with
          | a :: b :: x :: d :: rest2 =>
            match hex4 a b x d with
            | none => none
            | some v =>
              if 55296 ≤ v ∧ v < 56320 then flushPending pending (unquoteFrom (some v) rest2)
              else if 56320 ≤ v ∧ v < 57344 then
                match pending with
                | some hi =>
                  pushChar (Char.ofNat ((hi - 55296) * 1024 + (v - 56320) + 65536))
                    (unquoteFrom none rest2)
                | none => pushChar (Char.ofNat 65533) (unquoteFrom none rest2)
              else flushPending pending (pushChar (Char.ofNat v) (unquoteFrom none rest2))
          | _ => none
        else
          match simpleEscape e with
          | some ch => flushPending pending (pushChar ch (unquoteFrom none rest1))
          | none => none
    else flushPending pending (pushChar c (unquoteFrom none rest))

/-- Decoding of a JSON string literal from behind its opening quote. -/
def unquoteBody (cs : List Char) : Option (List Char × List Char) := unquoteFrom none cs

/-- A decimal digit. -/
def isDigit (c : Char) : Bool := decide (48 ≤ c.toNat) && decide (c.toNat ≤ 57)

/-- The text without its leading decimal digits. -/
def skipDigits : List Char → List Char
  | [] => []
  | c :: rest => if isDigit c then skipDigits rest else c :: rest

/-- The text behind an optional exponent of a number literal. -/
def skipExponent (cs : List Char) : Option (List Char) :=
  match cs with
  | e :: rest =>
    if e = 'e' ∨ e = 'E' then
      match rest with
      | sg :: d :: rest1 =>
        if sg.toNat = 43 ∨ sg.toNat = 45 then (if isDigit d then some (skipDigits rest1) else none)
        else if isDigit sg then some (skipDigits (d :: rest1))
        else none
      | [d] => if isDigit d then some [] else none
      | [] => none
    else some cs
  | [] => some cs

/-- The text behind an optional fraction and exponent of a number literal. -/
def skipFraction (cs : List Char) : Option (List Char) :=
  match cs with
  | p :: rest =>
    if p.toNat = 46 then
      match rest with
      | d :: rest1 => if isDigit d then skipExponent (skipDigits rest1) else none
      | [] => none
    else skipExponent cs
  | [] => some cs

/-- The text behind a number literal that starts with the digit or sign `c`. -/
def skipNumber (c : Char) (rest : List Char) : Option (List Char) :=
  if c.toNat = 45 then
    match rest with
    | d :: rest1 =>
      if d.toNat = 48 then skipFraction rest1
      else if isDigit d then skipFraction (skipDigits rest1)
      else none
    | [] => none
  else if c.toNat = 48 then skipFraction rest
  else if isDigit c then skipFraction (skipDigits rest)
  else none

/-- What the recognizer of JSON values is looking at: a value, the elements of
an array behind `[` or behind a comma, the members of an object likewise. -/
inductive SkipMode where
  | value
  | elements (first : Bool)
  | members (first : Bool)

/-- Recognizer of JSON text (the scanner of `encoding/json`, used for the values
of members that match no field): the text behind the value, the array or the
object looked at; `none` for a syntax error. The first argument bounds the
depth of the recursion. -/
def skipJson : Nat → SkipMode → List Char → Option (List Char)
  | 0, _, _ => none
  | fuel + 1, .value, cs =>
    match skipSpace cs with
    | [] => none
    | c :: rest =>
      if c.toNat = 34 then (unquoteBody rest).map Prod.snd
      else if c.toNat = 123 then skipJson fuel (.members true) rest
      else if c.toNat = 91 then skipJson fuel (.elements true) rest
      else if c = 't' then
        (match rest with
         | r :: u :: e :: rest1 => if r = 'r' ∧ u = 'u' ∧ e = 'e' then some rest1 else none
         | _ => none)
      else if c = 'f' then
        (match rest with
         | a :: l :: s :: e :: rest1 =>
           if a = 'a' ∧ l = 'l' ∧ s = 's' ∧ e = 'e' then some rest1 else none
         | _ => none)
      else if c = 'n' then
        (match rest with
         | u :: l :: l2 :: rest1 => if u = 'u' ∧ l = 'l' ∧ l2 = 'l' then some rest1 else none
         | _ => none)
      else skipNumber c rest
  | fuel + 1, .elements first, cs =>
    match skipSpace cs with
    | [] => none
    | c :: rest =>
      if first = true ∧ c.toNat = 93 then some rest
      else
        match skipJson fuel .value (c :: rest) with
        | none => none
        | some rest1 =>
          match skipSpace rest1 with
          | d :: rest2 =>
            if d.toNat = 44 then skipJson fuel (.elements false) rest2
            else if d.toNat = 93 then some rest2
            else none
          | [] => none
  | fuel + 1, .members first, cs =>
    match skipSpace cs with
    | [] => none
    | c :: rest =>
      if first = true ∧ c.toNat = 125 then some rest
      else if c.toNat = 34 then
        match unquoteBody rest with
        | none => none
        | some key =>
          match skipSpace key.2 with
          | colon :: rest1 =>
            if colon.toNat = 58 then
              match skipJson fuel .value rest1 with
              | none => none
              | some rest2 =>
                match skipSpace rest2 with
                | d :: rest3 =>
                  if d.toNat = 44 then skipJson fuel (.members false) rest3
                  else if d.toNat = 125 then some rest3
                  else none
                | [] => none
            else none
          | [] => none
      else none

/-- Go zero value of `CurrentSettings` (`var settings CurrentSettings`). -/
def CurrentSettings.zero : CurrentSettings := ⟨"", "", "", "", ""⟩

/-- The object key names a field of `CurrentSettings`. -/
def isSettingsKey (key : String) : Bool :=
  keyMatches key "wmi_status" || keyMatches key "remote_registry_status" ||
  keyMatches key "remote_registry_startup_type" || keyMatches key "file_sharing_status" ||
  keyMatches key "local_account_token_filter_policy"

/-- Assignment of a decoded string to the field of `CurrentSettings` that the key names. -/
def setSettingsField (s : CurrentSettings) (key value : String) : CurrentSettings :=
  if keyMatches key "wmi_status" then { s with wmiStatus := value }
  else if keyMatches key "remote_registry_status" then { s with remoteRegistryStatus := value }
  else if keyMatches key "remote_registry_startup_type" then
    { s with remoteRegistryStartupType := value }
  else if keyMatches key "file_sharing_status" then { s with fileSharingStatus := value }
  else if keyMatches key "local_account_token_filter_policy" then
    { s with localAccountTokenFilterPolicy := value }
  else s

/-- Decoding of the value of one member into `s`, the text standing at the first
character of the value. For a key that names a field the value has to be a string
literal, which is stored, or `null`, which leaves the field alone; any other value
is an `UnmarshalTypeError` or a syntax error, which `loadSettingsFromFile` does not
tell apart. The value of any other key is skipped. -/
def decodeSettingsValue (fuel : Nat) (s : CurrentSettings) (key : List Char) (cs : List Char) :
    Option (CurrentSettings × List Char) :=
  if isSettingsKey (String.mk key) then
    match cs with
    | c :: rest =>
      if c.toNat = 34 then
        match unquoteBody rest with
        | none => none
        | some v => some (setSettingsField s (String.mk key) (String.mk v.1), v.2)
      else if c = 'n' then
        (match rest with
         | u :: l :: l2 :: rest1 =>
           if u = 'u' ∧ l = 'l' ∧ l2 = 'l' then some (s, rest1) else none
         | _ => none)
      else none
    | [] => none
  else
    match skipJson fuel .value cs with
    | none => none
    | some rest => some (s, rest)

/-- Decoding of the members of the top-level object into `s`, the text standing
at the opening quote of a key: the settings decoded and the text behind the
closing brace. The first argument bounds the number of members looked at and the
depth of the values skipped. -/
def decodeSettingsMembers : Nat → CurrentSettings → List Char → Option (CurrentSettings × List Char)
  | 0, _, _ => none
  | fuel + 1, s, cs =>
    match cs with
    | [] => none
    | q :: rest =>
      if q.toNat = 34 then
        match unquoteBody rest with
        | none => none
        | some key =>
          match skipSpace key.2 with
          | colon :: rest1 =>
            if colon.toNat = 58 then
              match decodeSettingsValue fuel s key.1 (skipSpace rest1) with
              | none => none
              | some r =>
                match skipSpace r.2 with
                | d :: rest2 =>
                  if d.toNat = 44 then decodeSettingsMembers fuel r.1 (skipSpace rest2)
                  else if d.toNat = 125 then some (r.1, rest2)
                  else none
                | [] => none
            else none
          | [] => none
      else none

/-- The call `json.Unmarshal(data, &settings)` of `loadSettingsFromFile` on the
text of the file; `none` is a non-nil error. Only white space may follow the
value; `null` leaves the zero value in place. -/
def unmarshalSettings (text : List Char) : Option CurrentSettings :=
  match skipSpace text with
  | [] => none
  | c :: rest =>
    if c.toNat = 123 then
      match skipSpace rest with
      | [] => none
      | c1 :: rest1 =>
        if c1.toNat = 125 then
          (if skipSpace rest1 = [] then some CurrentSettings.zero else none)
        else
          match decodeSettingsMembers text.length CurrentSettings.zero (c1 :: rest1) with
          | none => none
          | some r => if skipSpace r.2 = [] then some r.1 else none
    else if c = 'n' then
      (match rest with
       | u :: l :: l2 :: rest1 =>
         if u = 'u' ∧ l = 'l' ∧ l2 = 'l' ∧ skipSpace rest1 = [] then some CurrentSettings.zero
         else none
       | _ => none)
    else none

/-- What `restore` gets from the settings file holding `content` (`none` when the
file cannot be read): `loadSettingsFromFile` on the decoded text. -/
def loadSettingsFromText (content : Option (List Char)) : Run Event CurrentSettings :=
  loadSettingsFromFile (content.bind unmarshalSettings)

/-! ## Exit code -/

/-- Exit code of the process for a way of finishing of `main`: returning from
`main` is code 0, `os.Exit(c)` is code `c`; none while the process is running. -/
def exitCode (c : Ctl Unit) : Option Nat :=
  match c with
  | .ret _ => some 0
  | .exit code => some code
  | .starved => none

/-! ## Sample inputs -/

/-- A body with one host entry and the given overall status. -/
def statusBody (status : String) : GetResponse :=
  .received 200 (.json (.obj [("hosts", .arr [.obj [("critical", .int 0)]]),
                              ("info", .obj [("status", .str status)])]))

/-- A world in which every teardown step succeeds and the scan is completed. -/
def calmWorld : World :=
  ⟨some ⟨"stop", "start", "demand", "no", "0"⟩, fun _ => .ok,
   ⟨statusBody "completed", .status 200, .status 200⟩, .ok, false, false⟩

/-- A non-credentialed Linux run in which every step succeeds: scan 7 is reported
running twice and then completed. -/
def plainScenario : Scenario :=
  ⟨.linux, "/tmp/netbird1/netbird", "/tmp/netbird1", .ok, fun _ => true, false, none, true, true,
   .received 200 (some 7), [statusBody "running", statusBody "running", statusBody "completed"],
   .received 200 true, calmWorld⟩

/-- The run of `plainScenario` with the service never reachable. -/
def offlineScenario : Scenario := { plainScenario with apiProbes := fun _ => false }

/-- A credentialed Windows run in which every step succeeds. -/
def windowsScenario : Scenario :=
  { plainScenario with goos := .windows, credentialed := true,
                       captured := some ⟨"stop", "start", "demand", "no", "0"⟩ }

/-- A world whose settings file cannot be read. -/
def noSettingsWorld : World := { calmWorld with settingsFile := none }

/-- A world whose uninstall command exits with a non-zero status. -/
def stuckTunnelWorld : World := { calmWorld with uninstallResult := .exitError }

/-- A world whose remote service refuses every request of `deleteScan`. -/
def deafServiceWorld : World :=
  { calmWorld with deleteWorld := ⟨.transportError, .transportError, .transportError⟩,
                   removeFileFails := true }

/-- Query outputs of a host on which both services are running, Remote Registry
starts on demand, File and Printer Sharing is enabled and the token filter policy
is not set. -/
def runningHost : CaptureOutputs :=
  ⟨some "SERVICE_NAME: Winmgmt\n        STATE              : 4  RUNNING\n",
   some "SERVICE_NAME: RemoteRegistry\n        STATE              : 4  RUNNING\n",
   some "        START_TYPE         : 3   DEMAND_START\n",
   some "True\nTrue\n",
   some "    LocalAccountTokenFilterPolicy    REG_DWORD    0x0\n"⟩

/-- Query outputs of a host on which both services are stopped and File and
Printer Sharing is disabled. -/
def stoppedHost : CaptureOutputs :=
  ⟨some "SERVICE_NAME: Winmgmt\n        STATE              : 1  STOPPED\n",
   some "SERVICE_NAME: RemoteRegistry\n        STATE              : 1  STOPPED\n",
   some "        START_TYPE         : 3   DEMAND_START\n",
   some "False\nFalse\n",
   some "    LocalAccountTokenFilterPolicy    REG_DWORD    0x0\n"⟩

theorem Run.after_trace {ε α : Type} (es : List ε) (r : Run ε α) :
    (Run.after es r).trace = es ++ r.trace := rfl

theorem Run.after_ctl {ε α : Type} (es : List ε) (r : Run ε α) :
    (Run.after es r).ctl = r.ctl := rfl

/-! ## `deleteScan` -/

theorem deleteRequest_trace (scanID : Int) (resp : HttpResult) :
    (deleteRequest scanID resp).trace = [.deleteReq scanID] := by
  unfold deleteRequest
  cases resp with
  | transportError => rfl
  | status code => by_cases h : code = 200 <;> simp [h]

/-- C1, counterexample: scan 7 is fetched as "running" and the stop request is
answered with status 500; `deleteScan` returns the error after the stop request,
with no settle delay and no delete request. -/
theorem deleteScan_claim_fails :
    getScanStatus (statusBody "running") = .ok ⟨0, 0, 0, 0, 0, 0, "", "running"⟩ ∧
    (deleteScan 7 ⟨statusBody "running", .status 500, .status 200⟩).trace
      = [.call .deleteScan, .getStatus 7, .stopScan 7] ∧
    (deleteScan 7 ⟨statusBody "running", .status 500, .status 200⟩).ctl
      = .ret (some (.stopStatus 500)) ∧
    Event.deleteReq 7 ∉ (deleteScan 7 ⟨statusBody "running", .status 500, .status 200⟩).trace := by
  decide

/-- C1, amended: for a scan fetched as "running" whose stop request is answered
with status 200 the trace of `deleteScan` is (after the entry mark of the
function) status fetch, stop request, 5-second delay, delete request; when the
stop request fails the trace ends after the stop request and an error is
returned; for a scan fetched with any other status the delete request directly
follows the status fetch. -/
theorem deleteScan_trace (scanID : Int) (w : DeleteWorld) (r : StatusReport)
    (hfetch : getScanStatus w.statusResp = .ok r) :
    (r.status = "running" → w.stopResp = .status 200 →
      (deleteScan scanID w).trace
        = [.call .deleteScan, .getStatus scanID, .stopScan scanID, .sleep 5, .deleteReq scanID]) ∧
    (r.status = "running" → w.stopResp ≠ .status 200 →
      (deleteScan scanID w).trace = [.call .deleteScan, .getStatus scanID, .stopScan scanID] ∧
      ∃ e, (deleteScan scanID w).ctl = .ret (some e)) ∧
    (r.status ≠ "running" →
      (deleteScan scanID w).trace = [.call .deleteScan, .getStatus scanID, .deleteReq scanID]) := by
  refine ⟨?_, ?_, ?_⟩
  · intro hrun hstop
    simp [deleteScan, hfetch, hrun, hstop, Run.after, deleteRequest_trace]
  · intro hrun hstop
    cases hs : w.stopResp with
    | transportError =>
      simp [deleteScan, hfetch, hrun, hs, Run.after]
    | status code =>
      have hc : code ≠ 200 := by
        intro h
        exact hstop (by rw [hs, h])
      simp [deleteScan, hfetch, hrun, hs, hc, Run.after]
  · intro hrun
    simp [deleteScan, hfetch, hrun, Run.after, deleteRequest_trace]

/-- Witness of `deleteScan_trace`: scan 7, once running and once completed. -/
theorem deleteScan_trace_witness :
    (deleteScan 7 ⟨statusBody "running", .status 200, .status 200⟩).trace
        = [.call .deleteScan, .getStatus 7, .stopScan 7, .sleep 5, .deleteReq 7] ∧
    (deleteScan 7 ⟨statusBody "completed", .status 200, .status 200⟩).trace
        = [.call .deleteScan, .getStatus 7, .deleteReq 7] :=
  ⟨(deleteScan_trace 7 ⟨statusBody "running", .status 200, .status 200⟩
      ⟨0, 0, 0, 0, 0, 0, "", "running"⟩ (by decide)).1 (by decide) (by decide),
   (deleteScan_trace 7 ⟨statusBody "completed", .status 200, .status 200⟩
      ⟨0, 0, 0, 0, 0, 0, "", "completed"⟩ (by decide)).2.2 (by decide)⟩

/-! ## `statusLoop` -/

theorem fetches_append (scanID : Int) (s t : List Event) :
    fetches scanID (s ++ t) = fetches scanID s + fetches scanID t := by
  simp [fetches]

theorem statusLoopFrom_again (scanID : Int) (bound count c : Nat) (o : StatusOutcome)
    (rest : List StatusOutcome) (h : statusLoopIter bound count o = .again c) :
    statusLoopFrom scanID bound count (o :: rest)
      = Run.after [.getStatus scanID, .sleep 20] (statusLoopFrom scanID bound c rest) := by
  rw [statusLoopFrom, h]

theorem statusLoopFrom_done (scanID : Int) (bound count c : Nat) (o : StatusOutcome)
    (rest : List StatusOutcome) (h : statusLoopIter bound count o = .done c) :
    statusLoopFrom scanID bound count (o :: rest) = ⟨[.getStatus scanID], .ret ()⟩ := by
  rw [statusLoopFrom, h]

theorem statusLoopFrom_fatal (scanID : Int) (bound count c : Nat) (o : StatusOutcome)
    (rest : List StatusOutcome) (h : statusLoopIter bound count o = .fatal c) :
    statusLoopFrom scanID bound count (o :: rest) = ⟨[.getStatus scanID], .exit 1⟩ := by
  rw [statusLoopFrom, h]

theorem fetches_pass (scanID : Int) (r : Run Event Unit) :
    fetches scanID (Run.after [.getStatus scanID, .sleep 20] r).trace = fetches scanID r.trace + 1 := by
  rw [Run.after_trace, fetches_append]
  simp [fetches]
  omega

theorem statusLoopFrom_running (scanID : Int) (bound : Nat) (last : StatusReport)
    (hlast : last.status ≠ "running") (rest : List StatusOutcome) :
    ∀ (pre : List StatusReport) (count : Nat), (∀ r ∈ pre, r.status = "running") →
      (statusLoopFrom scanID bound count (pre.map StatusOutcome.ok ++ .ok last :: rest)).ctl = .ret () ∧
      fetches scanID
        (statusLoopFrom scanID bound count (pre.map StatusOutcome.ok ++ .ok last :: rest)).trace
        = pre.length + 1 := by
  intro pre
  induction pre with
  | nil =>
    intro count _
    have h : statusLoopIter bound count (.ok last) = .done 0 := by simp [statusLoopIter, hlast]
    rw [List.map_nil, List.nil_append, statusLoopFrom_done scanID bound count 0 _ rest h]
    simp [fetches]
  | cons r pre ih =>
    intro count hpre
    have hr : r.status = "running" := hpre r (List.mem_cons_self _ _)
    have ih' := ih 0 (fun x hx => hpre x (List.mem_cons_of_mem _ hx))
    have h : statusLoopIter bound count (.ok r) = .again 0 := by simp [statusLoopIter, hr]
    rw [List.map_cons, List.cons_append, statusLoopFrom_again scanID bound count 0 _ _ h,
      Run.after_ctl, fetches_pass, ih'.2]
    exact ⟨ih'.1, rfl⟩

/-- C2: against successful fetches of which the first `k` report "running" and
the next one reports another status, `statusLoop` performs exactly `k + 1` fetches
and returns normally, whatever the counts and progress values are and whatever
the service would have answered afterwards. -/
theorem statusLoop_fetch_count (scanID : Int) (pre : List StatusReport) (last : StatusReport)
    (rest : List StatusOutcome) (hpre : ∀ r ∈ pre, r.status = "running")
    (hlast : last.status ≠ "running") :
    (statusLoop scanID (pre.map StatusOutcome.ok ++ .ok last :: rest)).ctl = .ret () ∧
    fetches scanID (statusLoop scanID (pre.map StatusOutcome.ok ++ .ok last :: rest)).trace
      = pre.length + 1 := by
  have h := statusLoopFrom_running scanID statusRetryBound last hlast rest pre 0 hpre
  unfold statusLoop
  refine ⟨h.1, ?_⟩
  rw [Run.after_trace, fetches_append, h.2]
  simp [fetches]

/-- Witness of `statusLoop_fetch_count`: statuses running, running, completed give
exactly three fetches and a normal return. -/
theorem statusLoop_fetch_count_witness :
    (statusLoop 7 [.ok ⟨1, 2, 3, 4, 5, 10, "10%", "running"⟩, .ok ⟨2, 2, 3, 4, 9, 60, "60%", "running"⟩,
      .ok ⟨2, 3, 3, 4, 9, 100, "100%", "completed"⟩]).ctl = .ret () ∧
    fetches 7 (statusLoop 7 [.ok ⟨1, 2, 3, 4, 5, 10, "10%", "running"⟩,
      .ok ⟨2, 2, 3, 4, 9, 60, "60%", "running"⟩,
      .ok ⟨2, 3, 3, 4, 9, 100, "100%", "completed"⟩]).trace = 3 :=
  statusLoop_fetch_count 7 [⟨1, 2, 3, 4, 5, 10, "10%", "running"⟩, ⟨2, 2, 3, 4, 9, 60, "60%", "running"⟩]
    ⟨2, 3, 3, 4, 9, 100, "100%", "completed"⟩ [] (by decide) (by decide)

theorem statusLoopIter_ok_count (bound count : Nat) (r : StatusReport) :
    (statusLoopIter bound count (.ok r)).count = 0 := by
  unfold statusLoopIter
  by_cases h : r.status = "running" <;> simp [h, Iter.count]

theorem statusLoopFrom_not_fatal (scanID : Int) (bound : Nat) :
    ∀ (outcomes : List StatusOutcome) (count : Nat),
      (∀ l, l <+: outcomes → (∀ o ∈ l, o.isFail = true) → count + l.length ≤ bound) →
      (∀ l, l <:+: outcomes → (∀ o ∈ l, o.isFail = true) → l.length ≤ bound) →
      ∀ c, (statusLoopFrom scanID bound count outcomes).ctl ≠ .exit c := by
  intro outcomes
  induction outcomes with
  | nil =>
    intro count _ _ c
    simp [statusLoopFrom]
  | cons o rest ih =>
    intro count hpre hinf c
    have hinf' : ∀ l, l <:+: rest → (∀ o ∈ l, o.isFail = true) → l.length ≤ bound :=
      fun l hl hf => hinf l (List.infix_cons hl) hf
    cases o with
    | error e =>
      have h1 : count + 1 ≤ bound := by
        have := hpre [.error e] (by simp) (by simp [StatusOutcome.isFail])
        simpa using this
      have hit : statusLoopIter bound count (.error e) = .again (count + 1) := by
        simp [statusLoopIter]
        omega
      rw [statusLoopFrom_again scanID bound count (count + 1) _ rest hit, Run.after_ctl]
      refine ih (count + 1) ?_ hinf' c
      intro l hl hf
      have := hpre (.error e :: l) ((List.prefix_cons_inj _).2 hl) (by
        intro o ho
        rcases List.mem_cons.1 ho with rfl | ho
        · rfl
        · exact hf o ho)
      simp at this
      omega
    | ok r =>
      by_cases hr : r.status = "running"
      · have hit : statusLoopIter bound count (.ok r) = .again 0 := by simp [statusLoopIter, hr]
        rw [statusLoopFrom_again scanID bound count 0 _ rest hit, Run.after_ctl]
        refine ih 0 ?_ hinf' c
        intro l hl hf
        have := hinf' l hl.isInfix hf
        omega
      · have hit : statusLoopIter bound count (.ok r) = .done 0 := by simp [statusLoopIter, hr]
        rw [statusLoopFrom_done scanID bound count 0 _ rest hit]
        simp

/-- C3: the failure counter of `statusLoop` counts consecutive failures: a
successful fetch leaves it at zero whatever it was, and against every sequence of
fetch outcomes in which each run of consecutive failures is shorter than the bound
the loop never terminates the process, however many failures there are in total.
The bound of the code is `statusRetryBound`. -/
theorem statusLoop_consecutive_failures (scanID : Int) (bound : Nat) (outcomes : List StatusOutcome)
    (hruns : ∀ l, l <:+: outcomes → (∀ o ∈ l, o.isFail = true) → l.length < bound) :
    (∀ count r, (statusLoopIter bound count (.ok r)).count = 0) ∧
    (∀ c, (statusLoopFrom scanID bound 0 outcomes).ctl ≠ .exit c) ∧
    (bound = statusRetryBound → ∀ c, (statusLoop scanID outcomes).ctl ≠ .exit c) := by
  have hnf : ∀ c, (statusLoopFrom scanID bound 0 outcomes).ctl ≠ .exit c := by
    refine statusLoopFrom_not_fatal scanID bound outcomes 0 ?_ ?_
    · intro l hl hf
      have := hruns l hl.isInfix hf
      omega
    · intro l hl hf
      exact Nat.le_of_lt (hruns l hl hf)
  refine ⟨statusLoopIter_ok_count bound, hnf, ?_⟩
  intro hb c
  subst hb
  exact hnf c

/-- Witness of `statusLoop_consecutive_failures`: with bound ten, nine failed
fetches followed by a successful one do not terminate the process, and the tenth
fetch is made. -/
theorem statusLoop_consecutive_failures_witness :
    (∀ c, (statusLoopFrom 7 10 0 (List.replicate 9 (.error .sendGet)
      ++ [.ok ⟨0, 0, 0, 0, 0, 100, "100%", "completed"⟩])).ctl ≠ .exit c) ∧
    fetches 7 (statusLoopFrom 7 10 0 (List.replicate 9 (.error .sendGet)
      ++ [.ok ⟨0, 0, 0, 0, 0, 100, "100%", "completed"⟩])).trace = 10 :=
  ⟨(statusLoop_consecutive_failures 7 10 (List.replicate 9 (.error .sendGet)
      ++ [.ok ⟨0, 0, 0, 0, 0, 100, "100%", "completed"⟩]) (by
        intro l hl hf
        have hle := hl.length_le
        simp at hle
        by_contra hlt
        have hlen : l.length = (List.replicate 9 (StatusOutcome.error .sendGet)
            ++ [StatusOutcome.ok ⟨0, 0, 0, 0, 0, 100, "100%", "completed"⟩]).length := by
          simp
          omega
        have heq := hl.eq_of_length hlen
        have := hf (.ok ⟨0, 0, 0, 0, 0, 100, "100%", "completed"⟩) (by rw [heq]; simp)
        simp [StatusOutcome.isFail] at this)).2.1,
   by decide⟩

theorem uninstallTunnel_cases (g : Globals) (w : World) :
    (w.uninstallResult = .ok ∧ uninstallTunnel g w
      = ⟨[.call .uninstallTunnel, .uninstallCommands, .removeTempFile g.tempBinaryPath,
          .removeTempDir g.tempDir], .ret ()⟩) ∨
    (w.uninstallResult ≠ .ok ∧ uninstallTunnel g w
      = ⟨[.call .uninstallTunnel, .uninstallCommands], .exit 1⟩) := by
  cases h : w.uninstallResult <;>
    cases hf : w.removeFileFails <;> cases hd : w.removeDirFails <;>
    simp [uninstallTunnel, uninstallCommands, removeTempFile, removeTempDir, Run.bind, Run.after, h, hf, hd]

theorem uninstallTunnel_then_exit (g : Globals) (w : World) :
    ((uninstallTunnel g w).bind (fun _ => (Run.osExit 1 : Run Event Unit))).ctl = .exit 1 ∧
    teardownCalls ((uninstallTunnel g w).bind (fun _ => (Run.osExit 1 : Run Event Unit))).trace
      = [.uninstallTunnel] ∧
    Event.createScan ∉ ((uninstallTunnel g w).bind (fun _ => (Run.osExit 1 : Run Event Unit))).trace ∧
    Event.promptEmail ∉ ((uninstallTunnel g w).bind (fun _ => (Run.osExit 1 : Run Event Unit))).trace ∧
    ((uninstallTunnel g w).bind (fun _ => (Run.osExit 1 : Run Event Unit))).trace.count .checkAPI = 0 := by
  rcases uninstallTunnel_cases g w with ⟨_, h⟩ | ⟨_, h⟩ <;>
    simp [h, Run.bind, Run.osExit, teardownCalls]

theorem apiLoop_exhausted (probes : Nat → Bool) (g : Globals) (w : World) (f : Nat)
    (h : ∀ j, j < 5 → probes j = false) :
    apiLoop probes maxRetries g w (f + 5) 0 0
      = Run.after [.checkAPI, .sleep 5, .checkAPI, .sleep 5, .checkAPI, .sleep 5, .checkAPI, .sleep 5,
          .checkAPI] ((uninstallTunnel g w).bind (fun _ => Run.osExit 1)) := by
  have h0 := h 0 (by omega)
  have h1 := h 1 (by omega)
  have h2 := h 2 (by omega)
  have h3 := h 3 (by omega)
  have h4 := h 4 (by omega)
  simp [apiLoop, maxRetries, Run.after, h0, h1, h2, h3, h4]

theorem apiLoop_first_online (probes : Nat → Bool) (g : Globals) (w : World) (f k : Nat)
    (hk : k < 5) (hon : probes k = true) (hoff : ∀ j, j < k → probes j = false) :
    apiLoop probes maxRetries g w (f + 5) 0 0
      = ⟨(List.replicate k [Event.checkAPI, Event.sleep 5]).flatten ++ [.checkAPI], .ret ()⟩ := by
  interval_cases k
  · simp [apiLoop, maxRetries, Run.after, hon]
  · have h0 := hoff 0 (by omega)
    simp [apiLoop, maxRetries, Run.after, hon, h0]
  · have h0 := hoff 0 (by omega)
    have h1 := hoff 1 (by omega)
    simp [apiLoop, maxRetries, Run.after, hon, h0, h1]
  · have h0 := hoff 0 (by omega)
    have h1 := hoff 1 (by omega)
    have h2 := hoff 2 (by omega)
    simp [apiLoop, maxRetries, Run.after, hon, h0, h1, h2]
  · have h0 := hoff 0 (by omega)
    have h1 := hoff 1 (by omega)
    have h2 := hoff 2 (by omega)
    have h3 := hoff 3 (by omega)
    simp [apiLoop, maxRetries, Run.after, hon, h0, h1, h2, h3]

theorem first_online_or_none (probes : Nat → Bool) (n : Nat) :
    (∃ k, k < n ∧ probes k = true ∧ ∀ j, j < k → probes j = false) ∨
    (∀ j, j < n → probes j = false) := by
  induction n with
  | zero => exact Or.inr (fun j hj => absurd hj (Nat.not_lt_zero j))
  | succ n ih =>
    rcases ih with ⟨k, hk, hon, hoff⟩ | hall
    · exact Or.inl ⟨k, Nat.lt_succ_of_lt hk, hon, hoff⟩
    · cases hn : probes n
      · right
        intro j hj
        rcases Nat.lt_succ_iff_lt_or_eq.1 hj with h | h
        · exact hall j h
        · rw [h]; exact hn
      · exact Or.inl ⟨n, Nat.lt_succ_self n, hn, hall⟩

theorem count_checkAPI_rounds (k : Nat) :
    ((List.replicate k [Event.checkAPI, Event.sleep 5]).flatten ++ [Event.checkAPI]).count .checkAPI
      = k + 1 := by
  induction k with
  | zero => simp
  | succ k ih =>
    simp only [List.replicate_succ, List.flatten_cons, List.append_assoc, List.count_append] at ih ⊢
    rw [ih]
    simp
    omega

theorem teardownCalls_rounds (k : Nat) :
    teardownCalls ((List.replicate k [Event.checkAPI, Event.sleep 5]).flatten ++ [Event.checkAPI]) = [] := by
  induction k with
  | zero => simp [teardownCalls]
  | succ k ih =>
    simp only [teardownCalls, List.replicate_succ, List.flatten_cons, List.append_assoc,
      List.filterMap_append] at ih ⊢
    rw [ih]
    simp

/-! ## Sequencing -/

theorem Run.bind_of_ret {ε α β : Type} (r : Run ε α) (f : α → Run ε β) (a : α)
    (h : r.ctl = .ret a) : r.bind f = ⟨r.trace ++ (f a).trace, (f a).ctl⟩ := by
  simp [Run.bind, h]

theorem Run.bind_of_exit {ε α β : Type} (r : Run ε α) (f : α → Run ε β) (c : Nat)
    (h : r.ctl = .exit c) : r.bind f = ⟨r.trace, .exit c⟩ := by
  simp [Run.bind, h]

theorem Run.bind_of_starved {ε α β : Type} (r : Run ε α) (f : α → Run ε β)
    (h : r.ctl = .starved) : r.bind f = ⟨r.trace, .starved⟩ := by
  simp [Run.bind, h]

theorem Run.tag_ctl {α : Type} (g : Globals) (r : Run Event α) : (Run.tag g r).ctl = r.ctl := rfl

theorem Run.tag_events {α : Type} (g : Globals) (r : Run Event α) :
    (Run.tag g r).trace.map Prod.fst = r.trace := by
  simp [Run.tag, Function.comp_def]

/-! ## `getScanStatus` -/

theorem decodeTopMembers_no_host (ms : List (String × JSON)) :
    ∀ (cur st : Decoding), cur.value.hosts = [] →
      (∀ kv ∈ ms, keyMatches kv.1 "hosts" = true → kv.2 = .null ∨ kv.2 = .arr []) →
      decodeTopMembers cur ms = some st → st.value.hosts = [] := by
  induction ms with
  | nil =>
    intro cur st hcur _ hdec
    simp only [decodeTopMembers, Option.some.injEq] at hdec
    rw [← hdec]
    exact hcur
  | cons kv rest ih =>
    intro cur st hcur hms hdec
    simp only [decodeTopMembers] at hdec
    cases hm : decodeTopMember cur kv with
    | none => simp [hm] at hdec
    | some cur' =>
      simp only [hm] at hdec
      refine ih cur' st ?_ (fun x hx => hms x (List.mem_cons_of_mem _ hx)) hdec
      unfold decodeTopMember at hm
      by_cases hk : keyMatches kv.1 "hosts" = true
      · rcases hms kv (List.mem_cons_self _ _) hk with hv | hv
        · simp [hk, hv, decodeHosts] at hm
          rw [← hm]
        · simp [hk, hv, decodeHosts] at hm
          rw [← hm]
      · simp only [hk, Bool.false_eq_true, if_false] at hm
        by_cases hi : keyMatches kv.1 "info" = true
        · simp only [hi, if_true, Option.map_eq_some'] at hm
          obtain ⟨i, _, hi'⟩ := hm
          rw [← hi']
          exact hcur
        · simp only [hi, Bool.false_eq_true, if_false, Option.some.injEq] at hm
          rw [← hm]
          exact hcur

/-- One member of a host object changes no field whose tag its key does not match. -/
theorem decodeHostMember_keeps (h h' : Host) (kv : String × JSON)
    (hd : decodeHostMember h kv = some h') :
    (keyMatches kv.1 "critical" = false → h'.critical = h.critical) ∧
    (keyMatches kv.1 "high" = false → h'.high = h.high) ∧
    (keyMatches kv.1 "medium" = false → h'.medium = h.medium) ∧
    (keyMatches kv.1 "low" = false → h'.low = h.low) ∧
    (keyMatches kv.1 "info" = false → h'.info = h.info) ∧
    (keyMatches kv.1 "scanprogresscurrent" = false →
      h'.scanProgressCurrent = h.scanProgressCurrent) ∧
    (keyMatches kv.1 "progress" = false → h'.progress = h.progress) := by
  unfold decodeHostMember at hd
  split_ifs at hd with h1 h2 h3 h4 h5 h6 h7 <;>
    first
    | (simp only [Option.map_eq_some'] at hd
       obtain ⟨n, _, hn⟩ := hd
       subst hn
       simp_all)
    | (simp only [Option.some.injEq] at hd
       subst hd
       simp)

/-- The members of a host object change no field none of their keys matches. -/
theorem decodeHostMembers_keeps (ms : List (String × JSON)) :
    ∀ (h h' : Host), decodeHostMembers h ms = some h' →
      ((∀ kv ∈ ms, keyMatches kv.1 "critical" = false) → h'.critical = h.critical) ∧
      ((∀ kv ∈ ms, keyMatches kv.1 "high" = false) → h'.high = h.high) ∧
      ((∀ kv ∈ ms, keyMatches kv.1 "medium" = false) → h'.medium = h.medium) ∧
      ((∀ kv ∈ ms, keyMatches kv.1 "low" = false) → h'.low = h.low) ∧
      ((∀ kv ∈ ms, keyMatches kv.1 "info" = false) → h'.info = h.info) ∧
      ((∀ kv ∈ ms, keyMatches kv.1 "scanprogresscurrent" = false) →
        h'.scanProgressCurrent = h.scanProgressCurrent) ∧
      ((∀ kv ∈ ms, keyMatches kv.1 "progress" = false) → h'.progress = h.progress) := by
  induction ms with
  | nil =>
    intro h h' hd
    simp only [decodeHostMembers, Option.some.injEq] at hd
    subst hd
    simp
  | cons kv rest ih =>
    intro h h' hd
    simp only [decodeHostMembers] at hd
    cases hm : decodeHostMember h kv with
    | none => simp [hm] at hd
    | some h1 =>
      simp only [hm] at hd
      obtain ⟨a1, a2, a3, a4, a5, a6, a7⟩ := decodeHostMember_keeps h h1 kv hm
      obtain ⟨b1, b2, b3, b4, b5, b6, b7⟩ := ih h1 h' hd
      refine ⟨fun hk => ?_, fun hk => ?_, fun hk => ?_, fun hk => ?_, fun hk => ?_, fun hk => ?_,
        fun hk => ?_⟩
      · rw [b1 (fun x hx => hk x (List.mem_cons_of_mem _ hx)), a1 (hk kv (List.mem_cons_self _ _))]
      · rw [b2 (fun x hx => hk x (List.mem_cons_of_mem _ hx)), a2 (hk kv (List.mem_cons_self _ _))]
      · rw [b3 (fun x hx => hk x (List.mem_cons_of_mem _ hx)), a3 (hk kv (List.mem_cons_self _ _))]
      · rw [b4 (fun x hx => hk x (List.mem_cons_of_mem _ hx)), a4 (hk kv (List.mem_cons_self _ _))]
      · rw [b5 (fun x hx => hk x (List.mem_cons_of_mem _ hx)), a5 (hk kv (List.mem_cons_self _ _))]
      · rw [b6 (fun x hx => hk x (List.mem_cons_of_mem _ hx)), a6 (hk kv (List.mem_cons_self _ _))]
      · rw [b7 (fun x hx => hk x (List.mem_cons_of_mem _ hx)), a7 (hk kv (List.mem_cons_self _ _))]

/-- The members of an `info` object leave the status alone when none is keyed `status`. -/
theorem decodeInfoMembers_keeps (ms : List (String × JSON)) :
    ∀ (i i' : Info), decodeInfoMembers i ms = some i' →
      (∀ kv ∈ ms, keyMatches kv.1 "status" = false) → i'.status = i.status := by
  induction ms with
  | nil =>
    intro i i' hd _
    simp only [decodeInfoMembers, Option.some.injEq] at hd
    rw [← hd]
  | cons kv rest ih =>
    intro i i' hd hk
    simp only [decodeInfoMembers] at hd
    cases hm : decodeInfoMember i kv with
    | none => simp [hm] at hd
    | some i1 =>
      simp only [hm] at hd
      rw [ih i1 i' hd (fun x hx => hk x (List.mem_cons_of_mem _ hx))]
      simp only [decodeInfoMember, hk kv (List.mem_cons_self _ _), Bool.false_eq_true, if_false,
        Option.some.injEq] at hm
      rw [← hm]

/-- Members whose key does not match `hosts` leave the `Hosts` slice alone, and
when every `info` member among them is `null` or an object without a `status`
member, the status string as well. -/
theorem decodeTopMembers_keeps (tops : List (String × JSON)) :
    ∀ (d d' : Decoding), decodeTopMembers d tops = some d' →
      (∀ kv ∈ tops, keyMatches kv.1 "hosts" = false) →
      d'.value.hosts = d.value.hosts ∧
      ((∀ kv ∈ tops, keyMatches kv.1 "info" = true →
          kv.2 = .null ∨ ∃ ims, kv.2 = .obj ims ∧ ∀ m ∈ ims, keyMatches m.1 "status" = false) →
        d'.value.info.status = d.value.info.status) := by
  induction tops with
  | nil =>
    intro d d' hd _
    simp only [decodeTopMembers, Option.some.injEq] at hd
    subst hd
    simp
  | cons kv rest ih =>
    intro d d' hd hk
    simp only [decodeTopMembers] at hd
    cases hm : decodeTopMember d kv with
    | none => simp [hm] at hd
    | some d1 =>
      simp only [hm] at hd
      obtain ⟨b1, b2⟩ := ih d1 d' hd (fun x hx => hk x (List.mem_cons_of_mem _ hx))
      simp only [decodeTopMember, hk kv (List.mem_cons_self _ _), Bool.false_eq_true,
        if_false] at hm
      by_cases hi : keyMatches kv.1 "info" = true
      · simp only [hi, if_true, Option.map_eq_some'] at hm
        obtain ⟨i, hdi, hi'⟩ := hm
        subst hi'
        refine ⟨b1, fun hinfo => ?_⟩
        rw [b2 (fun x hx => hinfo x (List.mem_cons_of_mem _ hx))]
        rcases hinfo kv (List.mem_cons_self _ _) hi with hnull | ⟨ims, hobj, hims⟩
        · simp only [hnull, decodeInfo, Option.some.injEq] at hdi
          rw [← hdi]
        · simp only [hobj, decodeInfo] at hdi
          exact decodeInfoMembers_keeps ims _ _ hdi hims
      · simp only [hi, Bool.false_eq_true, if_false, Option.some.injEq] at hm
        subst hm
        exact ⟨b1, fun hinfo => b2 (fun x hx => hinfo x (List.mem_cons_of_mem _ hx))⟩

/-- A body `{"hosts":[{...}, ...], ...}` with no second `hosts` member that
`getScanStatus` answers without error: the first host entry and the remaining
members have been decoded, and the values returned are those decoded. -/
theorem getScanStatus_ok_inv (code : Nat) (hms : List (String × JSON)) (more : List JSON)
    (tops : List (String × JSON)) (r : StatusReport)
    (hk : ∀ kv ∈ tops, keyMatches kv.1 "hosts" = false)
    (hr : getScanStatus (.received code
      (.json (.obj (("hosts", .arr (.obj hms :: more)) :: tops)))) = .ok r) :
    ∃ (h : Host) (hs : List Host) (d : Decoding),
      decodeHostMembers Host.zero hms = some h ∧
      decodeTopMembers ⟨⟨h :: hs, ⟨""⟩⟩, []⟩ tops = some d ∧
      r = ⟨h.critical, h.high, h.medium, h.low, h.info, h.scanProgressCurrent, h.progress,
           d.value.info.status⟩ := by
  have hkey : keyMatches "hosts" "hosts" = true := by decide
  simp only [getScanStatus, unmarshalScanStatus, decodeTopMembers, decodeTopMember, hkey, if_true,
    decodeHosts, ScanStatusResponse.zero, List.append_nil, decodeHostList, List.headD_nil,
    List.tail_nil, decodeHost] at hr
  cases hh : decodeHostMembers Host.zero hms with
  | none => simp [hh] at hr
  | some h =>
    cases hl : decodeHostList [] more with
    | none => simp [hh, hl] at hr
    | some hs =>
      simp only [hh, hl, Option.map_some', List.length_cons, List.drop_nil] at hr
      cases hd : decodeTopMembers ⟨⟨h :: hs, ⟨""⟩⟩, []⟩ tops with
      | none => simp [hd] at hr
      | some d =>
        simp only [hd, Option.map_some'] at hr
        have hhosts := (decodeTopMembers_keeps tops _ d hd hk).1
        simp only at hhosts
        simp only [hhosts, StatusOutcome.ok.injEq] at hr
        exact ⟨h, hs, d, rfl, hd, hr.symm⟩

/-- A key spelled with U+017F (long s) matches the tag `hosts`, as it does under
the case folding of `encoding/json`: the counts of the entry are returned. -/
theorem getScanStatus_long_s_key :
    getScanStatus (.received 200 (.json (.obj
      [("ho\u017fts", .arr [.obj [("critical", .int 3)]])])))
      = .ok ⟨3, 0, 0, 0, 0, 0, "", ""⟩ := by
  decide

/-- A second `hosts` member is decoded into the elements the first one left: the
count set by the first occurrence is still there after `[{}]`, and a later `null`
empties the slice. -/
theorem getScanStatus_repeated_hosts_key :
    getScanStatus (.received 200 (.json (.obj
      [("hosts", .arr [.obj [("critical", .int 5)]]), ("hosts", .arr [.obj []])])))
      = .ok ⟨5, 0, 0, 0, 0, 0, "", ""⟩ ∧
    getScanStatus (.received 200 (.json (.obj
      [("hosts", .arr [.obj [("critical", .int 5)]]), ("hosts", .null)])))
      = .error .noHost := by
  decide

/-- C10, counterexample: the body `{"hosts":[{}]}` carries neither an overall
status nor any per-host field, and `getScanStatus` returns zero values with a nil
error. -/
theorem getScanStatus_defaults_missing_fields :
    getScanStatus (.received 200 (.json (.obj [("hosts", .arr [.obj []])])))
      = .ok ⟨0, 0, 0, 0, 0, 0, "", ""⟩ := by
  decide

/-- C10, amended. Errors: `getScanStatus` returns a non-nil error when the GET
fails, when the body cannot be read, when the body is not JSON, when
`json.Unmarshal` rejects the document (for instance a first host entry whose
`critical` is neither `null` nor an integer in the range of `int`), and for every
object without a host entry (each of its members keyed `hosts`, up to the case
folding of `encoding/json`, holds `null` or `[]`). Values: a body
`{"hosts":[{...},...],"info":{"status":...}}` that carries all seven fields in its
first host entry is answered with exactly those values and that status. Missing
fields: when a body `{"hosts":[{...},...], ...}` is answered without error, each
count or progress whose member the first host entry does not carry is returned as
0 or the empty string, and the status is the empty string when the body has no
`info` member holding a `status`; a first host entry `{}` is answered that way. -/
theorem getScanStatus_payload (code : Nat) :
    getScanStatus .transportError = .error .sendGet ∧
    getScanStatus (.readError code) = .error .readBody ∧
    getScanStatus (.received code .malformed) = .error .unmarshal ∧
    (∀ v, unmarshalScanStatus v = none →
      getScanStatus (.received code (.json v)) = .error .unmarshal) ∧
    (∀ x more tops, x ≠ .null → (∀ n, x = .int n → fitsInt64 n = false) →
      getScanStatus (.received code (.json (.obj
        (("hosts", .arr (.obj [("critical", x)] :: more)) :: tops)))) = .error .unmarshal) ∧
    (∀ ms, (∀ kv ∈ ms, keyMatches kv.1 "hosts" = true → kv.2 = .null ∨ kv.2 = .arr []) →
      getScanStatus (.received code (.json (.obj ms))) = .error .unmarshal ∨
      getScanStatus (.received code (.json (.obj ms))) = .error .noHost) ∧
    (∀ (h : Host) (status : String) (more : List JSON) (hs : List Host),
      fitsInt64 h.critical = true → fitsInt64 h.high = true → fitsInt64 h.medium = true →
      fitsInt64 h.low = true → fitsInt64 h.info = true →
      fitsInt64 h.scanProgressCurrent = true → decodeHostList [] more = some hs →
      getScanStatus (.received code (.json (.obj
        [("hosts", .arr (.obj [("critical", .int h.critical), ("high", .int h.high),
            ("medium", .int h.medium), ("low", .int h.low), ("info", .int h.info),
            ("scanprogresscurrent", .int h.scanProgressCurrent),
            ("progress", .str h.progress)] :: more)),
         ("info", .obj [("status", .str status)])])))
        = .ok ⟨h.critical, h.high, h.medium, h.low, h.info, h.scanProgressCurrent,
               h.progress, status⟩) ∧
    (∀ hms more tops r, (∀ kv ∈ tops, keyMatches kv.1 "hosts" = false) →
      getScanStatus (.received code
        (.json (.obj (("hosts", .arr (.obj hms :: more)) :: tops)))) = .ok r →
      ((∀ kv ∈ hms, keyMatches kv.1 "critical" = false) → r.critical = 0) ∧
      ((∀ kv ∈ hms, keyMatches kv.1 "high" = false) → r.high = 0) ∧
      ((∀ kv ∈ hms, keyMatches kv.1 "medium" = false) → r.medium = 0) ∧
      ((∀ kv ∈ hms, keyMatches kv.1 "low" = false) → r.low = 0) ∧
      ((∀ kv ∈ hms, keyMatches kv.1 "info" = false) → r.info = 0) ∧
      ((∀ kv ∈ hms, keyMatches kv.1 "scanprogresscurrent" = false) →
        r.scanProgressCurrent = 0) ∧
      ((∀ kv ∈ hms, keyMatches kv.1 "progress" = false) → r.percentage = "") ∧
      ((∀ kv ∈ tops, keyMatches kv.1 "info" = true →
          kv.2 = .null ∨ ∃ ims, kv.2 = .obj ims ∧ ∀ m ∈ ims, keyMatches m.1 "status" = false) →
        r.status = "")) ∧
    (∀ more hs, decodeHostList [] more = some hs →
      getScanStatus (.received code (.json (.obj [("hosts", .arr (.obj [] :: more))])))
        = .ok ⟨0, 0, 0, 0, 0, 0, "", ""⟩) := by
  have hkey : keyMatches "hosts" "hosts" = true := by decide
  refine ⟨rfl, rfl, rfl, ?_, ?_, ?_, ?_, ?_, ?_⟩
  · intro v hv
    simp [getScanStatus, hv]
  · intro x more tops hnull hint
    have hx : setInt x 0 = none := by
      cases x with
      | null => exact absurd rfl hnull
      | int n => simp [setInt, hint n rfl]
      | _ => rfl
    have hc : keyMatches "critical" "critical" = true := by decide
    simp [getScanStatus, unmarshalScanStatus, decodeTopMembers, decodeTopMember, hkey, decodeHosts,
      decodeHostList, decodeHost, decodeHostMembers, decodeHostMember, hc, Host.zero, hx,
      ScanStatusResponse.zero]
  · intro ms hms
    simp only [getScanStatus, unmarshalScanStatus]
    cases hd : decodeTopMembers ⟨ScanStatusResponse.zero, []⟩ ms with
    | none => exact Or.inl rfl
    | some st =>
      have hh := decodeTopMembers_no_host ms ⟨ScanStatusResponse.zero, []⟩ st rfl hms hd
      simp [hh]
  · intro h status more hs h1 h2 h3 h4 h5 h6 hmore
    simp +decide [getScanStatus, unmarshalScanStatus, decodeTopMembers, decodeTopMember,
      decodeHosts, decodeHostList, decodeHost, decodeHostMembers, decodeHostMember, setInt,
      setString, decodeInfo, decodeInfoMembers, decodeInfoMember, Host.zero,
      ScanStatusResponse.zero, h1, h2, h3, h4, h5, h6, hmore]
  · intro hms more tops r hk hr
    obtain ⟨h, hs, d, hh, hd, hreq⟩ := getScanStatus_ok_inv code hms more tops r hk hr
    obtain ⟨a1, a2, a3, a4, a5, a6, a7⟩ := decodeHostMembers_keeps hms Host.zero h hh
    have hst := (decodeTopMembers_keeps tops _ d hd hk).2
    subst hreq
    exact ⟨a1, a2, a3, a4, a5, a6, a7, hst⟩
  · intro more hs hmore
    simp [getScanStatus, unmarshalScanStatus, decodeTopMembers, decodeTopMember, hkey, decodeHosts,
      decodeHostList, decodeHost, decodeHostMembers, hmore, ScanStatusResponse.zero, Host.zero]

/-- Witness of `getScanStatus_payload`: a body without a `hosts` member is an
error, a body whose first host entry gives `critical` as a string is an error, a
full payload is returned as it is, and a first host entry that carries only
`critical` is answered with zeros elsewhere. -/
theorem getScanStatus_payload_witness :
    (getScanStatus (.received 200 (.json (.obj [("info", .obj [("status", .str "running")])])))
        = .error .unmarshal ∨
      getScanStatus (.received 200 (.json (.obj [("info", .obj [("status", .str "running")])])))
        = .error .noHost) ∧
    getScanStatus (.received 200 (.json (.obj
      [("hosts", .arr [.obj [("critical", .str "3")]])]))) = .error .unmarshal ∧
    getScanStatus (.received 200 (.json (.obj
        [("hosts", .arr (.obj [("critical", .int 1), ("high", .int 2),
            ("medium", .int 3), ("low", .int 4), ("info", .int 5),
            ("scanprogresscurrent", .int 60),
            ("progress", .str "60%")] :: [.null])),
         ("info", .obj [("status", .str "running")])])))
      = .ok ⟨1, 2, 3, 4, 5, 60, "60%", "running"⟩ ∧
    (∀ r, getScanStatus (.received 200 (.json (.obj
        [("hosts", .arr [.obj [("critical", .int 3)]])]))) = .ok r →
      r.high = 0 ∧ r.percentage = "" ∧ r.status = "") :=
  ⟨(getScanStatus_payload 200).2.2.2.2.2.1 [("info", .obj [("status", .str "running")])]
      (by
        intro kv hkv hk
        simp only [List.mem_singleton] at hkv
        subst hkv
        exact absurd hk (by decide)),
   (getScanStatus_payload 200).2.2.2.2.1 (.str "3") [] [] (by simp) (by simp),
   (getScanStatus_payload 200).2.2.2.2.2.2.1 ⟨1, 2, 3, 4, 5, 60, "60%"⟩ "running" [.null]
      [Host.zero] (by decide) (by decide) (by decide) (by decide) (by decide) (by decide)
      (by decide),
   fun r hr =>
     have h := (getScanStatus_payload 200).2.2.2.2.2.2.2.1 [("critical", .int 3)] [] [] r
       (by simp) hr
     ⟨h.2.1 (by decide), h.2.2.2.2.2.2.1 (by decide), h.2.2.2.2.2.2.2 (by simp)⟩⟩


theorem Run.bind_trace {ε α β : Type} (r : Run ε α) (f : α → Run ε β) :
    ∃ rest, (r.bind f).trace = r.trace ++ rest := by
  unfold Run.bind
  cases r.ctl with
  | ret a => exact ⟨(f a).trace, rfl⟩
  | exit c => exact ⟨[], by simp⟩
  | starved => exact ⟨[], by simp⟩

/-- C9: the reachability wait of `main` has a fixed budget. Whatever the results
of `checkAPIStatus` are, the loop ends within `maxRetries + 1 = 5` probes (a model
budget of five passes or more never runs out); it returns at the first probe
that answers true among these, and `main` goes on to the operator prompts; if all
five answer false it calls `uninstallTunnel` once and exits with code 1, and
`main` never creates a scan. -/
theorem apiLoop_budget (sc : Scenario) (g : Globals) (w : World) (fuel : Nat)
    (hinst : sc.installResult = .ok) (hfuel : maxRetries + 1 ≤ fuel) :
    (apiLoop sc.apiProbes maxRetries g w fuel 0 0).ctl ≠ .starved ∧
    (apiLoop sc.apiProbes maxRetries g w fuel 0 0).trace.count .checkAPI ≤ maxRetries + 1 ∧
    (∀ k, k < maxRetries + 1 → sc.apiProbes k = true → (∀ j, j < k → sc.apiProbes j = false) →
      (apiLoop sc.apiProbes maxRetries g w fuel 0 0).ctl = .ret () ∧
      (apiLoop sc.apiProbes maxRetries g w fuel 0 0).trace.count .checkAPI = k + 1 ∧
      teardownCalls (apiLoop sc.apiProbes maxRetries g w fuel 0 0).trace = [] ∧
      ∃ rest, mainTrace sc
        = [.call .installTunnel, .installNetbird, .installCommands, .sleep 5]
          ++ ((List.replicate k [Event.checkAPI, Event.sleep 5]).flatten ++ [.checkAPI])
          ++ [.promptEmail, .promptCredentialed] ++ rest) ∧
    ((∀ j, j < maxRetries + 1 → sc.apiProbes j = false) →
      (apiLoop sc.apiProbes maxRetries g w fuel 0 0).ctl = .exit 1 ∧
      (apiLoop sc.apiProbes maxRetries g w fuel 0 0).trace.count .checkAPI = maxRetries + 1 ∧
      teardownCalls (apiLoop sc.apiProbes maxRetries g w fuel 0 0).trace = [.uninstallTunnel] ∧
      (mainRun sc).ctl = .exit 1 ∧
      (mainTrace sc).count .checkAPI = maxRetries + 1 ∧
      teardownCalls (mainTrace sc) = [.uninstallTunnel] ∧
      Event.promptEmail ∉ mainTrace sc ∧
      Event.createScan ∉ mainTrace sc) := by
  obtain ⟨f, rfl⟩ : ∃ f, fuel = f + 5 := ⟨fuel - 5, by simp only [maxRetries] at hfuel; omega⟩
  have hfirst : ∀ k, k < maxRetries + 1 → sc.apiProbes k = true →
      (∀ j, j < k → sc.apiProbes j = false) →
      (apiLoop sc.apiProbes maxRetries g w (f + 5) 0 0).ctl = .ret () ∧
      (apiLoop sc.apiProbes maxRetries g w (f + 5) 0 0).trace.count .checkAPI = k + 1 ∧
      teardownCalls (apiLoop sc.apiProbes maxRetries g w (f + 5) 0 0).trace = [] := by
    intro k hk hon hoff
    rw [apiLoop_first_online sc.apiProbes g w f k hk hon hoff]
    exact ⟨rfl, count_checkAPI_rounds k, teardownCalls_rounds k⟩
  have hnone : (∀ j, j < maxRetries + 1 → sc.apiProbes j = false) →
      (apiLoop sc.apiProbes maxRetries g w (f + 5) 0 0).ctl = .exit 1 ∧
      (apiLoop sc.apiProbes maxRetries g w (f + 5) 0 0).trace.count .checkAPI = maxRetries + 1 ∧
      teardownCalls (apiLoop sc.apiProbes maxRetries g w (f + 5) 0 0).trace = [.uninstallTunnel] := by
    intro hall
    have hx := uninstallTunnel_then_exit g w
    rw [apiLoop_exhausted sc.apiProbes g w f hall, Run.after_ctl, Run.after_trace,
      List.count_append, hx.2.2.2.2]
    refine ⟨hx.1, by simp [maxRetries], ?_⟩
    simp only [teardownCalls, List.filterMap_append] at hx ⊢
    rw [hx.2.1]
    simp
  refine ⟨?_, ?_, ?_, ?_⟩
  · rcases first_online_or_none sc.apiProbes (maxRetries + 1) with ⟨k, hk, hon, hoff⟩ | hall
    · rw [(hfirst k hk hon hoff).1]
      simp
    · rw [(hnone hall).1]
      simp
  · rcases first_online_or_none sc.apiProbes (maxRetries + 1) with ⟨k, hk, hon, hoff⟩ | hall
    · rw [(hfirst k hk hon hoff).2.1]
      omega
    · rw [(hnone hall).2.1]
  · intro k hk hon hoff
    refine ⟨(hfirst k hk hon hoff).1, (hfirst k hk hon hoff).2.1, (hfirst k hk hon hoff).2.2, ?_⟩
    have hloop := apiLoop_first_online sc.apiProbes
      ⟨false, 0, sc.binaryPath, sc.binaryDir⟩ sc.world 0 k hk hon hoff
    simp only [Nat.zero_add] at hloop
    have h5 : maxRetries + 1 = 5 := rfl
    obtain ⟨rest1, hrest1⟩ : ∃ rest, (setupPhase sc).trace.map Prod.fst
        = [.call .installTunnel, .installNetbird, .installCommands, .sleep 5]
          ++ ((List.replicate k [Event.checkAPI, Event.sleep 5]).flatten ++ [.checkAPI])
          ++ [.promptEmail, .promptCredentialed] ++ rest := by
      simp only [setupPhase, h5, hloop, hinst, installTunnel]
      rw [Run.bind_of_ret _ _ () rfl, Run.bind_of_ret _ _ () rfl, Run.bind_of_ret _ _ () rfl,
        Run.bind_of_ret _ _ () rfl]
      simp only [List.map_append, Run.tag_events, Run.after_trace, Run.emit]
      exact ⟨_, by simp only [List.append_assoc, List.cons_append, List.nil_append]; rfl⟩
    obtain ⟨rest2, hrest2⟩ := Run.bind_trace (setupPhase sc)
      (fun g1 => (scanPhase sc g1).bind (fun g2 => finalPhase sc g2))
    refine ⟨rest1 ++ rest2.map Prod.fst, ?_⟩
    simp only [mainTrace, mainRun]
    rw [hrest2, List.map_append, hrest1]
    simp only [List.append_assoc]
  · intro hall
    refine ⟨(hnone hall).1, (hnone hall).2.1, (hnone hall).2.2, ?_⟩
    have hloop := apiLoop_exhausted sc.apiProbes
      ⟨false, 0, sc.binaryPath, sc.binaryDir⟩ sc.world 0 hall
    simp only [Nat.zero_add] at hloop
    have h5 : maxRetries + 1 = 5 := rfl
    have hx := uninstallTunnel_then_exit ⟨false, 0, sc.binaryPath, sc.binaryDir⟩ sc.world
    have hsetup : setupPhase sc = ⟨(setupPhase sc).trace, .exit 1⟩ ∧
        (setupPhase sc).trace.map Prod.fst
          = [.call .installTunnel, .installNetbird, .installCommands] ++ ([.sleep 5] ++
            ([.checkAPI, .sleep 5, .checkAPI, .sleep 5, .checkAPI, .sleep 5, .checkAPI, .sleep 5,
              .checkAPI] ++ ((uninstallTunnel ⟨false, 0, sc.binaryPath, sc.binaryDir⟩ sc.world).bind
                (fun _ => (Run.osExit 1 : Run Event Unit))).trace)) := by
      simp only [setupPhase, h5, hloop, hinst, installTunnel]
      rw [Run.bind_of_ret _ _ () rfl, Run.bind_of_exit _ _ 1 (by
        rw [Run.tag_ctl, Run.after_ctl, Run.after_ctl]
        exact hx.1)]
      simp only [List.map_append, Run.tag_events, Run.after_trace]
      exact ⟨trivial, trivial⟩
    simp only [mainTrace, mainRun]
    rw [Run.bind_of_exit _ _ 1 (by rw [hsetup.1]), hsetup.2]
    simp only [List.count_append, teardownCalls, List.filterMap_append, List.mem_append, not_or]
    simp only [teardownCalls] at hx
    rw [hx.2.1, hx.2.2.2.2]
    refine ⟨trivial, by simp [maxRetries], by simp, ?_, ?_⟩
    · exact ⟨by simp, by simp, by simp, hx.2.2.2.1⟩
    · exact ⟨by simp, by simp, by simp, hx.2.2.1⟩

/-- Witness of `apiLoop_budget`: in `offlineScenario` no probe succeeds; after five
probes the tunnel is uninstalled once and the process exits with code 1. -/
theorem apiLoop_budget_witness :
    (apiLoop offlineScenario.apiProbes maxRetries Globals.initial calmWorld 9 0 0).ctl = .exit 1 ∧
    (apiLoop offlineScenario.apiProbes maxRetries Globals.initial calmWorld 9 0 0).trace.count .checkAPI
      = maxRetries + 1 ∧
    teardownCalls (apiLoop offlineScenario.apiProbes maxRetries Globals.initial calmWorld 9 0 0).trace
      = [.uninstallTunnel] ∧
    (mainRun offlineScenario).ctl = .exit 1 ∧
    (mainTrace offlineScenario).count .checkAPI = maxRetries + 1 ∧
    teardownCalls (mainTrace offlineScenario) = [.uninstallTunnel] ∧
    Event.promptEmail ∉ mainTrace offlineScenario ∧
    Event.createScan ∉ mainTrace offlineScenario :=
  (apiLoop_budget offlineScenario Globals.initial calmWorld 9 rfl (by decide)).2.2.2
    (fun _ _ => rfl)

/-! ## Teardown steps -/

theorem teardownCalls_append (s t : List Event) :
    teardownCalls (s ++ t) = teardownCalls s ++ teardownCalls t := by
  simp [teardownCalls]

theorem executeCommands_events (run : String → CmdResult) :
    ∀ cmds e, e ∈ (executeCommands run cmds).trace → ∃ c, e = .exec c := by
  intro cmds
  induction cmds with
  | nil =>
    intro e he
    simp [executeCommands, Run.pure] at he
  | cons cmd rest ih =>
    intro e he
    cases h : run cmd <;> simp only [executeCommands, h, Run.after_trace] at he
    · rcases List.mem_append.1 he with h1 | h1
      · exact ⟨cmd, by simpa using h1⟩
      · exact ih e h1
    · rcases List.mem_append.1 he with h1 | h1
      · exact ⟨cmd, by simpa using h1⟩
      · exact ih e h1
    · exact ⟨cmd, by simpa using he⟩

theorem executeCommands_ctl (run : String → CmdResult) :
    ∀ cmds, (executeCommands run cmds).ctl = .ret () ∨ (executeCommands run cmds).ctl = .exit 1 := by
  intro cmds
  induction cmds with
  | nil => exact Or.inl rfl
  | cons cmd rest ih =>
    cases h : run cmd <;> simp only [executeCommands, h, Run.after_ctl]
    · exact ih
    · exact ih
    · simp

theorem executeCommands_all (run : String → CmdResult) :
    ∀ cmds, (∀ c ∈ cmds, run c ≠ .startError) →
      executeCommands run cmds = ⟨cmds.map Event.exec, .ret ()⟩ := by
  intro cmds
  induction cmds with
  | nil =>
    intro _
    rfl
  | cons cmd rest ih =>
    intro h
    have hc := h cmd (List.mem_cons_self _ _)
    have ih' := ih (fun c hcm => h c (List.mem_cons_of_mem _ hcm))
    cases hr : run cmd
    · simp [executeCommands, hr, ih', Run.after]
    · simp [executeCommands, hr, ih', Run.after]
    · exact absurd hr hc

theorem teardownCalls_of_execs (t : List Event) (h : ∀ e, e ∈ t → ∃ c, e = .exec c) :
    teardownCalls t = [] := by
  induction t with
  | nil => rfl
  | cons e rest ih =>
    obtain ⟨c, rfl⟩ := h _ (List.mem_cons_self _ _)
    have := ih (fun x hx => h x (List.mem_cons_of_mem _ hx))
    simp only [teardownCalls, List.filterMap_cons] at this ⊢
    exact this

theorem restore_cases (w : World) :
    ((restore w).ctl = .ret () ∨ (restore w).ctl = .exit 1) ∧
    teardownCalls (restore w).trace = [.restore] ∧
    (∀ e, e ∈ (restore w).trace → e = .call .restore ∨ e = .readSettingsFile ∨ ∃ c, e = .exec c) := by
  unfold restore
  cases hf : w.settingsFile with
  | none =>
    simp [loadSettingsFromFile, Run.bind, Run.after, teardownCalls]
  | some s =>
    have hb : (loadSettingsFromFile (some s)).bind (fun s => restoreOriginalSettings w.commandResult s)
        = Run.after [.readSettingsFile] (executeCommands w.commandResult (restoreCommandList s)) := by
      simp [loadSettingsFromFile, Run.bind, Run.after, restoreOriginalSettings]
    rw [hb]
    simp only [Run.after_ctl, Run.after_trace, teardownCalls_append]
    refine ⟨executeCommands_ctl _ _, ?_, ?_⟩
    · rw [teardownCalls_of_execs _ (executeCommands_events w.commandResult (restoreCommandList s))]
      rfl
    · intro e he
      simp only [List.mem_append, List.mem_singleton] at he
      rcases he with h | h | h
      · exact Or.inl h
      · exact Or.inr (Or.inl h)
      · exact Or.inr (Or.inr (executeCommands_events _ _ e h))

theorem deleteScan_cases (scanID : Int) (w : DeleteWorld) :
    (∃ e, (deleteScan scanID w).ctl = .ret e) ∧
    teardownCalls (deleteScan scanID w).trace = [.deleteScan] ∧
    (∀ e, e ∈ (deleteScan scanID w).trace → e = .call .deleteScan ∨ e = .getStatus scanID ∨
      e = .stopScan scanID ∨ e = .sleep 5 ∨ e = .deleteReq scanID) := by
  have hdr : ∀ resp, (∃ e, (deleteRequest scanID resp).ctl = .ret e) := by
    intro resp
    unfold deleteRequest
    cases resp with
    | transportError => exact ⟨_, rfl⟩
    | status code => by_cases h : code = 200 <;> simp [h]
  unfold deleteScan
  cases hs : getScanStatus w.statusResp with
  | error e => simp [Run.after, Run.pure, teardownCalls]
  | ok r =>
    by_cases hr : r.status = "running"
    · cases hst : w.stopResp with
      | transportError => simp [Run.after, hr, teardownCalls]
      | status code =>
        by_cases hc : code = 200
        · obtain ⟨e, he⟩ := hdr w.deleteResp
          simp [Run.after, hr, hc, he, deleteRequest_trace, teardownCalls]
        · simp [Run.after, hr, hc, teardownCalls]
    · obtain ⟨e, he⟩ := hdr w.deleteResp
      simp [Run.after, hr, he, deleteRequest_trace, teardownCalls]

theorem discard_deleteScan (scanID : Int) (w : DeleteWorld) :
    (deleteScan scanID w).discard = ⟨(deleteScan scanID w).trace, .ret ()⟩ := by
  obtain ⟨e, he⟩ := (deleteScan_cases scanID w).1
  simp [Run.discard, Run.bind, he, Run.pure]

theorem interruptHandler_shape (goos : OS) (g : Globals) (w : World) :
    (interruptHandler goos g w).ctl = .exit 1 ∧
    teardownCalls (interruptHandler goos g w).trace
      = (if goos = .windows ∧ g.credentialedScan = true then [Fn.restore] else []) ++
        (if goos = .windows ∧ g.credentialedScan = true ∧ (restore w).ctl = .exit 1 then []
         else (if g.scanID > 0 then [Fn.deleteScan] else []) ++ [Fn.uninstallTunnel]) := by
  have hu := uninstallTunnel_then_exit g w
  have hd := deleteScan_cases g.scanID w.deleteWorld
  have hdd := discard_deleteScan g.scanID w.deleteWorld
  have hr := restore_cases w
  have htail : ∀ (r : Run Event Unit), r.ctl = .ret () →
      (r.bind (fun _ =>
        (if g.scanID > 0 then (deleteScan g.scanID w.deleteWorld).discard else Run.pure ()).bind (fun _ =>
          (uninstallTunnel g w).bind (fun _ => (Run.osExit 1 : Run Event Unit))))).ctl = .exit 1 ∧
      teardownCalls (r.bind (fun _ =>
        (if g.scanID > 0 then (deleteScan g.scanID w.deleteWorld).discard else Run.pure ()).bind (fun _ =>
          (uninstallTunnel g w).bind (fun _ => (Run.osExit 1 : Run Event Unit))))).trace
        = teardownCalls r.trace ++ ((if g.scanID > 0 then [Fn.deleteScan] else []) ++ [Fn.uninstallTunnel]) := by
    intro r hret
    rw [Run.bind_of_ret r _ () hret]
    by_cases hid : g.scanID > 0
    · simp only [hid, if_true, hdd]
      rw [Run.bind_of_ret _ _ () rfl]
      simp only [teardownCalls_append, hu.1, hu.2.1, hd.2.1]
      exact ⟨trivial, trivial⟩
    · simp only [hid, if_false]
      rw [Run.bind_of_ret _ _ () rfl]
      simp only [teardownCalls_append, hu.1, hu.2.1, Run.pure]
      exact ⟨trivial, rfl⟩
  unfold interruptHandler
  by_cases hwc : goos = .windows ∧ g.credentialedScan = true
  · simp only [hwc, and_self, if_true, true_and]
    rcases hr.1 with hret | hexit
    · have hne : ¬ ((restore w).ctl = .exit 1) := by rw [hret]; simp
      have := htail (restore w) hret
      simp only [hne, if_false]
      rw [this.1, this.2, hr.2.1]
      exact ⟨rfl, rfl⟩
    · rw [Run.bind_of_exit _ _ 1 hexit]
      simp only [hexit, if_true, hr.2.1]
      exact ⟨trivial, rfl⟩
  · have hne : ¬ (goos = .windows ∧ g.credentialedScan = true ∧ (restore w).ctl = .exit 1) :=
      fun h => hwc ⟨h.1, h.2.1⟩
    have := htail (Run.pure ()) rfl
    simp only [hwc, hne, if_false]
    rw [this.1, this.2]
    exact ⟨rfl, rfl⟩

/-! ## The interrupt handler -/

theorem mainRun_install_failed (sc : Scenario) (h : sc.installResult ≠ .ok) :
    (mainRun sc).trace.length = 3 ∧ (mainRun sc).ctl = .exit 1 := by
  have hi : installTunnel sc.installResult
      = ⟨[.call .installTunnel, .installNetbird, .installCommands], .exit 1⟩ := by
    cases hr : sc.installResult
    · exact absurd hr h
    · rfl
    · rfl
  have hs : setupPhase sc = ⟨(Run.tag ⟨false, 0, sc.binaryPath, sc.binaryDir⟩
      (installTunnel sc.installResult)).trace, .exit 1⟩ := by
    simp only [setupPhase]
    rw [Run.bind_of_exit _ _ 1 (by rw [Run.tag_ctl, hi])]
  simp only [mainRun]
  rw [Run.bind_of_exit _ _ 1 (by rw [hs]), hs, hi]
  exact ⟨rfl, rfl⟩

theorem mainTrace_install_ok (sc : Scenario) (h : sc.installResult = .ok) :
    ∃ rest, mainTrace sc = .call .installTunnel :: .installNetbird :: .installCommands :: rest := by
  obtain ⟨rest1, h1⟩ : ∃ rest, (setupPhase sc).trace.map Prod.fst
      = .call .installTunnel :: .installNetbird :: .installCommands :: rest := by
    simp only [setupPhase, h, installTunnel]
    rw [Run.bind_of_ret _ _ () rfl]
    simp only [List.map_append, Run.tag_events]
    exact ⟨_, rfl⟩
  obtain ⟨rest2, h2⟩ := Run.bind_trace (setupPhase sc)
    (fun g1 => (scanPhase sc g1).bind (fun g2 => finalPhase sc g2))
  refine ⟨rest1 ++ rest2.map Prod.fst, ?_⟩
  simp only [mainTrace, mainRun]
  rw [h2, List.map_append, h1]
  rfl

/-! ## Failures during teardown -/

/-- C7, counterexample: with the settings file unreadable the handler of a
credentialed Windows run ends in `restore` and neither deletes scan 7 nor
uninstalls the tunnel; with the uninstall command failing the process exits before
the temporary binary and its directory are removed. -/
theorem teardown_stops_at_fatal_step :
    interruptHandler .windows ⟨true, 7, "/tmp/netbird1/netbird", "/tmp/netbird1"⟩ noSettingsWorld
      = ⟨[.call .restore, .readSettingsFile], .exit 1⟩ ∧
    uninstallTunnel ⟨false, 7, "/tmp/netbird1/netbird", "/tmp/netbird1"⟩ stuckTunnelWorld
      = ⟨[.call .uninstallTunnel, .uninstallCommands], .exit 1⟩ ∧
    interruptHandler .linux ⟨false, 7, "/tmp/netbird1/netbird", "/tmp/netbird1"⟩ stuckTunnelWorld
      = ⟨[.call .deleteScan, .getStatus 7, .deleteReq 7, .call .uninstallTunnel, .uninstallCommands],
         .exit 1⟩ := by
  refine ⟨by rfl, by rfl, by rfl⟩

/-- C7, amended: teardown is best-effort for some failures only. Whatever
`deleteScan` returns, `uninstallTunnel` is still called; a settings command that
exits with a non-zero status does not stop the remaining commands; a failure to
remove the temporary binary does not prevent the removal of its directory. But an
unreadable settings file ends the process inside `restore` (`log.Fatalf`), before
scan deletion and tunnel uninstall, and a failing uninstall command ends the
process (`os.Exit(1)`) before the temporary binary and its directory are removed. -/
theorem teardown_failure_handling (goos : OS) (g : Globals) (w : World) :
    (¬ (goos = .windows ∧ g.credentialedScan = true ∧ (restore w).ctl = .exit 1) →
      Event.call .uninstallTunnel ∈ (interruptHandler goos g w).trace ∧
      Event.uninstallCommands ∈ (interruptHandler goos g w).trace) ∧
    (∀ cmds, (∀ c ∈ cmds, w.commandResult c ≠ .startError) →
      executeCommands w.commandResult cmds = ⟨cmds.map Event.exec, .ret ()⟩) ∧
    (w.uninstallResult = .ok →
      uninstallTunnel g w = ⟨[.call .uninstallTunnel, .uninstallCommands,
        .removeTempFile g.tempBinaryPath, .removeTempDir g.tempDir], .ret ()⟩) ∧
    (w.uninstallResult ≠ .ok →
      uninstallTunnel g w = ⟨[.call .uninstallTunnel, .uninstallCommands], .exit 1⟩) ∧
    (w.settingsFile = none → restore w = ⟨[.call .restore, .readSettingsFile], .exit 1⟩) ∧
    (goos = .windows → g.credentialedScan = true → w.settingsFile = none →
      interruptHandler goos g w = ⟨[.call .restore, .readSettingsFile], .exit 1⟩) := by
  have hrestore : w.settingsFile = none →
      restore w = ⟨[.call .restore, .readSettingsFile], .exit 1⟩ := by
    intro hf
    simp [restore, hf, loadSettingsFromFile, Run.bind, Run.after]
  refine ⟨?_, executeCommands_all w.commandResult, ?_, ?_, hrestore, ?_⟩
  · intro hnf
    have hpre : ∀ (r : Run Event Unit), r.ctl = .ret () →
        Event.call .uninstallTunnel ∈ (r.bind (fun _ =>
          (if g.scanID > 0 then (deleteScan g.scanID w.deleteWorld).discard else Run.pure ()).bind
            (fun _ => (uninstallTunnel g w).bind (fun _ => (Run.osExit 1 : Run Event Unit))))).trace ∧
        Event.uninstallCommands ∈ (r.bind (fun _ =>
          (if g.scanID > 0 then (deleteScan g.scanID w.deleteWorld).discard else Run.pure ()).bind
            (fun _ => (uninstallTunnel g w).bind (fun _ => (Run.osExit 1 : Run Event Unit))))).trace := by
      intro r hret
      have hmid : (if g.scanID > 0 then (deleteScan g.scanID w.deleteWorld).discard
          else Run.pure ()).ctl = .ret () := by
        by_cases hid : g.scanID > 0
        · simp only [hid, if_true, discard_deleteScan]
        · simp only [hid, if_false, Run.pure]
      rw [Run.bind_of_ret r _ () hret, Run.bind_of_ret _ _ () hmid]
      rcases uninstallTunnel_cases g w with ⟨_, hu⟩ | ⟨_, hu⟩ <;>
        simp [hu, Run.bind, Run.osExit]
    unfold interruptHandler
    by_cases hwc : goos = .windows ∧ g.credentialedScan = true
    · simp only [hwc, and_self, if_true]
      rcases (restore_cases w).1 with hret | hexit
      · exact hpre _ hret
      · exact absurd ⟨hwc.1, hwc.2, hexit⟩ hnf
    · simp only [hwc, if_false]
      exact hpre _ rfl
  · intro hok
    rcases uninstallTunnel_cases g w with ⟨_, hu⟩ | ⟨hne, _⟩
    · exact hu
    · exact absurd hok hne
  · intro hne
    rcases uninstallTunnel_cases g w with ⟨hok, _⟩ | ⟨_, hu⟩
    · exact absurd hok hne
    · exact hu
  · intro hg hc hf
    unfold interruptHandler
    simp only [hg, hc, and_self, if_true]
    rw [Run.bind_of_exit _ _ 1 (by rw [hrestore hf]), hrestore hf]

/-- Witness of `teardown_failure_handling`: with the remote service refusing
every request of `deleteScan` and the removal of the binary failing, the tunnel
is still uninstalled. -/
theorem teardown_failure_handling_witness :
    Event.call .uninstallTunnel
      ∈ (interruptHandler .linux ⟨false, 7, "/tmp/netbird1/netbird", "/tmp/netbird1"⟩
          deafServiceWorld).trace ∧
    Event.uninstallCommands
      ∈ (interruptHandler .linux ⟨false, 7, "/tmp/netbird1/netbird", "/tmp/netbird1"⟩
          deafServiceWorld).trace :=
  (teardown_failure_handling .linux ⟨false, 7, "/tmp/netbird1/netbird", "/tmp/netbird1"⟩
    deafServiceWorld).1 (by decide)

/-! ## The phases of `main` -/

theorem Run.bind_all {ε α β : Type} (P : ε → Prop) (r : Run ε α) (f : α → Run ε β)
    (hr : ∀ e ∈ r.trace, P e) (hf : ∀ a, ∀ e ∈ (f a).trace, P e) :
    ∀ e ∈ (r.bind f).trace, P e := by
  unfold Run.bind
  cases r.ctl with
  | ret a =>
    intro e he
    rcases List.mem_append.1 he with h | h
    · exact hr e h
    · exact hf a e h
  | exit c => exact hr
  | starved => exact hr

theorem Run.tag_all {α : Type} (Q : Event → Prop) (g : Globals) (r : Run Event α)
    (hr : ∀ e ∈ r.trace, Q e) : ∀ eg ∈ (Run.tag g r).trace, Q eg.1 := by
  intro eg heg
  simp only [Run.tag, List.mem_map] at heg
  obtain ⟨e, he, rfl⟩ := heg
  exact hr e he

theorem Run.bind_ret_inv {ε α β : Type} (r : Run ε α) (f : α → Run ε β) (b : β)
    (h : (r.bind f).ctl = .ret b) :
    ∃ a, r.ctl = .ret a ∧ (f a).ctl = .ret b ∧ (r.bind f).trace = r.trace ++ (f a).trace := by
  unfold Run.bind at h ⊢
  cases hr : r.ctl with
  | ret a =>
    simp only [hr] at h
    exact ⟨a, rfl, h, rfl⟩
  | exit c => simp [hr] at h
  | starved => simp [hr] at h

theorem uninstallTunnel_events (g : Globals) (w : World) :
    ∀ e ∈ (uninstallTunnel g w).trace, e.preScan = true := by
  rcases uninstallTunnel_cases g w with ⟨_, h⟩ | ⟨_, h⟩ <;>
    simp [h, Event.preScan]

theorem apiLoop_events (probes : Nat → Bool) (m : Nat) (g : Globals) (w : World) :
    ∀ fuel retries i, ∀ e ∈ (apiLoop probes m g w fuel retries i).trace, e.preScan = true := by
  intro fuel
  induction fuel with
  | zero =>
    intro retries i e he
    simp [apiLoop] at he
  | succ fuel ih =>
    intro retries i e he
    simp only [apiLoop] at he
    by_cases hp : probes i = true
    · simp only [hp, if_true, List.mem_singleton] at he
      rw [he]
      rfl
    · simp only [hp, Bool.false_eq_true, if_false] at he
      by_cases hlt : retries < m
      · simp only [hlt, if_true, Run.after_trace] at he
        rcases List.mem_append.1 he with h | h
        · simp only [List.mem_cons, List.mem_singleton, List.not_mem_nil, or_false] at h
          rcases h with rfl | rfl <;> rfl
        · exact ih _ _ e h
      · simp only [hlt, if_false, Run.after_trace] at he
        rcases List.mem_append.1 he with h | h
        · simp only [List.mem_singleton] at h
          rw [h]
          rfl
        · exact Run.bind_all (fun e => e.preScan = true) _ _ (uninstallTunnel_events g w)
            (fun _ e he => by simp [Run.osExit] at he) e h

theorem Run.tagged_bind_all {α β : Type} (Q : Event → Prop) (r : Run (Event × Globals) α)
    (f : α → Run (Event × Globals) β) (hr : ∀ eg ∈ r.trace, Q eg.1)
    (hf : ∀ a, ∀ eg ∈ (f a).trace, Q eg.1) : ∀ eg ∈ (r.bind f).trace, Q eg.1 :=
  Run.bind_all (fun eg => Q eg.1) r f hr hf

theorem setupPhase_events (sc : Scenario) :
    ∀ eg ∈ (setupPhase sc).trace, eg.1.preScan = true := by
  simp only [setupPhase]
  refine Run.tagged_bind_all (fun e => e.preScan = true) _ _
      (Run.tag_all (fun e => e.preScan = true) _ _ ?_) (fun _ =>
    Run.tagged_bind_all (fun e => e.preScan = true) _ _
      (Run.tag_all (fun e => e.preScan = true) _ _ ?_) (fun _ =>
    Run.tagged_bind_all (fun e => e.preScan = true) _ _
      (Run.tag_all (fun e => e.preScan = true) _ _ ?_) (fun _ =>
    Run.tagged_bind_all (fun e => e.preScan = true) _ _
      (Run.tag_all (fun e => e.preScan = true) _ _ ?_) (fun _ =>
    Run.tagged_bind_all (fun e => e.preScan = true) _ _
      (Run.tag_all (fun e => e.preScan = true) _ _ ?_) (fun _ =>
    Run.tagged_bind_all (fun e => e.preScan = true) _ _
      (Run.tag_all (fun e => e.preScan = true) _ _ ?_) (fun _ => ?_))))))
  · cases sc.installResult <;> simp [installTunnel, Event.preScan]
  · intro e he
    rw [Run.after_trace] at he
    rcases List.mem_append.1 he with h | h
    · simp only [List.mem_singleton] at h
      rw [h]
      rfl
    · exact apiLoop_events _ _ _ _ _ _ _ e h
  · simp [Run.emit, Event.preScan]
  · simp [Run.emit, Event.preScan]
  · cases sc.credentialed <;> simp [Run.emit, Run.pure, Event.preScan]
  · by_cases h : sc.goos = .windows ∧ sc.credentialed = true
    · simp only [h, and_self, if_true]
      cases sc.captured <;> cases sc.saveOk <;> simp [storeAndSave, Event.preScan]
    · simp [h, Run.pure]
  · simp [Run.pure]

theorem apiLoop_ret_quiet (probes : Nat → Bool) (g : Globals) (w : World)
    (h : (apiLoop probes maxRetries g w (maxRetries + 1) 0 0).ctl = .ret ()) :
    teardownCalls (apiLoop probes maxRetries g w (maxRetries + 1) 0 0).trace = [] := by
  rcases first_online_or_none probes 5 with ⟨k, hk, hon, hoff⟩ | hall
  · have := apiLoop_first_online probes g w 0 k hk hon hoff
    simp only [Nat.zero_add] at this
    have h5 : maxRetries + 1 = 5 := rfl
    rw [h5, this]
    exact teardownCalls_rounds k
  · have := apiLoop_exhausted probes g w 0 hall
    simp only [Nat.zero_add] at this
    have h5 : maxRetries + 1 = 5 := rfl
    rw [h5, this, Run.after_ctl, (uninstallTunnel_then_exit g w).1] at h
    simp at h

theorem setupPhase_ret (sc : Scenario) (g1 : Globals) (h : (setupPhase sc).ctl = .ret g1) :
    g1 = ⟨sc.credentialed, 0, sc.binaryPath, sc.binaryDir⟩ ∧
    teardownCalls ((setupPhase sc).trace.map Prod.fst) = [] := by
  simp only [setupPhase] at h ⊢
  obtain ⟨_, h1, h, t1⟩ := Run.bind_ret_inv _ _ _ h
  obtain ⟨_, h2, h, t2⟩ := Run.bind_ret_inv _ _ _ h
  obtain ⟨_, h3, h, t3⟩ := Run.bind_ret_inv _ _ _ h
  obtain ⟨_, h4, h, t4⟩ := Run.bind_ret_inv _ _ _ h
  obtain ⟨_, h5, h, t5⟩ := Run.bind_ret_inv _ _ _ h
  obtain ⟨_, h6, h, t6⟩ := Run.bind_ret_inv _ _ _ h
  rw [t1, t2, t3, t4, t5, t6]
  simp only [Run.pure, Ctl.ret.injEq] at h
  refine ⟨h.symm, ?_⟩
  simp only [List.map_append, Run.tag_events, teardownCalls_append, Run.after_trace]
  rw [Run.tag_ctl, Run.after_ctl] at h2
  rw [apiLoop_ret_quiet _ _ _ h2]
  have e1 : teardownCalls (installTunnel sc.installResult).trace = [] := by
    cases sc.installResult <;> rfl
  have e5 : teardownCalls (if sc.credentialed = true then Run.emit [Event.promptCredentials]
      else Run.pure ()).trace = [] := by
    cases sc.credentialed <;> rfl
  have e6 : teardownCalls (if sc.goos = .windows ∧ sc.credentialed = true
      then storeAndSave sc.captured sc.saveOk else Run.pure ()).trace = [] := by
    by_cases hw : sc.goos = .windows ∧ sc.credentialed = true
    · simp only [hw, and_self, if_true]
      cases sc.captured <;> cases sc.saveOk <;> rfl
    · simp only [hw, if_false]
      rfl
  rw [e1, e5, e6]
  rfl

theorem startScan_cases (resp : CreateResponse) :
    (startScan resp).trace = [.call .startScan, .createScan] ∧
    ((∃ scanID, (startScan resp).ctl = .ret scanID) ∨ (startScan resp).ctl = .exit 1) := by
  unfold startScan
  cases resp with
  | transportError => exact ⟨rfl, Or.inr rfl⟩
  | received code body =>
    by_cases hc : code = 200
    · cases body with
      | none => simp [hc, Run.after, Run.osExit]
      | some scanID => simp [hc, Run.after, Run.pure]
    · simp [hc, Run.after, Run.osExit]

theorem statusLoopFrom_events (scanID : Int) (bound : Nat) :
    ∀ outcomes count, ∀ e ∈ (statusLoopFrom scanID bound count outcomes).trace,
      e = .getStatus scanID ∨ e = .sleep 20 := by
  intro outcomes
  induction outcomes with
  | nil =>
    intro count e he
    simp [statusLoopFrom] at he
  | cons o rest ih =>
    intro count e he
    cases hit : statusLoopIter bound count o with
    | again c =>
      rw [statusLoopFrom_again scanID bound count c o rest hit, Run.after_trace] at he
      rcases List.mem_append.1 he with h | h
      · simpa using h
      · exact ih c e h
    | done c =>
      rw [statusLoopFrom_done scanID bound count c o rest hit] at he
      exact Or.inl (by simpa using he)
    | fatal c =>
      rw [statusLoopFrom_fatal scanID bound count c o rest hit] at he
      exact Or.inl (by simpa using he)

theorem statusLoop_events (scanID : Int) (outcomes : List StatusOutcome) :
    ∀ e ∈ (statusLoop scanID outcomes).trace,
      e = .call .statusLoop ∨ e = .getStatus scanID ∨ e = .sleep 20 := by
  intro e he
  unfold statusLoop at he
  rw [Run.after_trace] at he
  rcases List.mem_append.1 he with h | h
  · simp only [List.mem_cons, List.mem_singleton, List.not_mem_nil, or_false] at h
    rcases h with h | h
    · exact Or.inl h
    · exact Or.inr (Or.inr h)
  · exact Or.inr (statusLoopFrom_events scanID _ _ _ e h)

theorem teardownCalls_of_quiet (t : List Event)
    (h : ∀ e ∈ t, e ≠ .call .restore ∧ e ≠ .call .deleteScan ∧ e ≠ .call .uninstallTunnel) :
    teardownCalls t = [] := by
  induction t with
  | nil => rfl
  | cons e rest ih =>
    have he := h e (List.mem_cons_self _ _)
    have ih' := ih (fun x hx => h x (List.mem_cons_of_mem _ hx))
    simp only [teardownCalls, List.filterMap_cons] at ih' ⊢
    rw [ih']
    cases e with
    | call f => cases f <;> simp_all
    | _ => rfl

theorem scanAndPoll_exit (sc : Scenario) (g : Globals)
    (h : (startScan sc.createResp).ctl = .exit 1) :
    scanAndPoll sc g = ⟨[(.call .startScan, g), (.createScan, g)], .exit 1⟩ := by
  simp only [scanAndPoll, h]
  rfl

theorem scanAndPoll_ret (sc : Scenario) (g : Globals) (scanID : Int)
    (h : (startScan sc.createResp).ctl = .ret scanID) :
    (scanAndPoll sc g).trace.map Prod.fst
      = [.call .startScan, .createScan]
        ++ (statusLoop scanID (sc.pollResponses.map getScanStatus)).trace ∧
    ((statusLoop scanID (sc.pollResponses.map getScanStatus)).ctl = .ret () →
      (scanAndPoll sc g).ctl = .ret { g with scanID := scanID }) ∧
    (∀ c, (statusLoop scanID (sc.pollResponses.map getScanStatus)).ctl = .exit c →
      (scanAndPoll sc g).ctl = .exit c) ∧
    ((statusLoop scanID (sc.pollResponses.map getScanStatus)).ctl = .starved →
      (scanAndPoll sc g).ctl = .starved) := by
  simp only [scanAndPoll, h]
  rw [Run.bind_of_ret _ _ () rfl, Run.bind_of_ret _ _ () rfl]
  refine ⟨?_, ?_, ?_, ?_⟩
  · cases hs : (statusLoop scanID (sc.pollResponses.map getScanStatus)).ctl with
    | ret u =>
      rw [Run.bind_of_ret _ _ () (by rw [Run.tag_ctl, hs])]
      simp [Run.tag, Run.emit, Run.pure, Function.comp_def]
    | exit c =>
      rw [Run.bind_of_exit _ _ c (by rw [Run.tag_ctl, hs])]
      simp [Run.tag, Run.emit, Function.comp_def]
    | starved =>
      rw [Run.bind_of_starved _ _ (by rw [Run.tag_ctl, hs])]
      simp [Run.tag, Run.emit, Function.comp_def]
  · intro hs
    rw [Run.bind_of_ret _ _ () (by rw [Run.tag_ctl, hs])]
    rfl
  · intro c hs
    rw [Run.bind_of_exit _ _ c (by rw [Run.tag_ctl, hs])]
  · intro hs
    rw [Run.bind_of_starved _ _ (by rw [Run.tag_ctl, hs])]

theorem scanAndPoll_events (sc : Scenario) (g : Globals) :
    ∀ e ∈ (scanAndPoll sc g).trace.map Prod.fst,
      e = .call .startScan ∨ e = .createScan ∨ e = .call .statusLoop ∨
      (∃ scanID, e = .getStatus scanID) ∨ e = .sleep 20 := by
  intro e he
  rcases (startScan_cases sc.createResp).2 with ⟨scanID, hs⟩ | hs
  · rw [(scanAndPoll_ret sc g scanID hs).1] at he
    rcases List.mem_append.1 he with h | h
    · simp only [List.mem_cons, List.mem_singleton, List.not_mem_nil, or_false] at h
      rcases h with h | h
      · exact Or.inl h
      · exact Or.inr (Or.inl h)
    · rcases statusLoop_events _ _ e h with h | h | h
      · exact Or.inr (Or.inr (Or.inl h))
      · exact Or.inr (Or.inr (Or.inr (Or.inl ⟨scanID, h⟩)))
      · exact Or.inr (Or.inr (Or.inr (Or.inr h)))
  · rw [scanAndPoll_exit sc g hs] at he
    simp only [List.map_cons, List.map_nil, List.mem_cons, List.mem_singleton, List.not_mem_nil,
      or_false] at he
    rcases he with h | h
    · exact Or.inl h
    · exact Or.inr (Or.inl h)

theorem scanAndPoll_quiet (sc : Scenario) (g : Globals) :
    teardownCalls ((scanAndPoll sc g).trace.map Prod.fst) = [] ∧
    ∀ e ∈ (scanAndPoll sc g).trace.map Prod.fst, e.preExport = true := by
  constructor
  · refine teardownCalls_of_quiet _ (fun e he => ?_)
    rcases scanAndPoll_events sc g e he with h | h | h | ⟨_, h⟩ | h <;> simp [h]
  · intro e he
    rcases scanAndPoll_events sc g e he with h | h | h | ⟨_, h⟩ | h <;> simp [h, Event.preExport, Event.preScan]

theorem scanAndPoll_ret_inv (sc : Scenario) (g g' : Globals) (h : (scanAndPoll sc g).ctl = .ret g') :
    ∃ scanID, (startScan sc.createResp).ctl = .ret scanID ∧ g' = { g with scanID := scanID } := by
  rcases (startScan_cases sc.createResp).2 with ⟨scanID, hs⟩ | hs
  · refine ⟨scanID, hs, ?_⟩
    have hp := scanAndPoll_ret sc g scanID hs
    cases hl : (statusLoop scanID (sc.pollResponses.map getScanStatus)).ctl with
    | ret u =>
      rw [hp.2.1 hl] at h
      simpa using h.symm
    | exit c =>
      rw [hp.2.2.1 c hl] at h
      simp at h
    | starved =>
      rw [hp.2.2.2 hl] at h
      simp at h
  · rw [scanAndPoll_exit sc g hs] at h
    simp at h

theorem setupWindowsNessus_cases (run : String → CmdResult) :
    ((setupWindowsNessus run).ctl = .ret () ∨ (setupWindowsNessus run).ctl = .exit 1) ∧
    teardownCalls (setupWindowsNessus run).trace = [] ∧
    ∀ e ∈ (setupWindowsNessus run).trace, e.preScan = true := by
  unfold setupWindowsNessus
  have hev := executeCommands_events run setupCommandList
  refine ⟨executeCommands_ctl run _, ?_, ?_⟩
  · rw [Run.after_trace, teardownCalls_append, teardownCalls_of_execs _ hev]
    rfl
  · intro e he
    rw [Run.after_trace] at he
    rcases List.mem_append.1 he with h | h
    · simp only [List.mem_singleton] at h
      rw [h]
      rfl
    · obtain ⟨c, rfl⟩ := hev e h
      rfl

theorem scanPhase_windows (sc : Scenario) (g : Globals) (hc : sc.credentialed = true)
    (hw : sc.goos = .windows) :
    scanPhase sc g = (Run.tag g (setupWindowsNessus sc.world.commandResult)).bind (fun _ =>
      (scanAndPoll sc g).bind (fun g' =>
        (Run.tag g' (restore sc.world)).bind (fun _ => Run.pure g'))) := by
  simp [scanPhase, hc, hw]

theorem scanPhase_ssh (sc : Scenario) (g : Globals) (hc : sc.credentialed = true)
    (hw : sc.goos ≠ .windows) :
    scanPhase sc g = (Run.tag g (Run.emit [.sshProbe])).bind (fun _ =>
      if sc.sshRunning then scanAndPoll sc g else Run.osExit 1) := by
  simp [scanPhase, hc, hw]

theorem scanPhase_plain (sc : Scenario) (g : Globals) (hc : sc.credentialed = false) :
    scanPhase sc g = scanAndPoll sc g := by
  simp [scanPhase, hc]

theorem restore_preExport (w : World) : ∀ e ∈ (restore w).trace, e.preExport = true := by
  intro e he
  rcases (restore_cases w).2.2 e he with h | h | ⟨c, h⟩ <;> rw [h] <;> rfl

theorem preExport_of_preScan (e : Event) (h : e.preScan = true) : e.preExport = true := by
  cases e with
  | call f => cases f <;> simp_all [Event.preExport, Event.preScan]
  | _ => simp_all [Event.preExport, Event.preScan]

theorem scanPhase_events (sc : Scenario) (g : Globals) :
    ∀ eg ∈ (scanPhase sc g).trace, eg.1.preExport = true := by
  have hsp : ∀ eg ∈ (scanAndPoll sc g).trace, eg.1.preExport = true := by
    intro eg heg
    exact (scanAndPoll_quiet sc g).2 eg.1 (List.mem_map_of_mem _ heg)
  cases hc : sc.credentialed with
  | false =>
    rw [scanPhase_plain sc g hc]
    exact hsp
  | true =>
    by_cases hw : sc.goos = .windows
    · rw [scanPhase_windows sc g hc hw]
      refine Run.tagged_bind_all (fun e => e.preExport = true) _ _
        (Run.tag_all (fun e => e.preExport = true) _ _ (fun e he =>
          preExport_of_preScan e ((setupWindowsNessus_cases _).2.2 e he))) (fun _ =>
        Run.tagged_bind_all (fun e => e.preExport = true) _ _ hsp (fun g' =>
          Run.tagged_bind_all (fun e => e.preExport = true) _ _
            (Run.tag_all (fun e => e.preExport = true) _ _ (restore_preExport sc.world))
            (fun _ => by simp [Run.pure])))
    · rw [scanPhase_ssh sc g hc hw]
      refine Run.tagged_bind_all (fun e => e.preExport = true) _ _
        (Run.tag_all (fun e => e.preExport = true) _ _ (by simp [Run.emit, Event.preExport, Event.preScan]))
        (fun _ => ?_)
      cases sc.sshRunning
      · simp [Run.osExit]
      · exact hsp

theorem scanPhase_fatal (sc : Scenario) (g : Globals) (h : (scanAndPoll sc g).ctl = .exit 1) :
    (scanPhase sc g).ctl = .exit 1 ∧ teardownCalls ((scanPhase sc g).trace.map Prod.fst) = [] := by
  have hq := (scanAndPoll_quiet sc g).1
  cases hc : sc.credentialed with
  | false =>
    rw [scanPhase_plain sc g hc]
    exact ⟨h, hq⟩
  | true =>
    by_cases hw : sc.goos = .windows
    · rw [scanPhase_windows sc g hc hw]
      have hs := setupWindowsNessus_cases sc.world.commandResult
      rcases hs.1 with hret | hexit
      · rw [Run.bind_of_ret _ _ () (by rw [Run.tag_ctl, hret]), Run.bind_of_exit _ _ 1 h]
        simp only [List.map_append, Run.tag_events, teardownCalls_append, hs.2.1, hq]
        exact ⟨trivial, rfl⟩
      · rw [Run.bind_of_exit _ _ 1 (by rw [Run.tag_ctl, hexit])]
        simp only [Run.tag_events, hs.2.1]
        exact ⟨trivial, trivial⟩
    · rw [scanPhase_ssh sc g hc hw, Run.bind_of_ret _ _ () rfl]
      cases sc.sshRunning
      · exact ⟨rfl, rfl⟩
      · simp only [if_true, List.map_append, Run.tag_events, teardownCalls_append, hq, h]
        exact ⟨trivial, rfl⟩

theorem scanPhase_ret_inv (sc : Scenario) (g g' : Globals) (h : (scanPhase sc g).ctl = .ret g') :
    ∃ scanID, (startScan sc.createResp).ctl = .ret scanID ∧ g' = { g with scanID := scanID } ∧
      teardownCalls ((scanPhase sc g).trace.map Prod.fst)
        = (if sc.goos = .windows ∧ sc.credentialed = true then [Fn.restore] else []) := by
  have hq := (scanAndPoll_quiet sc g).1
  cases hc : sc.credentialed with
  | false =>
    rw [scanPhase_plain sc g hc] at h ⊢
    obtain ⟨scanID, hs, hg⟩ := scanAndPoll_ret_inv sc g g' h
    exact ⟨scanID, hs, hg, by simp [hq]⟩
  | true =>
    by_cases hw : sc.goos = .windows
    · rw [scanPhase_windows sc g hc hw] at h ⊢
      obtain ⟨_, h1, h, t1⟩ := Run.bind_ret_inv _ _ _ h
      obtain ⟨g2, h2, h, t2⟩ := Run.bind_ret_inv _ _ _ h
      obtain ⟨_, h3, h, t3⟩ := Run.bind_ret_inv _ _ _ h
      obtain ⟨scanID, hs, hg⟩ := scanAndPoll_ret_inv sc g g2 h2
      simp only [Run.pure, Ctl.ret.injEq] at h
      refine ⟨scanID, hs, by rw [← h, hg], ?_⟩
      rw [t1, t2, t3]
      simp only [List.map_append, Run.tag_events, teardownCalls_append, hq,
        (setupWindowsNessus_cases _).2.1, (restore_cases _).2.1, hw]
      rfl
    · rw [scanPhase_ssh sc g hc hw] at h ⊢
      obtain ⟨_, h1, h, t1⟩ := Run.bind_ret_inv _ _ _ h
      rw [t1]
      cases hssh : sc.sshRunning with
      | false => simp [hssh, Run.osExit] at h
      | true =>
        simp only [hssh, if_true] at h ⊢
        obtain ⟨scanID, hs, hg⟩ := scanAndPoll_ret_inv sc g g' h
        refine ⟨scanID, hs, hg, ?_⟩
        simp only [List.map_append, Run.tag_events, teardownCalls_append, hq, hw, false_and, if_false]
        rfl

theorem exportReport_cases (scanID : Int) (resp : ExportResponse) :
    (exportReport scanID resp).trace = [.call .exportReport, .exportReq scanID] ∧
    ((exportReport scanID resp).ctl = .ret () ∨ (exportReport scanID resp).ctl = .exit 1) ∧
    ∀ other, (exportReport other resp).ctl = (exportReport scanID resp).ctl := by
  unfold exportReport
  cases resp with
  | transportError => exact ⟨rfl, Or.inr rfl, fun _ => rfl⟩
  | received code bodyOk =>
    by_cases hc : code = 200 <;> cases bodyOk <;> simp [hc, Run.after, Run.osExit, Run.pure]

theorem finalPhase_export_fails (sc : Scenario) (g : Globals)
    (h : (exportReport g.scanID sc.exportResp).ctl = .exit 1) :
    (finalPhase sc g).ctl = .exit 1 ∧
    (finalPhase sc g).trace.map Prod.fst = [.sleep 20, .call .exportReport, .exportReq g.scanID] := by
  simp only [finalPhase, Run.tag_events, Run.tag_ctl]
  rw [Run.bind_of_ret _ _ () rfl, Run.bind_of_exit _ _ 1 h, (exportReport_cases _ _).1]
  exact ⟨rfl, rfl⟩

theorem finalPhase_ret (sc : Scenario) (g : Globals) (h : (finalPhase sc g).ctl = .ret ()) :
    (finalPhase sc g).trace.map Prod.fst
      = [.sleep 20, .call .exportReport, .exportReq g.scanID]
        ++ (deleteScan g.scanID sc.world.deleteWorld).trace
        ++ [.call .uninstallTunnel, .uninstallCommands, .removeTempFile g.tempBinaryPath,
            .removeTempDir g.tempDir] ∧
    (finalPhase sc g).trace.getLast? = some (.removeTempDir g.tempDir, g) := by
  simp only [finalPhase, Run.tag_ctl] at h
  obtain ⟨_, h1, h, t1⟩ := Run.bind_ret_inv _ _ _ h
  obtain ⟨_, h2, h, t2⟩ := Run.bind_ret_inv _ _ _ h
  obtain ⟨_, h3, h, t3⟩ := Run.bind_ret_inv _ _ _ h
  have hu : uninstallTunnel g sc.world = ⟨[.call .uninstallTunnel, .uninstallCommands,
      .removeTempFile g.tempBinaryPath, .removeTempDir g.tempDir], .ret ()⟩ := by
    rcases uninstallTunnel_cases g sc.world with ⟨_, hu⟩ | ⟨_, hu⟩
    · exact hu
    · rw [hu] at h
      simp at h
  have htrace : ((Run.emit [Event.sleep 20]).bind (fun _ =>
      (exportReport g.scanID sc.exportResp).bind (fun _ =>
        (deleteScan g.scanID sc.world.deleteWorld).discard.bind (fun _ =>
          uninstallTunnel g sc.world)))).trace
      = [.sleep 20, .call .exportReport, .exportReq g.scanID]
        ++ (deleteScan g.scanID sc.world.deleteWorld).trace
        ++ [.call .uninstallTunnel, .uninstallCommands, .removeTempFile g.tempBinaryPath,
            .removeTempDir g.tempDir] := by
    rw [t1, t2, t3, hu, discard_deleteScan, (exportReport_cases _ _).1]
    simp [Run.emit]
  constructor
  · simp only [finalPhase, Run.tag_events]
    exact htrace
  · simp only [finalPhase, Run.tag]
    rw [htrace]
    have hlast : ∀ (l : List (Event × Globals)) a b c d, (l ++ [a, b, c, d]).getLast? = some d := by
      intro l a b c d
      have hsplit : l ++ [a, b, c, d] = (l ++ [a, b, c]) ++ [d] := by simp
      rw [hsplit, List.getLast?_concat]
    rw [List.map_append]
    exact hlast _ _ _ _ _

theorem globalsAt_length (t : List (Event × Globals)) (eg : Event × Globals)
    (h : t.getLast? = some eg) : globalsAt t t.length = eg.2 := by
  simp [globalsAt, h]

/-! ## Executions of `main` -/

theorem mainRun_of_setup_ret (sc : Scenario) (g1 : Globals) (h : (setupPhase sc).ctl = .ret g1) :
    (mainRun sc).ctl = ((scanPhase sc g1).bind (fun g2 => finalPhase sc g2)).ctl ∧
    mainTrace sc = (setupPhase sc).trace.map Prod.fst
      ++ ((scanPhase sc g1).bind (fun g2 => finalPhase sc g2)).trace.map Prod.fst := by
  simp only [mainTrace, mainRun]
  rw [Run.bind_of_ret _ _ g1 h, List.map_append]
  exact ⟨rfl, rfl⟩

theorem mainTrace_reached_scan (sc : Scenario) (e : Event) (he : e ∈ mainTrace sc)
    (hpre : e.preScan = false) : ∃ g1, (setupPhase sc).ctl = .ret g1 := by
  have hev : ∀ x ∈ (setupPhase sc).trace.map Prod.fst, x.preScan = true := by
    intro x hx
    obtain ⟨eg, heg, rfl⟩ := List.mem_map.1 hx
    exact setupPhase_events sc eg heg
  cases hs : (setupPhase sc).ctl with
  | ret g1 => exact ⟨g1, rfl⟩
  | exit c =>
    simp only [mainTrace, mainRun] at he
    rw [Run.bind_of_exit _ _ c hs] at he
    rw [hev e he] at hpre
    simp at hpre
  | starved =>
    simp only [mainTrace, mainRun] at he
    rw [Run.bind_of_starved _ _ hs] at he
    rw [hev e he] at hpre
    simp at hpre

theorem mainTrace_reached_export (sc : Scenario) (e : Event) (he : e ∈ mainTrace sc)
    (hpre : e.preExport = false) :
    ∃ g1 g2, (setupPhase sc).ctl = .ret g1 ∧ (scanPhase sc g1).ctl = .ret g2 := by
  have hps : e.preScan = false := by
    cases hp : e.preScan
    · rfl
    · rw [preExport_of_preScan e hp] at hpre
      simp at hpre
  obtain ⟨g1, hg1⟩ := mainTrace_reached_scan sc e he hps
  have hev1 : ∀ x ∈ (setupPhase sc).trace.map Prod.fst, x.preExport = true := by
    intro x hx
    obtain ⟨eg, heg, rfl⟩ := List.mem_map.1 hx
    exact preExport_of_preScan _ (setupPhase_events sc eg heg)
  have hev2 : ∀ x ∈ (scanPhase sc g1).trace.map Prod.fst, x.preExport = true := by
    intro x hx
    obtain ⟨eg, heg, rfl⟩ := List.mem_map.1 hx
    exact scanPhase_events sc g1 eg heg
  rw [(mainRun_of_setup_ret sc g1 hg1).2] at he
  cases hs : (scanPhase sc g1).ctl with
  | ret g2 => exact ⟨g1, g2, hg1, hs⟩
  | exit c =>
    rw [Run.bind_of_exit _ _ c hs] at he
    rcases List.mem_append.1 he with h | h
    · rw [hev1 e h] at hpre
      simp at hpre
    · rw [hev2 e h] at hpre
      simp at hpre
  | starved =>
    rw [Run.bind_of_starved _ _ hs] at he
    rcases List.mem_append.1 he with h | h
    · rw [hev1 e h] at hpre
      simp at hpre
    · rw [hev2 e h] at hpre
      simp at hpre

theorem mainRun_scan_fatal (sc : Scenario) (g1 : Globals) (hg1 : (setupPhase sc).ctl = .ret g1)
    (h : (scanAndPoll sc g1).ctl = .exit 1) :
    (mainRun sc).ctl = .exit 1 ∧ teardownCalls (mainTrace sc) = [] := by
  have hm := mainRun_of_setup_ret sc g1 hg1
  have hf := scanPhase_fatal sc g1 h
  rw [hm.1, hm.2, Run.bind_of_exit _ _ 1 hf.1, teardownCalls_append, (setupPhase_ret sc g1 hg1).2,
    hf.2]
  exact ⟨rfl, rfl⟩

/-- C8, counterexample: in the run of `plainScenario` with the create-scan request
answered with status 500 the process exits with code 1 right after the request;
the tunnel, installed at the start, is never uninstalled. -/
theorem startScan_failure_leaves_tunnel :
    mainTrace { plainScenario with createResp := .received 500 none }
      = [.call .installTunnel, .installNetbird, .installCommands, .sleep 5, .checkAPI,
         .promptEmail, .promptCredentialed, .call .startScan, .createScan] ∧
    (mainRun { plainScenario with createResp := .received 500 none }).ctl = .exit 1 ∧
    teardownCalls (mainTrace { plainScenario with createResp := .received 500 none }) = [] := by
  refine ⟨by rfl, by rfl, by rfl⟩

/-- C8, amended: a fatal error in `startScan`, in the polling loop or in
`exportReport` terminates the process with code 1 on the spot, without teardown:
when the create-scan request was sent and failed, or the polling loop was entered
and escalated, the whole execution contains no call of `restore`, `deleteScan` or
`uninstallTunnel`; when the export request was sent and failed, the execution
contains no call of `deleteScan` or `uninstallTunnel` (on a Windows credentialed
scan `restore` has been called by the main path before the export). -/
theorem fatal_errors_skip_teardown (sc : Scenario) :
    ((startScan sc.createResp).ctl = .exit 1 → Event.createScan ∈ mainTrace sc →
      (mainRun sc).ctl = .exit 1 ∧ teardownCalls (mainTrace sc) = []) ∧
    (∀ scanID, (startScan sc.createResp).ctl = .ret scanID →
      (statusLoop scanID (sc.pollResponses.map getScanStatus)).ctl = .exit 1 →
      Event.call .statusLoop ∈ mainTrace sc →
      (mainRun sc).ctl = .exit 1 ∧ teardownCalls (mainTrace sc) = []) ∧
    (∀ scanID, (startScan sc.createResp).ctl = .ret scanID →
      (exportReport scanID sc.exportResp).ctl = .exit 1 →
      Event.exportReq scanID ∈ mainTrace sc →
      (mainRun sc).ctl = .exit 1 ∧
      teardownCalls (mainTrace sc)
        = (if sc.goos = .windows ∧ sc.credentialed = true then [Fn.restore] else [])) := by
  refine ⟨?_, ?_, ?_⟩
  · intro hfail hsent
    obtain ⟨g1, hg1⟩ := mainTrace_reached_scan sc _ hsent rfl
    refine mainRun_scan_fatal sc g1 hg1 ?_
    rw [scanAndPoll_exit sc g1 hfail]
  · intro scanID hid hfatal hentered
    obtain ⟨g1, hg1⟩ := mainTrace_reached_scan sc _ hentered rfl
    exact mainRun_scan_fatal sc g1 hg1 ((scanAndPoll_ret sc g1 scanID hid).2.2.1 1 hfatal)
  · intro scanID hid hfail hsent
    obtain ⟨g1, g2, hg1, hg2⟩ := mainTrace_reached_export sc _ hsent rfl
    obtain ⟨scanID', hid', hg, hcalls⟩ := scanPhase_ret_inv sc g1 g2 hg2
    have hsame : scanID' = scanID := by
      rw [hid] at hid'
      exact (Ctl.ret.inj hid').symm
    have hexp : (exportReport g2.scanID sc.exportResp).ctl = .exit 1 := by
      rw [(exportReport_cases scanID sc.exportResp).2.2 g2.scanID]
      exact hfail
    have hfin := finalPhase_export_fails sc g2 hexp
    have hm := mainRun_of_setup_ret sc g1 hg1
    rw [hm.1, hm.2, Run.bind_of_ret _ _ g2 hg2, List.map_append, teardownCalls_append,
      teardownCalls_append, (setupPhase_ret sc g1 hg1).2, hcalls, hfin.1, hfin.2]
    refine ⟨rfl, ?_⟩
    simp [teardownCalls]

/-- Witness of `fatal_errors_skip_teardown`: the create-scan request answered
with status 500 in the run of `plainScenario`. -/
theorem fatal_errors_skip_teardown_witness :
    (mainRun { plainScenario with createResp := .received 500 none }).ctl = .exit 1 ∧
    teardownCalls (mainTrace { plainScenario with createResp := .received 500 none }) = [] :=
  (fatal_errors_skip_teardown { plainScenario with createResp := .received 500 none }).1
    (by rfl) (by
      have h : mainTrace { plainScenario with createResp := .received 500 none }
          = [.call .installTunnel, .installNetbird, .installCommands, .sleep 5, .checkAPI,
             .promptEmail, .promptCredentialed, .call .startScan, .createScan] := by rfl
      rw [h]
      decide)

set_option maxRecDepth 8000 in
/-- C5, counterexample: in the run of `plainScenario` the main path exports,
deletes scan 7 and uninstalls the tunnel; the signal handled after that makes the
handler call `deleteScan` and `uninstallTunnel` a second time, and so does the
signal handled while the main path is uninstalling the tunnel. -/
theorem second_cleanup_repeats_calls :
    (mainRun plainScenario).ctl = .ret () ∧
    interruptible plainScenario 26 ∧
    teardownCalls (doneBefore plainScenario 26) = [.deleteScan, .uninstallTunnel] ∧
    teardownCalls (handlerAt plainScenario calmWorld 26).trace = [.deleteScan, .uninstallTunnel] ∧
    teardownCalls (interruptedRun plainScenario calmWorld 26).trace
      = [.deleteScan, .uninstallTunnel, .deleteScan, .uninstallTunnel] ∧
    interruptible plainScenario 23 ∧
    teardownCalls (interruptedRun plainScenario calmWorld 23).trace
      = [.deleteScan, .uninstallTunnel, .deleteScan, .uninstallTunnel] := by
  refine ⟨by rfl, by decide, by rfl, by rfl, by rfl, by decide, by rfl⟩

/-- C5, amended: cleanup is not guarded against repetition. When `main` has run
to completion (export, delete, uninstall) the globals still hold the scan id, the
credentialed flag and the tunnel path that the run assigned: the main path's
cleanup resets none of them. The handler reads them unchanged, so a signal
handled at that point issues the teardown calls again: `restore` on a Windows
credentialed run, `deleteScan` whenever the scan id is positive, and
`uninstallTunnel` (unless `restore` ends the process first). -/
theorem cleanup_not_guarded (sc : Scenario) (hw : World) (hret : (mainRun sc).ctl = .ret ()) :
    ∃ scanID, (startScan sc.createResp).ctl = .ret scanID ∧
      globalsAt (mainRun sc).trace (mainRun sc).trace.length
        = ⟨sc.credentialed, scanID, sc.binaryPath, sc.binaryDir⟩ ∧
      teardownCalls (mainTrace sc)
        = (if sc.goos = .windows ∧ sc.credentialed = true then [Fn.restore] else [])
          ++ [Fn.deleteScan, Fn.uninstallTunnel] ∧
      interruptible sc (mainRun sc).trace.length ∧
      teardownCalls (handlerAt sc hw (mainRun sc).trace.length).trace
        = (if sc.goos = .windows ∧ sc.credentialed = true then [Fn.restore] else []) ++
          (if sc.goos = .windows ∧ sc.credentialed = true ∧ (restore hw).ctl = .exit 1 then []
           else (if scanID > 0 then [Fn.deleteScan] else []) ++ [Fn.uninstallTunnel]) := by
  have hret' := hret
  simp only [mainRun] at hret'
  obtain ⟨g1, hg1, hrest, _⟩ := Run.bind_ret_inv _ _ _ hret'
  obtain ⟨g2, hg2, hfin, _⟩ := Run.bind_ret_inv _ _ _ hrest
  obtain ⟨scanID, hid, hg, hcalls⟩ := scanPhase_ret_inv sc g1 g2 hg2
  have hsetup := setupPhase_ret sc g1 hg1
  have hfinal := finalPhase_ret sc g2 hfin
  have hg2val : g2 = ⟨sc.credentialed, scanID, sc.binaryPath, sc.binaryDir⟩ := by
    rw [hg, hsetup.1]
  have htrace : (mainRun sc).trace
      = (setupPhase sc).trace ++ ((scanPhase sc g1).trace ++ (finalPhase sc g2).trace) := by
    simp only [mainRun]
    rw [Run.bind_of_ret _ _ g1 hg1, Run.bind_of_ret _ _ g2 hg2]
  have hlast : (mainRun sc).trace.getLast? = some (.removeTempDir g2.tempDir, g2) := by
    rw [htrace, List.getLast?_append, List.getLast?_append, hfinal.2]
    rfl
  have hglob : globalsAt (mainRun sc).trace (mainRun sc).trace.length
      = ⟨sc.credentialed, scanID, sc.binaryPath, sc.binaryDir⟩ := by
    rw [globalsAt_length _ _ hlast, hg2val]
  have hinst : sc.installResult = .ok := by
    by_contra hne
    rw [(mainRun_install_failed sc hne).2] at hret
    simp at hret
  refine ⟨scanID, hid, hglob, ?_, ?_, ?_⟩
  · simp only [mainTrace]
    rw [htrace, List.map_append, List.map_append, teardownCalls_append, teardownCalls_append,
      hsetup.2, hcalls, hfinal.1, teardownCalls_append, teardownCalls_append,
      (deleteScan_cases _ _).2.1]
    simp [teardownCalls]
  · refine ⟨?_, Or.inr ⟨rfl, by rw [hret]; rfl⟩⟩
    obtain ⟨rest, hrest⟩ := mainTrace_install_ok sc hinst
    have hlen : (mainRun sc).trace.length = (mainTrace sc).length := by simp [mainTrace]
    rw [hlen, hrest]
    simp [handlerArmedAt]
  · have hshape := (interruptHandler_shape sc.goos
      (globalsAt (mainRun sc).trace (mainRun sc).trace.length) hw).2
    simp only [handlerAt]
    rw [hshape, hglob]

set_option maxRecDepth 8000 in
/-- Witness of `cleanup_not_guarded`: the run of `plainScenario`, which returns
normally. -/
theorem cleanup_not_guarded_witness :
    ∃ scanID, (startScan plainScenario.createResp).ctl = .ret scanID ∧
      globalsAt (mainRun plainScenario).trace (mainRun plainScenario).trace.length
        = ⟨plainScenario.credentialed, scanID, plainScenario.binaryPath, plainScenario.binaryDir⟩ ∧
      teardownCalls (mainTrace plainScenario)
        = (if plainScenario.goos = .windows ∧ plainScenario.credentialed = true
            then [Fn.restore] else []) ++ [Fn.deleteScan, Fn.uninstallTunnel] ∧
      interruptible plainScenario (mainRun plainScenario).trace.length ∧
      teardownCalls (handlerAt plainScenario calmWorld (mainRun plainScenario).trace.length).trace
        = (if plainScenario.goos = .windows ∧ plainScenario.credentialed = true
            then [Fn.restore] else []) ++
          (if plainScenario.goos = .windows ∧ plainScenario.credentialed = true ∧
              (restore calmWorld).ctl = .exit 1 then []
           else (if scanID > 0 then [Fn.deleteScan] else []) ++ [Fn.uninstallTunnel]) :=
  cleanup_not_guarded plainScenario calmWorld (by rfl)

/-! ## Capture and restore of the host settings -/

theorem storeCurrentSettings_fields (q : CaptureOutputs) (s : CurrentSettings)
    (hs : storeCurrentSettings q = some s) :
    getServiceStatus q.winmgmtQuery = some s.wmiStatus ∧
    getServiceStatus q.remoteRegistryQuery = some s.remoteRegistryStatus ∧
    getRemoteRegistryStartupType q.startupTypeQuery = some s.remoteRegistryStartupType ∧
    getFileSharingStatus q.fileSharingQuery = some s.fileSharingStatus ∧
    getLocalAccountTokenFilterPolicy q.tokenPolicyQuery = s.localAccountTokenFilterPolicy := by
  unfold storeCurrentSettings at hs
  cases h1 : getServiceStatus q.winmgmtQuery with
  | none => simp [h1] at hs
  | some wmi =>
    cases h2 : getServiceStatus q.remoteRegistryQuery with
    | none => simp [h1, h2] at hs
    | some reg =>
      cases h3 : getRemoteRegistryStartupType q.startupTypeQuery with
      | none => simp [h1, h2, h3] at hs
      | some startup =>
        cases h4 : getFileSharingStatus q.fileSharingQuery with
        | none => simp [h1, h2, h3, h4] at hs
        | some sharing =>
          simp only [h1, h2, h3, h4, Option.some.injEq] at hs
          rw [← hs]
          exact ⟨rfl, rfl, rfl, rfl, rfl⟩

/-- C13, the code at the failing inputs: for every output of the capture queries
the commands that `restoreOriginalSettings` builds from the snapshot of
`storeCurrentSettings` command the opposite of the state observed. A service
observed as RUNNING is commanded to stop and a service not observed as RUNNING to
start; a File and Printer Sharing rule group observed as enabled is set to
`enable=no` and one not observed as enabled to `enable=yes`. The startup type and
the token filter policy are set to the values observed. -/
theorem restore_commands_invert_observation (q : CaptureOutputs) (s : CurrentSettings)
    (hs : storeCurrentSettings q = some s) :
    (∀ out, q.winmgmtQuery = some out →
      (strContains out "STATE              : 4  RUNNING" = true →
        (restoreCommandList s)[0]? = some "net stop Winmgmt") ∧
      (strContains out "STATE              : 4  RUNNING" = false →
        (restoreCommandList s)[0]? = some "net start Winmgmt")) ∧
    (∀ out, q.remoteRegistryQuery = some out →
      (strContains out "STATE              : 4  RUNNING" = true →
        (restoreCommandList s)[2]? = some "net stop RemoteRegistry") ∧
      (strContains out "STATE              : 4  RUNNING" = false →
        (restoreCommandList s)[2]? = some "net start RemoteRegistry")) ∧
    (∀ out, q.fileSharingQuery = some out →
      (strContains out "True" = true → (restoreCommandList s)[3]?
        = some "netsh advfirewall firewall set rule group=\"File and Printer Sharing\" new enable=no") ∧
      (strContains out "True" = false → (restoreCommandList s)[3]?
        = some "netsh advfirewall firewall set rule group=\"File and Printer Sharing\" new enable=yes")) ∧
    (∀ out, q.startupTypeQuery = some out →
      strContains out "START_TYPE         : 3   DEMAND_START" = true →
      (restoreCommandList s)[1]? = some "sc config RemoteRegistry start=demand") ∧
    (∀ out, q.tokenPolicyQuery = some out → strContains out "0x1" = true →
      (restoreCommandList s)[4]?
        = some "reg add HKLM\\SOFTWARE\\Microsoft\\Windows\\CurrentVersion\\Policies\\system /v LocalAccountTokenFilterPolicy /t REG_DWORD /d 1 /f") := by
  obtain ⟨h1, h2, h3, h4, h5⟩ := storeCurrentSettings_fields q s hs
  refine ⟨?_, ?_, ?_, ?_, ?_⟩
  · intro out hq
    rw [hq] at h1
    constructor
    · intro hc
      simp only [getServiceStatus, hc, if_true, Option.some.injEq] at h1
      simp only [restoreCommandList, ← h1]
      rfl
    · intro hc
      simp only [getServiceStatus, hc, Bool.false_eq_true, if_false, Option.some.injEq] at h1
      simp only [restoreCommandList, ← h1]
      rfl
  · intro out hq
    rw [hq] at h2
    constructor
    · intro hc
      simp only [getServiceStatus, hc, if_true, Option.some.injEq] at h2
      simp only [restoreCommandList, ← h2]
      rfl
    · intro hc
      simp only [getServiceStatus, hc, Bool.false_eq_true, if_false, Option.some.injEq] at h2
      simp only [restoreCommandList, ← h2]
      rfl
  · intro out hq
    rw [hq] at h4
    constructor
    · intro hc
      simp only [getFileSharingStatus, hc, if_true, Option.some.injEq] at h4
      simp only [restoreCommandList, ← h4]
      rfl
    · intro hc
      simp only [getFileSharingStatus, hc, Bool.false_eq_true, if_false, Option.some.injEq] at h4
      simp only [restoreCommandList, ← h4]
      rfl
  · intro out hq hc
    rw [hq] at h3
    simp only [getRemoteRegistryStartupType, hc, if_true, Option.some.injEq] at h3
    simp only [restoreCommandList, ← h3]
    rfl
  · intro out hq hc
    rw [hq] at h5
    simp only [getLocalAccountTokenFilterPolicy, hc, if_true] at h5
    simp only [restoreCommandList, ← h5]
    rfl

/-- Witness of `restore_commands_invert_observation`: on `runningHost`, where the
Winmgmt service is observed as RUNNING, the first restore command is
`net stop Winmgmt`. -/
theorem restore_commands_invert_observation_witness :
    storeCurrentSettings runningHost = some ⟨"stop", "stop", "demand", "no", "0"⟩ ∧
    (restoreCommandList ⟨"stop", "stop", "demand", "no", "0"⟩)[0]? = some "net stop Winmgmt" :=
  ⟨by rfl,
   ((restore_commands_invert_observation runningHost ⟨"stop", "stop", "demand", "no", "0"⟩
      (by rfl)).1 _ rfl).1 (by rfl)⟩

/-! ## Exit code of the process -/

theorem Run.bind_exit_one {ε α β : Type} (r : Run ε α) (f : α → Run ε β)
    (hr : ∀ c, r.ctl = .exit c → c = 1) (hf : ∀ a c, (f a).ctl = .exit c → c = 1) :
    ∀ c, (r.bind f).ctl = .exit c → c = 1 := by
  intro c h
  unfold Run.bind at h
  cases hc : r.ctl with
  | ret a =>
    simp only [hc] at h
    exact hf a c h
  | exit d =>
    simp only [hc, Ctl.exit.injEq] at h
    rw [← h]
    exact hr d hc
  | starved => simp [hc] at h

theorem statusLoopFrom_exit_one (scanID : Int) (bound : Nat) :
    ∀ outcomes count c, (statusLoopFrom scanID bound count outcomes).ctl = .exit c → c = 1 := by
  intro outcomes
  induction outcomes with
  | nil =>
    intro count c h
    simp [statusLoopFrom] at h
  | cons o rest ih =>
    intro count c h
    cases hit : statusLoopIter bound count o with
    | again k =>
      rw [statusLoopFrom_again scanID bound count k o rest hit, Run.after_ctl] at h
      exact ih k c h
    | done k =>
      rw [statusLoopFrom_done scanID bound count k o rest hit] at h
      simp at h
    | fatal k =>
      rw [statusLoopFrom_fatal scanID bound count k o rest hit] at h
      simp only [Ctl.exit.injEq] at h
      exact h.symm

theorem apiLoop_exit_one (probes : Nat → Bool) (m : Nat) (g : Globals) (w : World) :
    ∀ fuel retries i c, (apiLoop probes m g w fuel retries i).ctl = .exit c → c = 1 := by
  intro fuel
  induction fuel with
  | zero =>
    intro retries i c h
    simp [apiLoop] at h
  | succ fuel ih =>
    intro retries i c h
    simp only [apiLoop] at h
    by_cases hp : probes i = true
    · simp [hp] at h
    · simp only [hp, Bool.false_eq_true, if_false] at h
      by_cases hlt : retries < m
      · simp only [hlt, if_true, Run.after_ctl] at h
        exact ih _ _ c h
      · simp only [hlt, if_false, Run.after_ctl, (uninstallTunnel_then_exit g w).1,
          Ctl.exit.injEq] at h
        exact h.symm

theorem setupPhase_exit_one (sc : Scenario) : ∀ c, (setupPhase sc).ctl = .exit c → c = 1 := by
  simp only [setupPhase]
  refine Run.bind_exit_one _ _ ?_ (fun _ => Run.bind_exit_one _ _ ?_ (fun _ =>
    Run.bind_exit_one _ _ ?_ (fun _ => Run.bind_exit_one _ _ ?_ (fun _ =>
      Run.bind_exit_one _ _ ?_ (fun _ => Run.bind_exit_one _ _ ?_ (fun _ => ?_))))))
  · intro c h
    rw [Run.tag_ctl] at h
    cases hr : sc.installResult <;> simp [installTunnel, hr] at h <;> exact h.symm
  · intro c h
    rw [Run.tag_ctl, Run.after_ctl] at h
    exact apiLoop_exit_one _ _ _ _ _ _ _ c h
  · intro c h
    simp [Run.tag, Run.emit] at h
  · intro c h
    simp [Run.tag, Run.emit] at h
  · intro c h
    cases hc : sc.credentialed <;> simp [Run.tag, Run.emit, Run.pure, hc] at h
  · intro c h
    rw [Run.tag_ctl] at h
    by_cases hw : sc.goos = .windows ∧ sc.credentialed = true
    · simp only [hw, and_self, if_true] at h
      cases hcap : sc.captured <;> cases hsv : sc.saveOk <;>
        simp [storeAndSave, hcap, hsv] at h <;> exact h.symm
    · simp [hw, Run.pure] at h
  · intro c h
    simp [Run.pure] at h

theorem scanAndPoll_exit_one (sc : Scenario) (g : Globals) :
    ∀ c, (scanAndPoll sc g).ctl = .exit c → c = 1 := by
  intro c h
  rcases (startScan_cases sc.createResp).2 with ⟨scanID, hs⟩ | hs
  · have hp := scanAndPoll_ret sc g scanID hs
    cases hl : (statusLoop scanID (sc.pollResponses.map getScanStatus)).ctl with
    | ret u =>
      rw [hp.2.1 hl] at h
      simp at h
    | exit d =>
      rw [hp.2.2.1 d hl] at h
      simp only [Ctl.exit.injEq] at h
      rw [← h]
      unfold statusLoop at hl
      rw [Run.after_ctl] at hl
      exact statusLoopFrom_exit_one _ _ _ _ d hl
    | starved =>
      rw [hp.2.2.2 hl] at h
      simp at h
  · rw [scanAndPoll_exit sc g hs] at h
    simp only [Ctl.exit.injEq] at h
    exact h.symm

theorem restore_exit_one (w : World) : ∀ c, (restore w).ctl = .exit c → c = 1 := by
  intro c h
  rcases (restore_cases w).1 with hr | hr
  · rw [hr] at h
    simp at h
  · rw [hr] at h
    simp only [Ctl.exit.injEq] at h
    exact h.symm

theorem scanPhase_exit_one (sc : Scenario) (g : Globals) :
    ∀ c, (scanPhase sc g).ctl = .exit c → c = 1 := by
  cases hc : sc.credentialed with
  | false =>
    rw [scanPhase_plain sc g hc]
    exact scanAndPoll_exit_one sc g
  | true =>
    by_cases hw : sc.goos = .windows
    · rw [scanPhase_windows sc g hc hw]
      refine Run.bind_exit_one _ _ ?_ (fun _ => Run.bind_exit_one _ _ (scanAndPoll_exit_one sc g)
        (fun g' => Run.bind_exit_one _ _ ?_ (fun _ => ?_)))
      · intro c h
        rw [Run.tag_ctl] at h
        rcases (setupWindowsNessus_cases sc.world.commandResult).1 with hr | hr
        · rw [hr] at h
          simp at h
        · rw [hr] at h
          simp only [Ctl.exit.injEq] at h
          exact h.symm
      · intro c h
        rw [Run.tag_ctl] at h
        exact restore_exit_one sc.world c h
      · intro c h
        simp [Run.pure] at h
    · rw [scanPhase_ssh sc g hc hw]
      refine Run.bind_exit_one _ _ ?_ (fun _ => ?_)
      · intro c h
        simp [Run.tag, Run.emit] at h
      · cases sc.sshRunning
        · intro c h
          simp only [Bool.false_eq_true, if_false, Run.osExit, Ctl.exit.injEq] at h
          exact h.symm
        · exact scanAndPoll_exit_one sc g

theorem finalPhase_ctl (sc : Scenario) (g : Globals) :
    ((finalPhase sc g).ctl = .ret () ↔
      ((exportReport g.scanID sc.exportResp).ctl = .ret () ∧ sc.world.uninstallResult = .ok)) ∧
    (∀ c, (finalPhase sc g).ctl = .exit c → c = 1) := by
  have hfin : (finalPhase sc g).ctl = ((exportReport g.scanID sc.exportResp).bind (fun _ =>
      (deleteScan g.scanID sc.world.deleteWorld).discard.bind (fun _ =>
        uninstallTunnel g sc.world))).ctl := by
    simp only [finalPhase, Run.tag_ctl]
    rw [Run.bind_of_ret _ _ () rfl]
  rw [hfin]
  rcases (exportReport_cases g.scanID sc.exportResp).2.1 with he | he
  · rw [Run.bind_of_ret _ _ () he, discard_deleteScan, Run.bind_of_ret _ _ () rfl]
    rcases uninstallTunnel_cases g sc.world with ⟨hok, hu⟩ | ⟨hne, hu⟩
    · rw [hu]
      exact ⟨⟨fun _ => ⟨he, hok⟩, fun _ => rfl⟩, fun c h => by simp at h⟩
    · rw [hu]
      refine ⟨⟨fun h => by simp at h, fun h => absurd h.2 hne⟩, fun c h => ?_⟩
      simp only [Ctl.exit.injEq] at h
      exact h.symm
  · rw [Run.bind_of_exit _ _ 1 he]
    refine ⟨⟨fun h => by simp at h, fun h => ?_⟩, fun c h => ?_⟩
    · rw [he] at h
      simp at h
    · simp only [Ctl.exit.injEq] at h
      exact h.symm

theorem mainRun_exit_one (sc : Scenario) : ∀ c, (mainRun sc).ctl = .exit c → c = 1 := by
  simp only [mainRun]
  exact Run.bind_exit_one _ _ (setupPhase_exit_one sc) (fun g1 =>
    Run.bind_exit_one _ _ (scanPhase_exit_one sc g1) (fun g2 => (finalPhase_ctl sc g2).2))

/-! ## The handler beside `main` -/

theorem handlerStatement_ctl (goos : OS) (hw : World) (g : Globals) (k : Nat) :
    (handlerStatement goos hw g k).ctl = .ret () ∨ (handlerStatement goos hw g k).ctl = .exit 1 := by
  match k with
  | 0 =>
    simp only [handlerStatement]
    split_ifs
    · exact (restore_cases hw).1
    · exact Or.inl rfl
  | 1 =>
    simp only [handlerStatement]
    split_ifs
    · rw [discard_deleteScan]
      exact Or.inl rfl
    · exact Or.inl rfl
  | 2 =>
    simp only [handlerStatement]
    rcases uninstallTunnel_cases g hw with ⟨_, h⟩ | ⟨_, h⟩
    · rw [h]
      exact Or.inl rfl
    · rw [h]
      exact Or.inr rfl
  | k + 3 => exact Or.inr rfl

theorem race_exit_one (goos : OS) (hw : World) (schedule : List Bool) :
    ∀ (rest : List (Event × Globals)) (mainCtl : Ctl Unit) (g : Globals) (h : HandlerState),
      (∀ c, mainCtl = .exit c → c = 1) → (∀ c, h.ending = .exit c → c = 1) →
      ∀ c, (race goos hw schedule rest mainCtl g h).ctl = .exit c → c = 1 := by
  induction schedule with
  | nil =>
    intro rest mainCtl g h _ _ c hc
    simp [race] at hc
  | cons b schedule ih =>
    intro rest mainCtl g h hmain hend c hc
    cases b with
    | true =>
      cases rest with
      | nil =>
        simp only [race] at hc
        exact hmain c hc
      | cons eg rest =>
        simp only [race, Run.after_ctl] at hc
        exact ih rest mainCtl eg.2 h hmain hend c hc
    | false =>
      obtain ⟨k, pending, ending⟩ := h
      cases pending with
      | cons e pending =>
        simp only [race, Run.after_ctl] at hc
        exact ih rest mainCtl g ⟨k, pending, ending⟩ hmain hend c hc
      | nil =>
        cases ending with
        | ret u =>
          simp only [race] at hc
          refine ih rest mainCtl g _ hmain ?_ c hc
          intro d hd
          rcases handlerStatement_ctl goos hw g k with h1 | h1
          · simp only [h1] at hd
            simp at hd
          · simp only [h1, Ctl.exit.injEq] at hd
            exact hd.symm
        | exit d =>
          simp only [race, Ctl.exit.injEq] at hc
          rw [← hc]
          exact hend d rfl
        | starved => simp [race] at hc

theorem race_ret (goos : OS) (hw : World) (schedule : List Bool) :
    ∀ (rest : List (Event × Globals)) (mainCtl : Ctl Unit) (g : Globals) (h : HandlerState),
      (race goos hw schedule rest mainCtl g h).ctl = .ret () →
      mainCtl = .ret () ∧ ∃ others,
        (rest.map Prod.fst).Sublist (race goos hw schedule rest mainCtl g h).trace ∧
        (race goos hw schedule rest mainCtl g h).trace.length = rest.length + others := by
  induction schedule with
  | nil =>
    intro rest mainCtl g h hc
    simp [race] at hc
  | cons b schedule ih =>
    intro rest mainCtl g h hc
    cases b with
    | true =>
      cases rest with
      | nil =>
        simp only [race] at hc
        exact ⟨hc, 0, by simp [race]⟩
      | cons eg rest =>
        simp only [race, Run.after_ctl] at hc
        obtain ⟨h1, others, hsub, hlen⟩ := ih rest mainCtl eg.2 h hc
        refine ⟨h1, others, ?_, ?_⟩
        · simp only [race, Run.after_trace, List.map_cons, List.singleton_append]
          exact hsub.cons₂ _
        · simp only [race, Run.after_trace, List.singleton_append, List.length_cons, hlen]
          omega
    | false =>
      obtain ⟨k, pending, ending⟩ := h
      cases pending with
      | cons e pending =>
        simp only [race, Run.after_ctl] at hc
        obtain ⟨h1, others, hsub, hlen⟩ := ih rest mainCtl g ⟨k, pending, ending⟩ hc
        refine ⟨h1, others + 1, ?_, ?_⟩
        · simp only [race, Run.after_trace, List.singleton_append]
          exact hsub.cons _
        · simp only [race, Run.after_trace, List.singleton_append, List.length_cons, hlen]
          omega
      | nil =>
        cases ending with
        | ret u =>
          simp only [race] at hc ⊢
          exact ih rest mainCtl g _ hc
        | exit d => simp [race] at hc
        | starved => simp [race] at hc

/-- Exit code of an execution in which the signal is handled: 1, or 0 when `main`
has performed all its effects and returned before the handler has reached a
statement that ends the process. -/
theorem concurrentRun_exit_code (sc : Scenario) (hw : World) (n : Nat) (schedule : List Bool) :
    ∀ c, exitCode (concurrentRun sc hw n schedule).ctl = some c →
      c = 1 ∨ (c = 0 ∧ (mainRun sc).ctl = .ret () ∧
        ((mainTrace sc).drop n).Sublist
          ((concurrentRun sc hw n schedule).trace.drop (doneBefore sc n).length)) := by
  intro c hc
  simp only [concurrentRun, Run.after_ctl] at hc
  cases hr : (race sc.goos hw schedule ((mainRun sc).trace.drop n) (mainRun sc).ctl
      (globalsAt (mainRun sc).trace n) HandlerState.signalled).ctl with
  | ret u =>
    rw [hr] at hc
    simp only [exitCode, Option.some.injEq] at hc
    obtain ⟨h1, others, hsub, _⟩ := race_ret _ _ _ _ _ _ _ hr
    refine Or.inr ⟨hc.symm, h1, ?_⟩
    simp only [concurrentRun, Run.after_trace, List.drop_left, mainTrace, ← List.map_drop]
    exact hsub
  | exit d =>
    rw [hr] at hc
    simp only [exitCode, Option.some.injEq] at hc
    rw [← hc]
    exact Or.inl (race_exit_one _ _ _ _ _ _ _ (mainRun_exit_one sc)
      (by intro c h; simp [HandlerState.signalled] at h) d hr)
  | starved =>
    rw [hr] at hc
    simp [exitCode] at hc

theorem race_drain (goos : OS) (hw : World) (rest : List (Event × Globals)) (mainCtl : Ctl Unit)
    (g : Globals) (k : Nat) (ending : Ctl Unit) (pending : List Event) :
    ∀ m, race goos hw (List.replicate (pending.length + m) false) rest mainCtl g
        ⟨k, pending, ending⟩
      = Run.after pending
          (race goos hw (List.replicate m false) rest mainCtl g ⟨k, [], ending⟩) := by
  induction pending with
  | nil =>
    intro m
    simp [Run.after]
  | cons e pending ih =>
    intro m
    have hlen : (e :: pending).length + m = (pending.length + m) + 1 := by
      simp only [List.length_cons]
      omega
    rw [hlen, List.replicate_succ]
    simp only [race]
    rw [ih m]
    simp [Run.after]

theorem race_statement_exit (goos : OS) (hw : World) (rest : List (Event × Globals))
    (mainCtl : Ctl Unit) (g : Globals) (k c m : Nat)
    (hctl : (handlerStatement goos hw g k).ctl = .exit c)
    (hm : (handlerStatement goos hw g k).trace.length + 2 ≤ m) :
    race goos hw (List.replicate m false) rest mainCtl g ⟨k, [], .ret ()⟩
      = ⟨(handlerStatement goos hw g k).trace, .exit c⟩ := by
  obtain ⟨j, rfl⟩ : ∃ j, m = ((handlerStatement goos hw g k).trace.length + (j + 1)) + 1 :=
    ⟨m - (handlerStatement goos hw g k).trace.length - 2, by omega⟩
  rw [List.replicate_succ]
  simp only [race]
  rw [race_drain, hctl, List.replicate_succ]
  simp [race, Run.after]

theorem race_statement_ret (goos : OS) (hw : World) (rest : List (Event × Globals))
    (mainCtl : Ctl Unit) (g : Globals) (k m : Nat)
    (hctl : (handlerStatement goos hw g k).ctl = .ret ()) :
    race goos hw (List.replicate ((handlerStatement goos hw g k).trace.length + m + 1) false)
        rest mainCtl g ⟨k, [], .ret ()⟩
      = Run.after (handlerStatement goos hw g k).trace
          (race goos hw (List.replicate m false) rest mainCtl g ⟨k + 1, [], .ret ()⟩) := by
  rw [List.replicate_succ]
  simp only [race]
  rw [race_drain, hctl]

/-- When `main` takes no step after the signal, the execution is the body of the
handler run from the globals in force at the signal. -/
theorem race_handler_alone (goos : OS) (hw : World) (rest : List (Event × Globals))
    (mainCtl : Ctl Unit) (g : Globals) (m : Nat)
    (hm : (interruptHandler goos g hw).trace.length + 5 ≤ m) :
    race goos hw (List.replicate m false) rest mainCtl g HandlerState.signalled
      = interruptHandler goos g hw := by
  have hshape : interruptHandler goos g hw
      = (handlerStatement goos hw g 0).bind (fun _ =>
          (handlerStatement goos hw g 1).bind (fun _ =>
            (handlerStatement goos hw g 2).bind (fun _ => handlerStatement goos hw g 3))) := rfl
  have h3 : (handlerStatement goos hw g 3) = ⟨[], .exit 1⟩ := rfl
  rw [hshape] at hm ⊢
  unfold HandlerState.signalled
  rcases handlerStatement_ctl goos hw g 0 with c0 | c0
  · rw [Run.bind_of_ret _ _ () c0] at hm ⊢
    simp only [List.length_append] at hm
    obtain ⟨m1, rfl⟩ : ∃ m1, m = (handlerStatement goos hw g 0).trace.length + m1 + 1 :=
      ⟨m - (handlerStatement goos hw g 0).trace.length - 1, by omega⟩
    rw [race_statement_ret goos hw rest mainCtl g 0 m1 c0]
    rcases handlerStatement_ctl goos hw g 1 with c1 | c1
    · rw [Run.bind_of_ret _ _ () c1] at hm ⊢
      simp only [List.length_append] at hm
      obtain ⟨m2, rfl⟩ : ∃ m2, m1 = (handlerStatement goos hw g 1).trace.length + m2 + 1 :=
        ⟨m1 - (handlerStatement goos hw g 1).trace.length - 1, by omega⟩
      rw [race_statement_ret goos hw rest mainCtl g 1 m2 c1]
      rcases handlerStatement_ctl goos hw g 2 with c2 | c2
      · rw [Run.bind_of_ret _ _ () c2] at hm ⊢
        simp only [List.length_append, h3, List.length_nil] at hm
        obtain ⟨m3, rfl⟩ : ∃ m3, m2 = (handlerStatement goos hw g 2).trace.length + m3 + 1 :=
          ⟨m2 - (handlerStatement goos hw g 2).trace.length - 1, by omega⟩
        rw [race_statement_ret goos hw rest mainCtl g 2 m3 c2,
          race_statement_exit goos hw rest mainCtl g 3 1 m3 rfl (by rw [h3]; simp; omega)]
        simp [Run.after, h3]
      · rw [Run.bind_of_exit _ _ 1 c2] at hm ⊢
        simp only [List.length_append] at hm
        rw [race_statement_exit goos hw rest mainCtl g 2 1 m2 c2 (by omega)]
        simp [Run.after]
    · rw [Run.bind_of_exit _ _ 1 c1] at hm ⊢
      simp only [List.length_append] at hm
      rw [race_statement_exit goos hw rest mainCtl g 1 1 m1 c1 (by omega)]
      simp [Run.after]
  · rw [Run.bind_of_exit _ _ 1 c0] at hm ⊢
    simp only at hm
    rw [race_statement_exit goos hw rest mainCtl g 0 1 m c0 (by omega)]

/-- The execution in which `main` stands still after the signal is the one of
`concurrentRun` whose schedule gives every step to the handler. -/
theorem concurrentRun_handler_alone (sc : Scenario) (hw : World) (n m : Nat)
    (hm : (handlerAt sc hw n).trace.length + 5 ≤ m) :
    concurrentRun sc hw n (List.replicate m false) = interruptedRun sc hw n := by
  unfold concurrentRun interruptedRun
  rw [race_handler_alone sc.goos hw _ _ _ m hm]
  rfl

/-! ## Exit code of the process, continued -/

theorem handlerStatement_calls (goos : OS) (hw : World) (g : Globals) :
    teardownCalls (handlerStatement goos hw g 0).trace
      = (if goos = .windows ∧ g.credentialedScan = true then [Fn.restore] else []) ∧
    teardownCalls (handlerStatement goos hw g 1).trace
      = (if g.scanID > 0 then [Fn.deleteScan] else []) ∧
    teardownCalls (handlerStatement goos hw g 2).trace = [Fn.uninstallTunnel] ∧
    handlerStatement goos hw g 3 = ⟨[], .exit 1⟩ := by
  refine ⟨?_, ?_, ?_, rfl⟩
  · simp only [handlerStatement]
    split_ifs
    · exact (restore_cases hw).2.1
    · rfl
  · simp only [handlerStatement]
    split_ifs
    · rw [discard_deleteScan]
      exact (deleteScan_cases g.scanID hw.deleteWorld).2.1
    · rfl
  · simp only [handlerStatement]
    rcases uninstallTunnel_cases g hw with ⟨_, h⟩ | ⟨_, h⟩ <;>
      · rw [h]
        rfl

set_option maxRecDepth 8000 in
/-- C6, counterexample: in a credentialed Windows run the signal handled right
after the credentialed-scan prompt makes the handler call `restore` although the
host settings have not been captured or applied yet; handled after the delete
request of the main path, it makes the handler call `restore` and `deleteScan`
again although `main` has already restored the settings and deleted the scan; and
in a run whose reachability wait is exhausted, the signal handled after `main` has
run its own uninstall command makes the handler call `uninstallTunnel` again. In
each case `main` performs no effect while the handler runs. -/
theorem interruptHandler_ignores_progress :
    interruptible windowsScenario 7 ∧
    doneBefore windowsScenario 7
      = [.call .installTunnel, .installNetbird, .installCommands, .sleep 5, .checkAPI,
         .promptEmail, .promptCredentialed] ∧
    teardownCalls (handlerAt windowsScenario calmWorld 7).trace = [.restore, .uninstallTunnel] ∧
    interruptible windowsScenario 40 ∧
    teardownCalls (doneBefore windowsScenario 40) = [.restore, .deleteScan] ∧
    teardownCalls (handlerAt windowsScenario calmWorld 40).trace
      = [.restore, .deleteScan, .uninstallTunnel] ∧
    interruptible offlineScenario 16 ∧
    (doneBefore offlineScenario 16).drop 13
      = [.call .uninstallTunnel, .uninstallCommands, .removeTempFile "/tmp/netbird1/netbird"] ∧
    teardownCalls (handlerAt offlineScenario calmWorld 16).trace = [.uninstallTunnel] := by
  refine ⟨by decide, by rfl, by rfl, by decide, by rfl, by rfl, by decide, by rfl, by rfl⟩

/-- C6, amended. The cleanup of the interrupt handler issues its steps in the order
restore, delete scan, uninstall tunnel, and a step is decided by the globals as
they are when it is reached: `restore` is called exactly when the platform is
Windows and `credentialedScan` is set, `deleteScan` exactly when `scanID > 0`,
`uninstallTunnel` always. The handler consults nothing else: not whether the
settings were applied or already restored, whether the deletion was already
attempted, or whether `main` has already uninstalled the tunnel; it is started
only once `installTunnel` has succeeded. The handler run to its end from globals
`g` ends the process with code 1, either at its `os.Exit(1)` or at a fatal
`restore` or uninstall command (after a fatal `restore` nothing else is called).
`main` runs on beside the handler: for a signal handled at any point where the
handler can run, and under every schedule, the process exits with code 1, or with
code 0 when `main` has performed all its remaining effects and returned first. -/
theorem interruptHandler_steps (sc : Scenario) (hw : World) (g : Globals) (n : Nat)
    (schedule : List Bool) :
    (teardownCalls (handlerStatement sc.goos hw g 0).trace
        = (if sc.goos = .windows ∧ g.credentialedScan = true then [Fn.restore] else []) ∧
      teardownCalls (handlerStatement sc.goos hw g 1).trace
        = (if g.scanID > 0 then [Fn.deleteScan] else []) ∧
      teardownCalls (handlerStatement sc.goos hw g 2).trace = [Fn.uninstallTunnel] ∧
      handlerStatement sc.goos hw g 3 = ⟨[], .exit 1⟩) ∧
    (interruptHandler sc.goos g hw).ctl = .exit 1 ∧
    teardownCalls (interruptHandler sc.goos g hw).trace
      = (if sc.goos = .windows ∧ g.credentialedScan = true then [Fn.restore] else []) ++
        (if sc.goos = .windows ∧ g.credentialedScan = true ∧ (restore hw).ctl = .exit 1 then []
         else (if g.scanID > 0 then [Fn.deleteScan] else []) ++ [Fn.uninstallTunnel]) ∧
    (interruptible sc n →
      sc.installResult = .ok ∧ Event.call .installTunnel ∈ doneBefore sc n) ∧
    (interruptible sc n → ∀ c, exitCode (concurrentRun sc hw n schedule).ctl = some c →
      c = 1 ∨ (c = 0 ∧ (mainRun sc).ctl = .ret () ∧
        ((mainTrace sc).drop n).Sublist
          ((concurrentRun sc hw n schedule).trace.drop (doneBefore sc n).length))) := by
  refine ⟨handlerStatement_calls sc.goos hw g, (interruptHandler_shape sc.goos g hw).1,
    (interruptHandler_shape sc.goos g hw).2, ?_, fun _ => concurrentRun_exit_code sc hw n schedule⟩
  intro hint
  have hok : sc.installResult = .ok := by
    by_contra hne
    have hfail := mainRun_install_failed sc hne
    unfold interruptible handlerArmedAt at hint
    rw [hfail.1, hfail.2] at hint
    rcases hint with ⟨h3, hlt | ⟨_, hex⟩⟩
    · omega
    · simp [Ctl.isExit] at hex
  refine ⟨hok, ?_⟩
  obtain ⟨rest, hrest⟩ := mainTrace_install_ok sc hok
  have h3 : 3 ≤ n := hint.1
  obtain ⟨m, rfl⟩ : ∃ m, n = m + 1 := ⟨n - 1, by omega⟩
  simp [doneBefore, hrest]

set_option maxRecDepth 8000 in
/-- Witness of `interruptHandler_steps`: the signal handled at point 7 of the
credentialed Windows run, where `main` waits for the operator while the handler
takes its steps and ends the process with code 1. -/
theorem interruptHandler_steps_witness :
    interruptible windowsScenario 7 ∧
    (windowsScenario.installResult = .ok ∧
      Event.call .installTunnel ∈ doneBefore windowsScenario 7) ∧
    exitCode (concurrentRun windowsScenario calmWorld 7 (List.replicate 20 false)).ctl = some 1 ∧
    (1 = 1 ∨ (1 = 0 ∧ (mainRun windowsScenario).ctl = .ret () ∧
      ((mainTrace windowsScenario).drop 7).Sublist
        ((concurrentRun windowsScenario calmWorld 7 (List.replicate 20 false)).trace.drop
          (doneBefore windowsScenario 7).length))) :=
  ⟨by decide,
   (interruptHandler_steps windowsScenario calmWorld Globals.initial 7
      (List.replicate 20 false)).2.2.2.1 (by decide),
   by rfl,
   (interruptHandler_steps windowsScenario calmWorld Globals.initial 7
      (List.replicate 20 false)).2.2.2.2 (by decide) 1 (by rfl)⟩

/-! ## Exit code of the whole process -/

theorem unquoteFrom_quote (tail : List Char) :
    unquoteFrom none (Char.ofNat 34 :: tail) = some ([], tail) := by
  rw [unquoteFrom.eq_def]
  simp +decide [flushPending]

theorem unquoteFrom_plain (c : Char) (tail : List Char) (h1 : c.toNat ≠ 34) (h2 : ¬ c.toNat < 32)
    (h3 : c.toNat ≠ 92) :
    unquoteFrom none (c :: tail) = pushChar c (unquoteFrom none tail) := by
  rw [unquoteFrom.eq_def]
  simp [h1, h2, h3, flushPending]

theorem unquoteFrom_simple (e ch : Char) (tail : List Char) (he : e ≠ 'u')
    (hs : simpleEscape e = some ch) :
    unquoteFrom none (Char.ofNat 92 :: e :: tail) = pushChar ch (unquoteFrom none tail) := by
  rw [unquoteFrom.eq_def]
  simp +decide [he, hs, flushPending]

theorem unquoteFrom_hex (a b x d : Char) (v : Nat) (tail : List Char) (hv : hex4 a b x d = some v)
    (hlo : v < 55296 ∨ 57344 ≤ v) :
    unquoteFrom none (Char.ofNat 92 :: 'u' :: a :: b :: x :: d :: tail)
      = pushChar (Char.ofNat v) (unquoteFrom none tail) := by
  have hn1 : ¬ (55296 ≤ v ∧ v < 56320) := by omega
  have hn2 : ¬ (56320 ≤ v ∧ v < 57344) := by omega
  rw [unquoteFrom.eq_def]
  simp +decide [hv, hn1, hn2, flushPending]

theorem hexValue_hexDigit (n : Nat) (h : n < 16) : hexValue (hexDigit n) = some n := by
  interval_cases n <;> rfl

theorem char_eq_of_toNat (c : Char) (n : Nat) (h : c.toNat = n) : c = Char.ofNat n := by
  rw [← h, Char.ofNat_toNat]

theorem unquoteFrom_escapeChar (short : Bool) (c : Char) (tail : List Char) :
    unquoteFrom none (escapeChar short c ++ tail) = pushChar c (unquoteFrom none tail) := by
  unfold escapeChar
  by_cases h1 : c.toNat = 34
  · have hc := char_eq_of_toNat c 34 h1
    subst hc
    simp only [h1, if_true, List.cons_append, List.nil_append]
    exact unquoteFrom_simple _ _ tail (by decide) (by rfl)
  by_cases h2 : c.toNat = 92
  · have hc := char_eq_of_toNat c 92 h2
    subst hc
    simp only [h1, h2, if_true, if_false, List.cons_append, List.nil_append]
    exact unquoteFrom_simple _ _ tail (by decide) (by rfl)
  by_cases h3 : c.toNat = 10
  · have hc := char_eq_of_toNat c 10 h3
    subst hc
    simp only [h1, h2, h3, if_true, if_false, List.cons_append, List.nil_append]
    exact unquoteFrom_simple _ _ tail (by decide) (by rfl)
  by_cases h4 : c.toNat = 13
  · have hc := char_eq_of_toNat c 13 h4
    subst hc
    simp only [h1, h2, h3, h4, if_true, if_false, List.cons_append, List.nil_append]
    exact unquoteFrom_simple _ _ tail (by decide) (by rfl)
  by_cases h5 : c.toNat = 9
  · have hc := char_eq_of_toNat c 9 h5
    subst hc
    simp only [h1, h2, h3, h4, h5, if_true, if_false, List.cons_append, List.nil_append]
    exact unquoteFrom_simple _ _ tail (by decide) (by rfl)
  by_cases h6 : short = true ∧ c.toNat = 8
  · have hc := char_eq_of_toNat c 8 h6.2
    subst hc
    simp only [h1, h2, h3, h4, h5, h6, and_self, if_true, if_false, List.cons_append,
      List.nil_append]
    exact unquoteFrom_simple _ _ tail (by decide) (by rfl)
  by_cases h7 : short = true ∧ c.toNat = 12
  · have hc := char_eq_of_toNat c 12 h7.2
    subst hc
    simp only [h1, h2, h3, h4, h5, h6, h7, and_self, if_true, if_false, List.cons_append,
      List.nil_append]
    exact unquoteFrom_simple _ _ tail (by decide) (by rfl)
  by_cases h8 : c.toNat < 32 ∨ c.toNat = 60 ∨ c.toNat = 62 ∨ c.toNat = 38
  · have hlt : c.toNat < 128 := by omega
    have hd1 := hexValue_hexDigit (c.toNat / 16) (by omega)
    have hd2 := hexValue_hexDigit (c.toNat % 16) (by omega)
    have h0 : hexValue '0' = some 0 := by rfl
    have hv : hex4 '0' '0' (hexDigit (c.toNat / 16)) (hexDigit (c.toNat % 16)) = some c.toNat := by
      simp only [hex4, h0, hd1, hd2, Option.some.injEq]
      omega
    simp only [h1, h2, h3, h4, h5, h6, h7, h8, if_true, if_false, List.cons_append, List.nil_append]
    rw [unquoteFrom_hex _ _ _ _ c.toNat tail hv (by omega), Char.ofNat_toNat]
  by_cases h9 : c.toNat = 8232 ∨ c.toNat = 8233
  · simp only [h1, h2, h3, h4, h5, h6, h7, h8, h9, if_true, if_false, List.cons_append,
      List.nil_append]
    rcases h9 with h9 | h9
    · have hc := char_eq_of_toNat c 8232 h9
      subst hc
      exact unquoteFrom_hex _ _ _ _ 8232 tail (by rfl) (by omega)
    · have hc := char_eq_of_toNat c 8233 h9
      subst hc
      exact unquoteFrom_hex _ _ _ _ 8233 tail (by rfl) (by omega)
  · have hge : ¬ c.toNat < 32 := by omega
    simp only [h1, h2, h3, h4, h5, h6, h7, h8, h9, if_false, List.cons_append, List.nil_append]
    exact unquoteFrom_plain c tail h1 hge h2

theorem char_toNat_valid (c : Char) :
    c.toNat < 55296 ∨ (57343 < c.toNat ∧ c.toNat < 1114112) := by
  have h := c.valid
  simpa [UInt32.isValidChar, Nat.isValidChar, Char.toNat] using h

theorem decodeRune_utf8EncodeChar (c : Char) (tail : List Nat) :
    decodeRune (utf8EncodeChar c ++ tail) = (some c, (utf8EncodeChar c).length) := by
  have hv := char_toNat_valid c
  unfold utf8EncodeChar
  by_cases h1 : c.toNat < 128
  · simp only [h1, if_true, List.cons_append, List.nil_append, decodeRune, Char.ofNat_toNat,
      List.length_singleton]
  by_cases h2 : c.toNat < 2048
  · have a1 : ¬ (192 + c.toNat / 64 < 128) := by omega
    have a2 : 194 ≤ 192 + c.toNat / 64 ∧ 192 + c.toNat / 64 ≤ 223 := by omega
    have a3 : isContinuation (128 + c.toNat % 64) = true := by
      simp only [isContinuation, Bool.and_eq_true, decide_eq_true_eq]
      omega
    have a4 : (192 + c.toNat / 64 - 192) * 64 + (128 + c.toNat % 64 - 128) = c.toNat := by omega
    simp only [h1, h2, if_true, if_false, List.cons_append, List.nil_append, decodeRune,
      a1, a2, a3, a4, and_self, Char.ofNat_toNat, List.length_cons, List.length_nil]
  by_cases h3 : c.toNat < 65536
  · have a1 : ¬ (224 + c.toNat / 4096 < 128) := by omega
    have a2 : ¬ (194 ≤ 224 + c.toNat / 4096 ∧ 224 + c.toNat / 4096 ≤ 223) := by omega
    have a3 : 224 ≤ 224 + c.toNat / 4096 ∧ 224 + c.toNat / 4096 ≤ 239 := by omega
    have a4 : isContinuation (128 + c.toNat % 64) = true := by
      simp only [isContinuation, Bool.and_eq_true, decide_eq_true_eq]
      omega
    have a5 : (if 224 + c.toNat / 4096 = 224 then 160 else 128) ≤ 128 + c.toNat / 64 % 64 := by
      split_ifs <;> omega
    have a6 : 128 + c.toNat / 64 % 64 ≤ (if 224 + c.toNat / 4096 = 237 then 159 else 191) := by
      split_ifs <;> omega
    have a7 : (224 + c.toNat / 4096 - 224) * 4096 + (128 + c.toNat / 64 % 64 - 128) * 64
        + (128 + c.toNat % 64 - 128) = c.toNat := by omega
    simp only [h1, h2, h3, if_true, if_false, List.cons_append, List.nil_append, decodeRune,
      a1, a2, a3, a4, a5, a6, a7, and_self, Char.ofNat_toNat, List.length_cons, List.length_nil]
  · have a1 : ¬ (240 + c.toNat / 262144 < 128) := by omega
    have a2 : ¬ (194 ≤ 240 + c.toNat / 262144 ∧ 240 + c.toNat / 262144 ≤ 223) := by omega
    have a3 : ¬ (224 ≤ 240 + c.toNat / 262144 ∧ 240 + c.toNat / 262144 ≤ 239) := by omega
    have a3' : 240 ≤ 240 + c.toNat / 262144 ∧ 240 + c.toNat / 262144 ≤ 244 := by omega
    have a4 : isContinuation (128 + c.toNat % 64) = true := by
      simp only [isContinuation, Bool.and_eq_true, decide_eq_true_eq]
      omega
    have a4' : isContinuation (128 + c.toNat / 64 % 64) = true := by
      simp only [isContinuation, Bool.and_eq_true, decide_eq_true_eq]
      omega
    have a5 : (if 240 + c.toNat / 262144 = 240 then 144 else 128) ≤ 128 + c.toNat / 4096 % 64 := by
      split_ifs <;> omega
    have a6 : 128 + c.toNat / 4096 % 64 ≤ (if 240 + c.toNat / 262144 = 244 then 143 else 191) := by
      split_ifs <;> omega
    have a7 : (240 + c.toNat / 262144 - 240) * 262144 + (128 + c.toNat / 4096 % 64 - 128) * 4096
        + (128 + c.toNat / 64 % 64 - 128) * 64 + (128 + c.toNat % 64 - 128) = c.toNat := by omega
    simp only [h1, h2, h3, if_false, List.cons_append, List.nil_append, decodeRune,
      a1, a2, a3, a3', a4, a4', a5, a6, a7, and_self, if_true, Char.ofNat_toNat,
      List.length_cons, List.length_nil]

theorem decodeRunesFrom_skip (pre tail : List Nat) :
    decodeRunesFrom pre.length (pre ++ tail) = decodeRunesFrom 0 tail := by
  induction pre with
  | nil => rfl
  | cons b pre ih =>
    simp only [List.length_cons, List.cons_append, decodeRunesFrom]
    exact ih

theorem utf8EncodeChar_ne_nil (c : Char) : ∃ b rest, utf8EncodeChar c = b :: rest := by
  unfold utf8EncodeChar
  split_ifs <;> exact ⟨_, _, rfl⟩

theorem decodeRunes_utf8EncodeChar (c : Char) (tail : List Nat) :
    decodeRunes (utf8EncodeChar c ++ tail) = some c :: decodeRunes tail := by
  obtain ⟨b, rest, hb⟩ := utf8EncodeChar_ne_nil c
  have hd := decodeRune_utf8EncodeChar c tail
  unfold decodeRunes
  rw [hb] at hd ⊢
  rw [List.cons_append] at hd ⊢
  rw [decodeRunesFrom, hd]
  simp only [List.length_cons, Nat.add_sub_cancel]
  rw [decodeRunesFrom_skip]

theorem decodeRunes_utf8 (cs : List Char) :
    decodeRunes (cs.flatMap utf8EncodeChar) = cs.map some := by
  induction cs with
  | nil => rfl
  | cons c cs ih =>
    rw [List.flatMap_cons, decodeRunes_utf8EncodeChar, ih, List.map_cons]

theorem char_toNat_ofNat (n : Nat) (h : n < 55296 ∨ (57343 < n ∧ n < 1114112)) :
    (Char.ofNat n).toNat = n := by
  have hv : n.isValidChar := h
  unfold Char.ofNat
  rw [dif_pos hv]
  rfl

theorem utf8EncodeChar_ofNat2 (b0 b1 : Nat) (h0 : 194 ≤ b0 ∧ b0 ≤ 223)
    (h1 : isContinuation b1 = true) :
    utf8EncodeChar (Char.ofNat ((b0 - 192) * 64 + (b1 - 128))) = [b0, b1] := by
  simp only [isContinuation, Bool.and_eq_true, decide_eq_true_eq] at h1
  have hn := char_toNat_ofNat ((b0 - 192) * 64 + (b1 - 128)) (by omega)
  unfold utf8EncodeChar
  rw [hn]
  have a1 : ¬ ((b0 - 192) * 64 + (b1 - 128) < 128) := by omega
  have a2 : (b0 - 192) * 64 + (b1 - 128) < 2048 := by omega
  simp only [a1, a2, if_true, if_false, List.cons.injEq, and_true]
  constructor <;> omega

theorem utf8EncodeChar_ofNat3 (b0 b1 b2 : Nat) (h0 : 224 ≤ b0 ∧ b0 ≤ 239)
    (hlo : (if b0 = 224 then 160 else 128) ≤ b1) (hhi : b1 ≤ (if b0 = 237 then 159 else 191))
    (h2 : isContinuation b2 = true) :
    utf8EncodeChar (Char.ofNat ((b0 - 224) * 4096 + (b1 - 128) * 64 + (b2 - 128)))
      = [b0, b1, b2] := by
  simp only [isContinuation, Bool.and_eq_true, decide_eq_true_eq] at h2
  have hb1 : 128 ≤ b1 ∧ b1 ≤ 191 := by
    constructor
    · split_ifs at hlo <;> omega
    · split_ifs at hhi <;> omega
  have hlo' : b0 = 224 → 160 ≤ b1 := by
    intro h
    simpa [h] using hlo
  have hhi' : b0 = 237 → b1 ≤ 159 := by
    intro h
    simpa [h] using hhi
  have hn := char_toNat_ofNat ((b0 - 224) * 4096 + (b1 - 128) * 64 + (b2 - 128)) (by
    by_cases h237 : b0 = 237
    · have := hhi' h237
      omega
    · by_cases hlt : b0 < 237
      · left
        omega
      · right
        omega)
  unfold utf8EncodeChar
  rw [hn]
  have a1 : ¬ ((b0 - 224) * 4096 + (b1 - 128) * 64 + (b2 - 128) < 128) := by
    by_cases h224 : b0 = 224
    · have := hlo' h224
      omega
    · omega
  have a2 : ¬ ((b0 - 224) * 4096 + (b1 - 128) * 64 + (b2 - 128) < 2048) := by
    by_cases h224 : b0 = 224
    · have := hlo' h224
      omega
    · omega
  have a3 : (b0 - 224) * 4096 + (b1 - 128) * 64 + (b2 - 128) < 65536 := by omega
  simp only [a1, a2, a3, if_true, if_false, List.cons.injEq, and_true]
  refine ⟨?_, ?_, ?_⟩ <;> omega

theorem utf8EncodeChar_ofNat4 (b0 b1 b2 b3 : Nat) (h0 : 240 ≤ b0 ∧ b0 ≤ 244)
    (hlo : (if b0 = 240 then 144 else 128) ≤ b1) (hhi : b1 ≤ (if b0 = 244 then 143 else 191))
    (h2 : isContinuation b2 = true) (h3 : isContinuation b3 = true) :
    utf8EncodeChar (Char.ofNat ((b0 - 240) * 262144 + (b1 - 128) * 4096 + (b2 - 128) * 64
      + (b3 - 128))) = [b0, b1, b2, b3] := by
  simp only [isContinuation, Bool.and_eq_true, decide_eq_true_eq] at h2 h3
  have hb1 : 128 ≤ b1 ∧ b1 ≤ 191 := by
    constructor
    · split_ifs at hlo <;> omega
    · split_ifs at hhi <;> omega
  have hlo' : b0 = 240 → 144 ≤ b1 := by
    intro h
    simpa [h] using hlo
  have hhi' : b0 = 244 → b1 ≤ 143 := by
    intro h
    simpa [h] using hhi
  have hge : 65536 ≤ (b0 - 240) * 262144 + (b1 - 128) * 4096 + (b2 - 128) * 64 + (b3 - 128) := by
    by_cases h240 : b0 = 240
    · have := hlo' h240
      omega
    · omega
  have hlt : (b0 - 240) * 262144 + (b1 - 128) * 4096 + (b2 - 128) * 64 + (b3 - 128)
      < 1114112 := by
    by_cases h244 : b0 = 244
    · have := hhi' h244
      omega
    · omega
  have hn := char_toNat_ofNat
    ((b0 - 240) * 262144 + (b1 - 128) * 4096 + (b2 - 128) * 64 + (b3 - 128)) (by omega)
  unfold utf8EncodeChar
  rw [hn]
  have a1 : ¬ ((b0 - 240) * 262144 + (b1 - 128) * 4096 + (b2 - 128) * 64 + (b3 - 128)
      < 128) := by omega
  have a2 : ¬ ((b0 - 240) * 262144 + (b1 - 128) * 4096 + (b2 - 128) * 64 + (b3 - 128)
      < 2048) := by omega
  have a3 : ¬ ((b0 - 240) * 262144 + (b1 - 128) * 4096 + (b2 - 128) * 64 + (b3 - 128)
      < 65536) := by omega
  simp only [a1, a2, a3, if_false, List.cons.injEq, and_true]
  refine ⟨?_, ?_, ?_, ?_⟩ <;> omega

theorem decodeRune_some (b0 : Nat) (rest : List Nat) (c : Char) (k : Nat)
    (h : decodeRune (b0 :: rest) = (some c, k)) :
    ∃ tail, b0 :: rest = utf8EncodeChar c ++ tail ∧ (utf8EncodeChar c).length = k := by
  unfold decodeRune at h
  by_cases h1 : b0 < 128
  · simp only [h1, if_true, Prod.mk.injEq, Option.some.injEq] at h
    obtain ⟨hc, hk⟩ := h
    have hn := char_toNat_ofNat b0 (by omega)
    subst hc
    subst hk
    refine ⟨rest, ?_, ?_⟩ <;> simp [utf8EncodeChar, hn, h1]
  simp only [h1, if_false] at h
  by_cases h2 : 194 ≤ b0 ∧ b0 ≤ 223
  · simp only [h2, and_self, if_true] at h
    cases rest with
    | nil => simp at h
    | cons b1 rest1 =>
      simp only at h
      by_cases hc1 : isContinuation b1 = true
      · simp only [hc1, if_true, Prod.mk.injEq, Option.some.injEq] at h
        obtain ⟨hc, hk⟩ := h
        have he := utf8EncodeChar_ofNat2 b0 b1 h2 hc1
        rw [hc] at he
        exact ⟨rest1, by rw [he]; rfl, by rw [he, ← hk]; rfl⟩
      · simp [hc1] at h
  simp only [h2, if_false] at h
  by_cases h3 : 224 ≤ b0 ∧ b0 ≤ 239
  · simp only [h3, and_self, if_true] at h
    match rest, h with
    | [], h => simp at h
    | [_], h => simp at h
    | b1 :: b2 :: rest2, h =>
      simp only at h
      by_cases hc : (if b0 = 224 then 160 else 128) ≤ b1 ∧
          b1 ≤ (if b0 = 237 then 159 else 191) ∧ isContinuation b2 = true
      · rw [if_pos hc] at h
        simp only [Prod.mk.injEq, Option.some.injEq] at h
        obtain ⟨hch, hk⟩ := h
        have he := utf8EncodeChar_ofNat3 b0 b1 b2 h3 hc.1 hc.2.1 hc.2.2
        rw [hch] at he
        exact ⟨rest2, by rw [he]; rfl, by rw [he, ← hk]; rfl⟩
      · rw [if_neg hc] at h
        simp at h
  simp only [h3, if_false] at h
  by_cases h4 : 240 ≤ b0 ∧ b0 ≤ 244
  · simp only [h4, and_self, if_true] at h
    match rest, h with
    | [], h => simp at h
    | [_], h => simp at h
    | [_, _], h => simp at h
    | b1 :: b2 :: b3 :: rest3, h =>
      simp only at h
      by_cases hc : (if b0 = 240 then 144 else 128) ≤ b1 ∧
          b1 ≤ (if b0 = 244 then 143 else 191) ∧ isContinuation b2 = true ∧
          isContinuation b3 = true
      · rw [if_pos hc] at h
        simp only [Prod.mk.injEq, Option.some.injEq] at h
        obtain ⟨hch, hk⟩ := h
        have he := utf8EncodeChar_ofNat4 b0 b1 b2 b3 h4 hc.1 hc.2.1 hc.2.2.1 hc.2.2.2
        rw [hch] at he
        exact ⟨rest3, by rw [he]; rfl, by rw [he, ← hk]; rfl⟩
      · rw [if_neg hc] at h
        simp at h
  · simp [h4] at h

theorem decodeRunes_cons (b0 : Nat) (rest : List Nat) (c : Char) (k : Nat)
    (h : decodeRune (b0 :: rest) = (some c, k)) :
    ∃ tail, b0 :: rest = utf8EncodeChar c ++ tail ∧
      decodeRunes (b0 :: rest) = some c :: decodeRunes tail := by
  obtain ⟨tail, hsplit, hlen⟩ := decodeRune_some b0 rest c k h
  refine ⟨tail, hsplit, ?_⟩
  obtain ⟨b, pre, hb⟩ := utf8EncodeChar_ne_nil c
  rw [hb, List.cons_append, List.cons.injEq] at hsplit
  rw [hb, List.length_cons] at hlen
  unfold decodeRunes
  rw [decodeRunesFrom, h]
  simp only
  rw [← hlen, Nat.add_sub_cancel, hsplit.2, decodeRunesFrom_skip]

theorem decodeRunes_valid_encode :
    ∀ (n : Nat) (bs : List Nat), bs.length ≤ n → validUTF8 bs = true →
      (decodeRunes bs).flatMap (fun r => utf8EncodeChar (r.getD replacementChar)) = bs := by
  intro n
  induction n with
  | zero =>
    intro bs hlen _
    have : bs = [] := List.length_eq_zero.mp (by omega)
    subst this
    rfl
  | succ n ih =>
    intro bs hlen hvalid
    cases bs with
    | nil => rfl
    | cons b0 rest =>
      cases hd : decodeRune (b0 :: rest) with
      | mk r k =>
        cases r with
        | none =>
          exfalso
          unfold validUTF8 decodeRunes at hvalid
          rw [decodeRunesFrom, hd] at hvalid
          simp at hvalid
        | some c =>
          obtain ⟨tail, hsplit, hdec⟩ := decodeRunes_cons b0 rest c k hd
          have htail : tail.length ≤ n := by
            obtain ⟨b, pre, hb⟩ := utf8EncodeChar_ne_nil c
            have hl := congrArg List.length hsplit
            rw [hb] at hl
            simp only [List.length_cons, List.length_append] at hl hlen
            omega
          have hvt : validUTF8 tail = true := by
            unfold validUTF8 at hvalid ⊢
            rw [hdec] at hvalid
            simpa using hvalid
          rw [hdec, List.flatMap_cons, ih tail htail hvt, Option.getD_some, ← hsplit]

theorem utf8Bytes_coerceToText (bs : List Nat) (h : validUTF8 bs = true) :
    utf8Bytes (coerceToText bs) = bs := by
  unfold utf8Bytes coerceToText
  simp only [List.flatMap_map]
  exact decodeRunes_valid_encode bs.length bs (Nat.le_refl _) h

theorem unquoteFrom_escapeRune (short : Bool) (r : Option Char) (tail : List Char) :
    unquoteFrom none (escapeRune short r ++ tail)
      = pushChar (r.getD replacementChar) (unquoteFrom none tail) := by
  cases r with
  | some c => exact unquoteFrom_escapeChar short c tail
  | none =>
    simp only [escapeRune, List.cons_append, List.nil_append, Option.getD_none, replacementChar]
    exact unquoteFrom_hex _ _ _ _ 65533 tail (by rfl) (by omega)

theorem unquoteBody_quoted (short : Bool) (s : List (Option Char)) (tail : List Char) :
    unquoteBody (s.flatMap (escapeRune short) ++ Char.ofNat 34 :: tail)
      = some (s.map (fun r => r.getD replacementChar), tail) := by
  unfold unquoteBody
  induction s with
  | nil => exact unquoteFrom_quote tail
  | cons c s ih =>
    rw [List.flatMap_cons, List.append_assoc, unquoteFrom_escapeRune, ih]
    rfl

theorem coerceToText_utf8Bytes (s : String) : coerceToText (utf8Bytes s) = s := by
  unfold coerceToText utf8Bytes
  rw [decodeRunes_utf8, List.map_map]
  have h : ((fun r : Option Char => r.getD replacementChar) ∘ some) = id := by
    funext c
    rfl
  rw [h, List.map_id]

theorem decodeSettingsMembers_step (fuel : Nat) (s0 : CurrentSettings) (short : Bool)
    (tag : String) (value : List Nat) (rest : List Char) (hk : isSettingsKey tag = true) :
    decodeSettingsMembers (fuel + 1) s0
        (Char.ofNat 34 :: ((decodeRunes (utf8Bytes tag)).flatMap (escapeRune short) ++
          Char.ofNat 34 :: Char.ofNat 58 :: Char.ofNat 32 :: Char.ofNat 34 ::
            ((decodeRunes value).flatMap (escapeRune short) ++ Char.ofNat 34 :: rest)))
      = (match skipSpace rest with
         | d :: rest2 =>
           if d.toNat = 44 then
             decodeSettingsMembers fuel (setSettingsField s0 tag (coerceToText value))
               (skipSpace rest2)
           else if d.toNat = 125 then
             some (setSettingsField s0 tag (coerceToText value), rest2)
           else none
         | [] => none) := by
  have hq : (Char.ofNat 34).toNat = 34 := by rfl
  have hcolon : skipSpace (Char.ofNat 58 :: Char.ofNat 32 :: Char.ofNat 34 ::
      ((decodeRunes value).flatMap (escapeRune short) ++ Char.ofNat 34 :: rest))
      = Char.ofNat 58 :: Char.ofNat 32 :: Char.ofNat 34 ::
        ((decodeRunes value).flatMap (escapeRune short) ++ Char.ofNat 34 :: rest) := by
    simp +decide [skipSpace, isJsonSpace]
  have hval : skipSpace (Char.ofNat 32 :: Char.ofNat 34 ::
      ((decodeRunes value).flatMap (escapeRune short) ++ Char.ofNat 34 :: rest))
      = Char.ofNat 34 :: ((decodeRunes value).flatMap (escapeRune short) ++ Char.ofNat 34 :: rest) := by
    simp +decide [skipSpace, isJsonSpace]
  have hc58 : (Char.ofNat 58).toNat = 58 := by rfl
  have htag : String.mk ((decodeRunes (utf8Bytes tag)).map (fun r => r.getD replacementChar))
      = tag := coerceToText_utf8Bytes tag
  rw [decodeSettingsMembers]
  simp only [hq, if_true, unquoteBody_quoted, hcolon, hc58, hval, decodeSettingsValue, htag, hk,
    coerceToText]

theorem marshalIndentSettings_form (short : Bool) (s : CurrentSettingsBytes) :
    marshalIndentSettings short s
      = Char.ofNat 123 :: Char.ofNat 10 :: Char.ofNat 32 :: Char.ofNat 32 :: Char.ofNat 34 ::
        ((decodeRunes (utf8Bytes "wmi_status")).flatMap (escapeRune short) ++ Char.ofNat 34 ::
          Char.ofNat 58 :: Char.ofNat 32 :: Char.ofNat 34 ::
        ((decodeRunes s.wmiStatus).flatMap (escapeRune short) ++ Char.ofNat 34 ::
          Char.ofNat 44 :: Char.ofNat 10 :: Char.ofNat 32 :: Char.ofNat 32 :: Char.ofNat 34 ::
        ((decodeRunes (utf8Bytes "remote_registry_status")).flatMap (escapeRune short) ++
          Char.ofNat 34 :: Char.ofNat 58 :: Char.ofNat 32 :: Char.ofNat 34 ::
        ((decodeRunes s.remoteRegistryStatus).flatMap (escapeRune short) ++ Char.ofNat 34 ::
          Char.ofNat 44 :: Char.ofNat 10 :: Char.ofNat 32 :: Char.ofNat 32 :: Char.ofNat 34 ::
        ((decodeRunes (utf8Bytes "remote_registry_startup_type")).flatMap (escapeRune short) ++
          Char.ofNat 34 :: Char.ofNat 58 :: Char.ofNat 32 :: Char.ofNat 34 ::
        ((decodeRunes s.remoteRegistryStartupType).flatMap (escapeRune short) ++ Char.ofNat 34 ::
          Char.ofNat 44 :: Char.ofNat 10 :: Char.ofNat 32 :: Char.ofNat 32 :: Char.ofNat 34 ::
        ((decodeRunes (utf8Bytes "file_sharing_status")).flatMap (escapeRune short) ++
          Char.ofNat 34 :: Char.ofNat 58 :: Char.ofNat 32 :: Char.ofNat 34 ::
        ((decodeRunes s.fileSharingStatus).flatMap (escapeRune short) ++ Char.ofNat 34 ::
          Char.ofNat 44 :: Char.ofNat 10 :: Char.ofNat 32 :: Char.ofNat 32 :: Char.ofNat 34 ::
        ((decodeRunes (utf8Bytes "local_account_token_filter_policy")).flatMap
            (escapeRune short) ++
          Char.ofNat 34 :: Char.ofNat 58 :: Char.ofNat 32 :: Char.ofNat 34 ::
        ((decodeRunes s.localAccountTokenFilterPolicy).flatMap (escapeRune short) ++
          Char.ofNat 34 :: [Char.ofNat 10, Char.ofNat 125])))))))))) := by
  simp only [marshalIndentSettings, marshalMember, quoteBytes, memberBreak, List.append_assoc,
    List.cons_append, List.nil_append]

/-- What `json.Unmarshal` makes of the text `json.MarshalIndent` wrote: every field
comes back as its text, with U+FFFD for each byte that was not valid UTF-8. -/
theorem unmarshal_marshalIndent (short : Bool) (s : CurrentSettingsBytes) :
    unmarshalSettings (marshalIndentSettings short s)
      = some ⟨coerceToText s.wmiStatus, coerceToText s.remoteRegistryStatus,
          coerceToText s.remoteRegistryStartupType, coerceToText s.fileSharingStatus,
          coerceToText s.localAccountTokenFilterPolicy⟩ := by
  obtain ⟨k, hk⟩ : ∃ k, (marshalIndentSettings short s).length = k + 5 := by
    refine ⟨(marshalIndentSettings short s).length - 5, ?_⟩
    rw [marshalIndentSettings_form]
    simp only [List.length_cons, List.length_append]
    omega
  have h123 : (Char.ofNat 123).toNat = 123 := by rfl
  have h34 : (Char.ofNat 34).toNat = 34 := by rfl
  have h44 : (Char.ofNat 44).toNat = 44 := by rfl
  have h125 : (Char.ofNat 125).toNat = 125 := by rfl
  have hopen : ∀ rest, skipSpace (Char.ofNat 123 :: rest) = Char.ofNat 123 :: rest := by
    intro rest
    simp +decide [skipSpace, isJsonSpace]
  have hindent : ∀ rest, skipSpace (Char.ofNat 10 :: Char.ofNat 32 :: Char.ofNat 32 ::
      Char.ofNat 34 :: rest) = Char.ofNat 34 :: rest := by
    intro rest
    simp +decide [skipSpace, isJsonSpace]
  have hcomma : ∀ rest, skipSpace (Char.ofNat 44 :: rest) = Char.ofNat 44 :: rest := by
    intro rest
    simp +decide [skipSpace, isJsonSpace]
  have hclose : skipSpace [Char.ofNat 10, Char.ofNat 125] = [Char.ofNat 125] := by
    simp +decide [skipSpace, isJsonSpace]
  unfold unmarshalSettings
  rw [hk, marshalIndentSettings_form]
  simp only [hopen, hindent, h123, h34, if_true]
  simp +decide only [if_false]
  rw [decodeSettingsMembers_step _ _ _ _ _ _ (by decide)]
  simp only [hcomma, h44, if_true, hindent]
  rw [decodeSettingsMembers_step _ _ _ _ _ _ (by decide)]
  simp only [hcomma, h44, if_true, hindent]
  rw [decodeSettingsMembers_step _ _ _ _ _ _ (by decide)]
  simp only [hcomma, h44, if_true, hindent]
  rw [decodeSettingsMembers_step _ _ _ _ _ _ (by decide)]
  simp only [hcomma, h44, if_true, hindent]
  rw [decodeSettingsMembers_step _ _ _ _ _ _ (by decide)]
  simp only [hclose, h125]
  simp +decide [skipSpace, setSettingsField, CurrentSettings.zero]

theorem loadSettingsFromText_marshalIndent (short : Bool) (b : CurrentSettingsBytes) :
    loadSettingsFromText (some (marshalIndentSettings short b))
      = ⟨[.readSettingsFile], .ret ⟨coerceToText b.wmiStatus, coerceToText b.remoteRegistryStatus,
          coerceToText b.remoteRegistryStartupType, coerceToText b.fileSharingStatus,
          coerceToText b.localAccountTokenFilterPolicy⟩⟩ := by
  simp only [loadSettingsFromText, Option.bind, unmarshal_marshalIndent, loadSettingsFromFile]

/-- C11, counterexample: a `CurrentSettings` whose `WMIStatus` is the single byte
`0xff`, which is not valid UTF-8. `saveSettingsToFile` writes the member as
`"wmi_status": "\ufffd"`, and `loadSettingsFromFile` returns the character U+FFFD,
the three bytes `0xef 0xbf 0xbd`, in that field: the value loaded differs from the
value saved. -/
theorem settings_invalid_byte_replaced :
    validUTF8 [255] = false ∧
    marshalMember false "wmi_status" [255] = "\"wmi_status\": \"\\ufffd\"".data ∧
    loadSettingsFromText (some (marshalIndentSettings false ⟨[255], [], [], [], []⟩))
      = ⟨[.readSettingsFile], .ret ⟨String.mk [replacementChar], "", "", "", ""⟩⟩ ∧
    (CurrentSettings.bytes ⟨String.mk [replacementChar], "", "", "", ""⟩).wmiStatus
      = [239, 191, 189] ∧
    CurrentSettings.bytes ⟨String.mk [replacementChar], "", "", "", ""⟩
      ≠ ⟨[255], [], [], [], []⟩ := by
  refine ⟨by decide, by decide, ?_, by decide, by decide⟩
  rw [loadSettingsFromText_marshalIndent]
  rfl

/-- C11, amended: the settings snapshot survives the file when its fields are
valid UTF-8. `saveSettingsToFile` writes the indented JSON text of the value. For
every `CurrentSettings` value `b`, whatever bytes its five fields hold,
`loadSettingsFromFile`, reading that text, returns each field as its text with
U+FFFD in the place of every byte that is not part of valid UTF-8; when the five
fields of `b` are valid UTF-8, the value it returns is equal to `b`, field by
field. Said of the values given as text: each of them is returned as it is. It
holds for both ways in which releases of Go escape backspace and form feed. -/
theorem settings_round_trip (short : Bool) (b : CurrentSettingsBytes) :
    (saveSettingsToFile short b true).ctl = .ret (marshalIndentSettings short b) ∧
    loadSettingsFromText (some (marshalIndentSettings short b))
      = ⟨[.readSettingsFile], .ret ⟨coerceToText b.wmiStatus, coerceToText b.remoteRegistryStatus,
          coerceToText b.remoteRegistryStartupType, coerceToText b.fileSharingStatus,
          coerceToText b.localAccountTokenFilterPolicy⟩⟩ ∧
    (validUTF8 b.wmiStatus = true → validUTF8 b.remoteRegistryStatus = true →
      validUTF8 b.remoteRegistryStartupType = true → validUTF8 b.fileSharingStatus = true →
      validUTF8 b.localAccountTokenFilterPolicy = true →
      ∀ loaded, (loadSettingsFromText (some (marshalIndentSettings short b))).ctl = .ret loaded →
        loaded.bytes.wmiStatus = b.wmiStatus ∧
        loaded.bytes.remoteRegistryStatus = b.remoteRegistryStatus ∧
        loaded.bytes.remoteRegistryStartupType = b.remoteRegistryStartupType ∧
        loaded.bytes.fileSharingStatus = b.fileSharingStatus ∧
        loaded.bytes.localAccountTokenFilterPolicy = b.localAccountTokenFilterPolicy) ∧
    (∀ s : CurrentSettings,
      loadSettingsFromText (some (marshalIndentSettings short s.bytes))
        = ⟨[.readSettingsFile], .ret s⟩) := by
  refine ⟨rfl, loadSettingsFromText_marshalIndent short b, ?_, ?_⟩
  · intro h1 h2 h3 h4 h5 loaded h
    rw [loadSettingsFromText_marshalIndent] at h
    simp only [Ctl.ret.injEq] at h
    rw [← h]
    simp only [CurrentSettings.bytes]
    exact ⟨utf8Bytes_coerceToText _ h1, utf8Bytes_coerceToText _ h2, utf8Bytes_coerceToText _ h3,
      utf8Bytes_coerceToText _ h4, utf8Bytes_coerceToText _ h5⟩
  · intro s
    rw [loadSettingsFromText_marshalIndent]
    simp only [CurrentSettings.bytes, coerceToText_utf8Bytes]

/-- Witness of `settings_round_trip`: the snapshot of a host with both services
running, file sharing enabled, automatic start and no token filter policy. -/
theorem settings_round_trip_witness :
    validUTF8 [115, 116, 111, 112] = true ∧ validUTF8 [97, 117, 116, 111] = true ∧
    validUTF8 [110, 111] = true ∧ validUTF8 [48] = true ∧
    (∀ loaded, (loadSettingsFromText (some (marshalIndentSettings false
        ⟨[115, 116, 111, 112], [115, 116, 111, 112], [97, 117, 116, 111], [110, 111], [48]⟩))).ctl
        = .ret loaded →
      loaded.bytes.wmiStatus = [115, 116, 111, 112] ∧
      loaded.bytes.remoteRegistryStatus = [115, 116, 111, 112] ∧
      loaded.bytes.remoteRegistryStartupType = [97, 117, 116, 111] ∧
      loaded.bytes.fileSharingStatus = [110, 111] ∧
      loaded.bytes.localAccountTokenFilterPolicy = [48]) :=
  ⟨by decide, by decide, by decide, by decide,
   (settings_round_trip false
      ⟨[115, 116, 111, 112], [115, 116, 111, 112], [97, 117, 116, 111], [110, 111], [48]⟩).2.2.1
      (by decide) (by decide) (by decide) (by decide) (by decide)⟩

end NessusClient
